import Mathlib

/-!
# p44maintd: configuration store and identity resolution pipeline

A shallow embedding of the `P44maintd` class of `p44maintd.cpp`.

* A C++ `string` is a list of characters (`Str`).
* The `DefsMap` (`std::map<string,string>`) is the finite partial function it
  denotes: `find` is application, `defs[key] = value` is `DefsMap.assign`.
* A file is presented as the sequence of lines that `string_fgetline` delivers
  for it; a path that `fopen` cannot open has no file.
* `fork_and_system` does not run anything in the model: a function that issues
  it returns `Outcome.forked`, carrying the command line, the continuation that
  was bound and the store at that moment.
-/

namespace P44maintd

/-- A C++ `string`. -/
abbrev Str := List Char

/-- The double quote character. -/
def dquote : Char := Char.ofNat 34

/-- The single quote character. -/
def squote : Char := Char.ofNat 39

/-- The backslash character. -/
def backslash : Char := Char.ofNat 92

/-! ## Helpers of the p44utils library -/

/-- Modelled from the spec: `isspace` of the C library in the "C" locale, used by
the p44utils helper `trimWhiteSpace` (space, tab, newline, vertical tab, form
feed, carriage return). -/
def isspace (c : Char) : Bool :=
  c = ' ' || c = '\t' || c = '\n' || c = Char.ofNat 11 || c = Char.ofNat 12 || c = '\r'

/-- Modelled from the spec: `trimWhiteSpace(aString, aLeading, aTrailing)` of
p44utils (utils.cpp is not part of the sources): removes the white space at the
start when `aLeading` and at the end when `aTrailing`. -/
def trimWhiteSpace (aString : Str) (aLeading aTrailing : Bool) : Str :=
  let s := if aLeading then aString.dropWhile isspace else aString
  if aTrailing then (s.reverse.dropWhile isspace).reverse else s

/-- Modelled from the spec: `keyAndValue(aInput, aKey, aValue, aSeparator)` of
p44utils (utils.cpp is not part of the sources): splits at the first separator,
the key trimmed on both sides, the value trimmed at its start only; fails when
there is no separator or the key is empty. -/
def keyAndValue (aInput : Str) (aSeparator : Char) : Option (Str × Str) :=
  if aSeparator ∈ aInput then
    let aKey := trimWhiteSpace (aInput.takeWhile (fun c => c != aSeparator)) true true
    let aValue := trimWhiteSpace ((aInput.dropWhile (fun c => c != aSeparator)).drop 1) true false
    if aKey.length > 0 then some (aKey, aValue) else none
  else none

/-! ## The definitions store -/

/-- The `DefsMap`: `std::map<string,string>`, as the partial function it denotes. -/
abbrev DefsMap := Str → Option Str

/-- The empty store (`defs.clear()`). -/
def DefsMap.empty : DefsMap := fun _ => none

/-- The assignment `aDefs[key] = value`. -/
def DefsMap.assign (aDefs : DefsMap) (key value : Str) : DefsMap :=
  fun k => if k = key then some value else aDefs k

/-- The lookup `getDef(aKey, aDef)`: the value when the key is found. -/
def getDef (defs : DefsMap) (aKey : Str) : Option Str := defs aKey

/-- The lookup `getDef(aKey)` returning a string: empty when the key is not found. -/
def getDefStr (defs : DefsMap) (aKey : Str) : Str := (defs aKey).getD []

/-- The method `setDefDefault(aKey, aValue)`: the returned flag and the store afterwards. -/
def setDefDefault (defs : DefsMap) (aKey aValue : Str) : Bool × DefsMap :=
  if (defs aKey).isSome then (false, defs)
  else (true, defs.assign aKey aValue)

/-! ## Reading definition files -/

/-- The file system seen by the daemon: the lines `string_fgetline` delivers for
the file at a path, or nothing when the file cannot be opened. -/
abbrev FileSystem := Str → Option (List Str)

/-- The dequoting loop of `readDefsFrom`: `rest` is `value` from index `i` on. -/
def dequoteLoop (quote : Char) (escaped : Bool) (rest dequoted : Str) : Str :=
  match rest with
  | [] => dequoted
  | c :: more =>
    if !escaped && c == quote then dequoted
    else if !escaped && c == backslash then dequoteLoop quote true more dequoted
    else dequoteLoop quote false more (dequoted ++ [c])

/-- The text `readDefsFrom` stores for the value part of a line. -/
def storedValue (value : Str) : Str :=
  match value with
  | [] => value
  | q :: rest =>
    if q = dquote ∨ q = squote then dequoteLoop q false rest []
    else value

/-- One turn of the line loop of `readDefsFrom`, on the pair of the store and
the flag `readAnything`. -/
def readDefsLine (st : DefsMap × Bool) (line : Str) : DefsMap × Bool :=
  let l := trimWhiteSpace line true false
  if l.length > 0 ∧ l.head? ≠ some '#' then
    match keyAndValue line '=' with
    | some (key, value) => (st.1.assign key (storedValue value), true)
    | none => st
  else st

/-- The method `readDefsFrom(aFileName, aDefs)`: the flag `readAnything` and the
store afterwards. -/
def readDefsFrom (fs : FileSystem) (aFileName : Str) (aDefs : DefsMap) : Bool × DefsMap :=
  match fs aFileName with
  | some lines =>
    let st := lines.foldl readDefsLine (aDefs, false)
    (st.2, st.1)
  | none => (false, aDefs)

/-- Modelled from the spec: `string_fgetfirstline(aFileName, aLine)` of p44utils
(utils.cpp is not part of the sources): the first line of the file, when the
file can be opened and has one. -/
def string_fgetfirstline (fs : FileSystem) (aFileName : Str) : Option Str :=
  match fs aFileName with
  | some lines => lines.head?
  | none => none

/-- The method `readDefFromFirstLine(aFileName, key)`: the returned flag and the
store afterwards. -/
def readDefFromFirstLine (fs : FileSystem) (aFileName key : Str) (defs : DefsMap) :
    Bool × DefsMap :=
  match string_fgetfirstline fs aFileName with
  | some value => (true, defs.assign key value)
  | none => (false, defs)

/-! ## Notions used to state the properties -/

/-- The key and raw value of a line that `readDefsFrom` accepts: the line is not
blank, does not start with `#` and splits at `=` with a non-empty key. -/
def acceptedLine (line : Str) : Option (Str × Str) :=
  let l := trimWhiteSpace line true false
  if l.length > 0 ∧ l.head? ≠ some '#' then keyAndValue line '=' else none

/-- The values that the accepted lines of a file give to key `k`, in file order. -/
def definitionsOf (lines : List Str) (k : Str) : List Str :=
  (lines.filterMap acceptedLine).filterMap
    (fun kv => if kv.1 = k then some (storedValue kv.2) else none)

/-- The values that the file at a path gives to key `k`; none for a missing file. -/
def fileDefinitionsOf (fs : FileSystem) (aFileName k : Str) : List Str :=
  match fs aFileName with
  | some lines => definitionsOf lines k
  | none => []

/-- One unit of the text inside a quoted value: a plain character, or a
backslash followed by a character that is thereby taken literally. -/
inductive QItem
  | plain (c : Char)
  | escaped (c : Char)
  deriving DecidableEq, Repr

/-- How a unit is written in the file. -/
def QItem.written : QItem → Str
  | .plain c => [c]
  | .escaped c => [backslash, c]

/-- The character a unit stands for. -/
def QItem.meant : QItem → Char
  | .plain c => c
  | .escaped c => c

/-- A plain character inside a value quoted with `quote` is neither that quote
(which would close the value) nor a backslash (which would escape). -/
def QItem.wellFormed (quote : Char) : QItem → Bool
  | .plain c => c != quote && c != backslash
  | .escaped _ => true

/-- The text of a quoted value as written: the units one after the other. -/
def writtenText : List QItem → Str
  | [] => []
  | item :: items => item.written ++ writtenText items

/-! ## Environment of the daemon -/

/-- The build environment selected by the `BUILDENV_XCODE` and
`BUILDENV_GENERIC` preprocessor switches; `target` is a build with neither. -/
inductive BuildEnv
  | xcode
  | generic
  | target
  deriving DecidableEq, Repr

/-- Everything outside the process that the identification reads. -/
structure Env where
  /-- The preprocessor configuration. -/
  build : BuildEnv
  /-- The member `defspath` (the defs directory, ending in a slash). -/
  defspath : Str
  /-- The files. -/
  fs : FileSystem
  /-- The standard output that `fork_and_system` captures for a command line. -/
  captured : Str → Str
  /-- The result of `string_ftime("%Y-%m-%d %H:%M:%S")`. -/
  now : Str
  /-- The current year, `tim->tm_year+1900`. -/
  year : Nat
  /-- The result of `macAddress()`, a `uint64_t`. -/
  macAddress : Nat
  /-- The result of `ipv4Address()`, a `uint32_t`. -/
  ipv4Address : Nat

/-- The path `FLASH_PATH`. -/
def FLASH_PATH : Str := "/flash/".toList

/-- The path `COMPUTING_MODULE_FILE`. -/
def COMPUTING_MODULE_FILE : Str := "/tmp/p44-computing-module".toList

/-- The method `serial()`, on the hardware address as a `uint64_t`. -/
def serial (macAddress : Nat) : Nat :=
  let mac := macAddress % 2 ^ 64
  let serial := mac &&& 0xFFFFFF
  if mac >>> 24 = 0x00409D then serial ||| (1 <<< 24)
  else if mac >>> 24 = 0xB827EB then serial ||| (2 <<< 24)
  else if mac >>> 24 = 0x40A36B then serial ||| (3 <<< 24)
  else serial ||| (42 <<< 24)

/-- The conversion `%lld` of `string_format` applied to a `uint64_t`. -/
def fmt_lld (x : Nat) : Str :=
  let u := x % 2 ^ 64
  if u < 2 ^ 63 then Nat.toDigits 10 u else '-' :: Nat.toDigits 10 (2 ^ 64 - u)

/-- The conversion `%d` of `string_format` applied to a small unsigned value. -/
def fmt_d (x : Nat) : Str := Nat.toDigits 10 x

/-- The conversion `%04d` of `string_format` applied to a non-negative value. -/
def fmt_04d (x : Nat) : Str :=
  let digits := Nat.toDigits 10 x
  List.replicate (4 - digits.length) '0' ++ digits

/-- The conversion `%02X` of `string_format` applied to a byte. -/
def fmt_02X (x : Nat) : Str :=
  let digits := (Nat.toDigits 16 x).map Char.toUpper
  List.replicate (2 - digits.length) '0' ++ digits

/-- The loop of `processVariantSpecifics` building the colon separated hardware
address, from index `i` upwards (`n` turns left). -/
def macStrLoop (mac : Nat) (i n : Nat) (macStr : Str) : Str :=
  match n with
  | 0 => macStr
  | n + 1 =>
    let macStr := if i > 0 then macStr ++ [':'] else macStr
    macStrLoop mac (i + 1) n (macStr ++ fmt_02X ((mac >>> ((5 - i) * 8)) &&& 0xFF))

/-! ## The identification pipeline -/

/-- The continuation bound to a `fork_and_system` call of the pipeline:
`platformidQueryDone`, `productidQueryDone`, `producerQueryDone`, `variantQueryDone`. -/
inductive Getter
  | platformid
  | productid
  | producer
  | variant
  deriving DecidableEq, Repr

/-- How a pipeline function ends: it has issued `fork_and_system` for a command
line with a continuation bound and returned, or it has called `aCallback`. Both
carry the store `defs` of that moment. -/
inductive Outcome
  | forked (cmd : Str) (cont : Getter) (defs : DefsMap)
  | called (defs : DefsMap)

/-- The method `setDefDefaults()`: the returned flag and the store afterwards. -/
def setDefDefaults (env : Env) (defs : DefsMap) : Bool × DefsMap :=
  let defs := defs.assign "STATUS_TIME".toList env.now
  match env.build with
  | .xcode =>
    let defs := defs.assign "PLATFORM_IDENTIFIER".toList "xcode_dummy".toList
    let defs := defs.assign "PLATFORM_NAME".toList "MacOSX".toList
    let defs := defs.assign "PRODUCT_IDENTIFIER".toList "p44-xx-mac-xcode".toList
    let defs := defs.assign "PRODUCT_MODEL".toList "P44-XX-MAC".toList
    let defs := defs.assign "PRODUCT_VARIANT".toList "Apple".toList
    let defs := defs.assign "PRODUCT_HOSTPREFIX".toList "p44_xx_mac".toList
    let defs := defs.assign "FIRMWARE_VERSION".toList "0.0.0.42".toList
    let defs := defs.assign "FIRMWARE_FEED".toList "opensource".toList
    let defs := defs.assign "STATUS_USER_LEVEL".toList "0".toList
    (false, defs)
  | .generic =>
    let defs := defs.assign "PLATFORM_IDENTIFIER".toList "generic_dummy".toList
    let defs := defs.assign "PLATFORM_NAME".toList "Linux".toList
    let defs := defs.assign "PLATFORM_SERIALDEV".toList "/dev/null".toList
    let defs := defs.assign "PLATFORM_DALIDEV".toList "/dev/null".toList
    let defs := defs.assign "PRODUCT_IDENTIFIER".toList "p44-xx-linux-generic".toList
    let defs := defs.assign "PRODUCT_MODEL".toList "P44-XX-LINUX".toList
    let defs := defs.assign "PRODUCT_VARIANT".toList "Debian".toList
    let defs := defs.assign "PRODUCT_HOSTPREFIX".toList "p44_xx_linux".toList
    let defs := defs.assign "PRODUCT_HAS_TINKER".toList "1".toList
    let defs := defs.assign "PRODUCT_RESTART_TIME".toList "5".toList
    let defs := defs.assign "PRODUCER".toList "plan44".toList
    let defs := defs.assign "FIRMWARE_VERSION".toList "0.0.0.42".toList
    let defs := defs.assign "FIRMWARE_FEED".toList "devel".toList
    let defs := defs.assign "STATUS_USER_LEVEL".toList "0".toList
    (false, defs)
  | .target => (true, defs)

/-- The method `setDerivedDefs()`. -/
def setDerivedDefs (env : Env) (defs : DefsMap) : DefsMap :=
  let defs := (setDefDefault defs "PRODUCT_COPYRIGHT_YEARS".toList
    ("2013-".toList ++ fmt_04d env.year)).2
  (setDefDefault defs "PRODUCT_COPYRIGHT_HOLDER".toList "plan44.ch".toList).2

/-- The store mutations of `processVariantSpecifics`, up to the call of `aCallback`. -/
def variantDefs (env : Env) (defs : DefsMap) : DefsMap :=
  let defs :=
    match getDef defs "PRODUCT_VARIANT".toList with
    | some d =>
      (readDefsFrom env.fs
        (env.defspath ++ "p44variant-".toList ++ getDefStr defs "PRODUCT_IDENTIFIER".toList
          ++ "-".toList ++ d ++ ".defs".toList) defs).2
    | none => defs
  let defs := (readDefsFrom env.fs (FLASH_PATH ++ "/p44custom.defs".toList) defs).2
  let defs := defs.assign "UNIT_SERIALNO".toList (fmt_lld (serial env.macAddress))
  let mac := env.macAddress % 2 ^ 64
  let defs := defs.assign "UNIT_MAC_DECIMAL".toList (fmt_lld mac)
  let macStr := macStrLoop mac 0 6 []
  let defs := defs.assign "UNIT_MACADDRESS".toList macStr
  let ipv4 := env.ipv4Address % 2 ^ 32
  let defs := defs.assign "STATUS_IPV4".toList
    (fmt_d ((ipv4 >>> 24) &&& 0xFF) ++ ".".toList ++ fmt_d ((ipv4 >>> 16) &&& 0xFF)
      ++ ".".toList ++ fmt_d ((ipv4 >>> 8) &&& 0xFF) ++ ".".toList ++ fmt_d (ipv4 &&& 0xFF))
  let d := (getDef defs "PRODUCT_HOSTPREFIX".toList).getD "unknown".toList
  let defs := defs.assign "UNIT_HOSTNAME".toList
    (d ++ "_".toList ++ fmt_lld (serial env.macAddress))
  setDerivedDefs env defs

/-- The method `processVariantSpecifics(aCallback)`. -/
def processVariantSpecifics (env : Env) (defs : DefsMap) : Outcome :=
  .called (variantDefs env defs)

/-- The method `variantQueryDone(aCallback, err, aAnswer)`. -/
def variantQueryDone (env : Env) (defs : DefsMap) (aAnswer : Str) : Outcome :=
  let v := trimWhiteSpace aAnswer true true
  let defs :=
    if v.length > 0 then defs.assign "PRODUCT_VARIANT".toList v
    else defs.assign "PRODUCT_VARIANT".toList "0".toList
  processVariantSpecifics env defs

/-- The store mutations of `checkProducer`, up to the check for the variant getter. -/
def producerDefs (env : Env) (defs : DefsMap) : DefsMap :=
  let defs := (setDefDefault defs "PRODUCER".toList "unknown".toList).2
  let defs := (readDefFromFirstLine env.fs (env.defspath ++ "p44feed".toList)
    "FIRMWARE_FEED".toList defs).2
  let defs := (readDefFromFirstLine env.fs (env.defspath ++ "p44version".toList)
    "FIRMWARE_VERSION".toList defs).2
  let r := readDefFromFirstLine env.fs "/tmp/p44userlevel".toList "STATUS_USER_LEVEL".toList defs
  if !r.1 then
    let r := readDefFromFirstLine env.fs (FLASH_PATH ++ "p44userlevel".toList)
      "STATUS_USER_LEVEL".toList defs
    if !r.1 then
      match getDef defs "PRODUCT_DEFAULT_USER_LEVEL".toList with
      | some d => defs.assign "STATUS_USER_LEVEL".toList d
      | none =>
        defs.assign "STATUS_USER_LEVEL".toList
          (if getDefStr defs "FIRMWARE_FEED".toList = "prod".toList then "0".toList
           else "1".toList)
    else r.2
  else r.2

/-- The method `checkProducer(aCallback)`. -/
def checkProducer (env : Env) (defs : DefsMap) : Outcome :=
  let defs := producerDefs env defs
  match getDef defs "PLATFORM_VARIANT_GETTER".toList with
  | some d => .forked d .variant defs
  | none => processVariantSpecifics env defs

/-- The method `producerQueryDone(aCallback, err, aAnswer)`. -/
def producerQueryDone (env : Env) (defs : DefsMap) (aAnswer : Str) : Outcome :=
  let v := trimWhiteSpace aAnswer true true
  let defs := if v.length > 0 then defs.assign "PRODUCER".toList v else defs
  checkProducer env defs

/-- The store mutations of `processProductSpecifics`, up to the check for the
producer getter. -/
def productDefs (env : Env) (defs : DefsMap) : DefsMap :=
  let defs := (readDefsFrom env.fs (env.defspath ++ "p44product.defs".toList) defs).2
  let defs :=
    if (getDef defs "PRODUCT_IDENTIFIER".toList).isNone then
      match getDef defs "PLATFORM_IDENTIFIER".toList with
      | some d =>
        (readDefsFrom env.fs
          (env.defspath ++ "p44product-default_".toList ++ d ++ ".defs".toList) defs).2
      | none => defs
    else defs
  let defs :=
    if (getDef defs "PRODUCT_IDENTIFIER".toList).isNone then
      (readDefsFrom env.fs (env.defspath ++ "p44product-default.defs".toList) defs).2
    else defs
  match getDef defs "PRODUCT_IDENTIFIER".toList with
  | some d =>
    (readDefsFrom env.fs (env.defspath ++ "p44product-".toList ++ d ++ ".defs".toList) defs).2
  | none => defs

/-- The method `processProductSpecifics(aCallback)`. -/
def processProductSpecifics (env : Env) (defs : DefsMap) : Outcome :=
  let defs := productDefs env defs
  match getDef defs "PRODUCER_GETTER".toList with
  | some d => .forked d .producer defs
  | none =>
    let defs := (readDefFromFirstLine env.fs (env.defspath ++ "p44producer".toList)
      "PRODUCER".toList defs).2
    checkProducer env defs

/-- The method `productidQueryDone(aCallback, err, aAnswer)`. -/
def productidQueryDone (env : Env) (defs : DefsMap) (aAnswer : Str) : Outcome :=
  let v := trimWhiteSpace aAnswer true true
  let defs := if v.length > 0 then defs.assign "PRODUCT_IDENTIFIER".toList v else defs
  processProductSpecifics env defs

/-- The store mutations of `processPlatformSpecifics`, up to the check for the
product identifier getter. -/
def platformDefs (env : Env) (defs : DefsMap) : DefsMap :=
  let defs :=
    match getDef defs "PLATFORM_IDENTIFIER".toList with
    | some d =>
      (readDefsFrom env.fs (env.defspath ++ "p44platform-".toList ++ d ++ ".defs".toList) defs).2
    | none => defs
  (readDefFromFirstLine env.fs COMPUTING_MODULE_FILE "PLATFORM_COMPUTINGMODULE".toList defs).2

/-- The method `processPlatformSpecifics(aCallback)`. -/
def processPlatformSpecifics (env : Env) (defs : DefsMap) : Outcome :=
  let defs := platformDefs env defs
  match getDef defs "PLATFORM_PRODUCT_IDENTIFIER_GETTER".toList with
  | some d => .forked d .productid defs
  | none => processProductSpecifics env defs

/-- The method `platformidQueryDone(aCallback, err, aAnswer)`. -/
def platformidQueryDone (env : Env) (defs : DefsMap) (aAnswer : Str) : Outcome :=
  let v := trimWhiteSpace aAnswer true true
  let defs := if v.length > 0 then defs.assign "PLATFORM_IDENTIFIER".toList v else defs
  processPlatformSpecifics env defs

/-- The store with which `identifyDynamically` goes on after `defs.clear()` and
`setDefDefaults()`, and after reading `p44platform.defs` when the platform is to
be determined dynamically. -/
def initialDefs (env : Env) : DefsMap :=
  let r := setDefDefaults env DefsMap.empty
  if !r.1 then r.2
  else (readDefsFrom env.fs (env.defspath ++ "p44platform.defs".toList) r.2).2

/-- The method `identifyDynamically(aCallback)`. -/
def identifyDynamically (env : Env) : Outcome :=
  let r := setDefDefaults env DefsMap.empty
  if !r.1 then processProductSpecifics env r.2
  else
    let defs := (readDefsFrom env.fs (env.defspath ++ "p44platform.defs".toList) r.2).2
    match getDef defs "PLATFORM_IDENTIFIER_GETTER".toList with
    | some d => .forked d .platformid defs
    | none => processPlatformSpecifics env defs

/-- The continuation that the main loop runs when the forked command has
finished, with the captured output. -/
def queryDone (env : Env) (cont : Getter) (defs : DefsMap) (aAnswer : Str) : Outcome :=
  match cont with
  | .platformid => platformidQueryDone env defs aAnswer
  | .productid => productidQueryDone env defs aAnswer
  | .producer => producerQueryDone env defs aAnswer
  | .variant => variantQueryDone env defs aAnswer

/-- The main loop: as long as a command is pending and fuel is left, the command
finishes and its continuation runs. -/
def mainLoop (env : Env) : Nat → Outcome → Outcome
  | 0, o => o
  | _ + 1, .called defs => .called defs
  | n + 1, .forked cmd cont defs => mainLoop env n (queryDone env cont defs (env.captured cmd))

/-- The whole identification: `identifyDynamically` followed by the main loop,
with fuel for the four continuations. -/
def identify (env : Env) : Outcome :=
  mainLoop env 4 (identifyDynamically env)

/-- The store handed to the completion callback, if the callback is reached. -/
def Outcome.result : Outcome → Option DefsMap
  | .called defs => some defs
  | .forked _ _ _ => none

/-! ## Notions used to state the pipeline properties -/

/-- The store an outcome carries. -/
def Outcome.defs : Outcome → DefsMap
  | .forked _ _ defs => defs
  | .called defs => defs

/-- The command line and continuation of a pending invocation, if there is one. -/
def Outcome.pending : Outcome → Option (Str × Getter)
  | .forked cmd cont _ => some (cmd, cont)
  | .called _ => none

/-- The position of a continuation in the pipeline, counted from its end. -/
def Getter.rank : Getter → Nat
  | .platformid => 4
  | .productid => 3
  | .producer => 2
  | .variant => 1

/-- The number of continuations that can still follow an outcome. -/
def Outcome.rank : Outcome → Nat
  | .forked _ cont _ => cont.rank
  | .called _ => 0

/-- The defs files that the platform specific stage merges: those named
`p44platform-` and an identifier, in the defs directory. -/
def platformStageFile (env : Env) (path : Str) : Bool :=
  (env.defspath ++ "p44platform-".toList).isPrefixOf path

/-- The defs files that the product, producer and variant stages merge: those
whose name starts with `p44product` or `p44variant-`, in the defs directory,
and the custom overrides file. -/
def productStageFile (env : Env) (path : Str) : Bool :=
  (env.defspath ++ "p44product".toList).isPrefixOf path ||
  (env.defspath ++ "p44variant-".toList).isPrefixOf path ||
  path == FLASH_PATH ++ "/p44custom.defs".toList

/-- The keys that the stages after the platform identifier query assign
directly, not from a defs file. -/
def assignedKeys : List Str :=
  ["PLATFORM_COMPUTINGMODULE".toList, "PRODUCT_IDENTIFIER".toList, "PRODUCER".toList,
   "FIRMWARE_FEED".toList, "FIRMWARE_VERSION".toList, "STATUS_USER_LEVEL".toList,
   "PRODUCT_VARIANT".toList, "UNIT_SERIALNO".toList, "UNIT_MAC_DECIMAL".toList,
   "UNIT_MACADDRESS".toList, "STATUS_IPV4".toList, "UNIT_HOSTNAME".toList,
   "PRODUCT_COPYRIGHT_YEARS".toList, "PRODUCT_COPYRIGHT_HOLDER".toList]

/-- The user level as the design describes it: the first line of the runtime
marker file, else the first line of the persisted marker file, else the product
specific default, else `0` for the feed `prod` and `1` for every other feed. -/
def resolvedUserLevel (fs : FileSystem) (productDefault feed : Option Str) : Str :=
  match string_fgetfirstline fs "/tmp/p44userlevel".toList with
  | some level => level
  | none =>
    match string_fgetfirstline fs "/flash/p44userlevel".toList with
    | some level => level
    | none =>
      match productDefault with
      | some level => level
      | none => if feed = some "prod".toList then "0".toList else "1".toList

/-! ## Example inputs -/

/-- A file system with two defs files and one marker file. -/
def exampleFiles : FileSystem := fun path =>
  if path = "/etc/a.defs".toList then
    some ["# a comment".toList, "A=2".toList, "B = \"x\\\"y\" tail".toList, "A=3".toList]
  else if path = "/etc/b.defs".toList then some ["C=1".toList]
  else if path = "/etc/marker".toList then some ["first".toList, "second".toList]
  else none

/-- The files of a device whose platform file names a platform identifier
getter and also gives a platform identifier of its own. -/
def acmeFiles : FileSystem := fun path =>
  if path = "/etc/p44platform.defs".toList then
    some ["PLATFORM_IDENTIFIER=old".toList, "PLATFORM_IDENTIFIER_GETTER=getid".toList]
  else none

/-- The output of the getters of the example devices: the platform identifier
getter prints the identifier with white space around it, every other command
prints nothing. -/
def acmeCaptured : Str → Str := fun cmd =>
  if cmd = "getid".toList then "  acme-box\n".toList else []

/-- A target device with the files `acmeFiles`. -/
def acmeEnv : Env where
  build := .target
  defspath := "/etc/".toList
  fs := acmeFiles
  captured := acmeCaptured
  now := "2024-01-01 00:00:00".toList
  year := 2024
  macAddress := 0xB827EB123456
  ipv4Address := 0xC0A80001

/-- The files of a device like `acmeFiles`, with a variant getter named as well
and with a custom overrides file that defines the platform identifier and the
product variant. -/
def overrideFiles : FileSystem := fun path =>
  if path = "/etc/p44platform.defs".toList then
    some ["PLATFORM_IDENTIFIER=old".toList, "PLATFORM_IDENTIFIER_GETTER=getid".toList,
      "PLATFORM_VARIANT_GETTER=getvariant".toList]
  else if path = "/flash//p44custom.defs".toList then
    some ["PLATFORM_IDENTIFIER=custom".toList, "PRODUCT_VARIANT=7".toList]
  else none

/-- A target device with the files `overrideFiles`. -/
def overrideEnv : Env where
  build := .target
  defspath := "/etc/".toList
  fs := overrideFiles
  captured := acmeCaptured
  now := "2024-01-01 00:00:00".toList
  year := 2024
  macAddress := 0xB827EB123456
  ipv4Address := 0xC0A80001

/-- The files of a device whose product file names a producer getter, and which
also has a producer marker file. -/
def producerFiles : FileSystem := fun path =>
  if path = "/etc/p44product.defs".toList then some ["PRODUCER_GETTER=getproducer".toList]
  else if path = "/etc/p44producer".toList then some ["markerco".toList]
  else none

/-- A target device with the files `producerFiles`, whose producer getter
prints a name with white space around it. -/
def producerEnv : Env where
  build := .target
  defspath := "/etc/".toList
  fs := producerFiles
  captured := fun cmd => if cmd = "getproducer".toList then " plan44\n".toList else []
  now := "2024-01-01 00:00:00".toList
  year := 2024
  macAddress := 0x00409D000001
  ipv4Address := 0

/-- Files with a producer marker file only. -/
def markerFiles : FileSystem := fun path =>
  if path = "/etc/p44producer".toList then some ["markerco".toList] else none

/-- A target device with the files `markerFiles`. -/
def markerEnv : Env where
  build := .target
  defspath := "/etc/".toList
  fs := markerFiles
  captured := fun _ => []
  now := "2024-01-01 00:00:00".toList
  year := 2024
  macAddress := 0x00409D000001
  ipv4Address := 0

/-- Files with a persisted user level marker and a product default user level. -/
def levelFiles : FileSystem := fun path =>
  if path = "/flash/p44userlevel".toList then some ["2".toList]
  else if path = "/etc/p44feed".toList then some ["prod".toList]
  else none

/-- A target device with the files `levelFiles`. -/
def levelEnv : Env where
  build := .target
  defspath := "/etc/".toList
  fs := levelFiles
  captured := fun _ => []
  now := "2024-01-01 00:00:00".toList
  year := 2024
  macAddress := 0x00409D000001
  ipv4Address := 0

/-- Files with a feed marker only. -/
def feedFiles : FileSystem := fun path =>
  if path = "/etc/p44feed".toList then some ["prod".toList] else none

/-- A target device with the files `feedFiles`. -/
def feedEnv : Env where
  build := .target
  defspath := "/etc/".toList
  fs := feedFiles
  captured := fun _ => []
  now := "2024-01-01 00:00:00".toList
  year := 2024
  macAddress := 0x00409D000001
  ipv4Address := 0

/-- A generic Linux build (fixed identity defaults) in a defs directory whose
product file names a producer getter. -/
def fixedEnv : Env where
  build := .generic
  defspath := "/etc/".toList
  fs := producerFiles
  captured := fun cmd => if cmd = "getproducer".toList then " plan44\n".toList else []
  now := "2024-01-01 00:00:00".toList
  year := 2024
  macAddress := 0x00409D000001
  ipv4Address := 0

/-- An Xcode build (fixed identity defaults) without any file. -/
def xcodeEnv : Env where
  build := .xcode
  defspath := "/etc/".toList
  fs := fun _ => none
  captured := fun _ => []
  now := "2024-01-01 00:00:00".toList
  year := 2024
  macAddress := 0x00409D000001
  ipv4Address := 0

/-- The value a key has in the store handed to the completion callback. -/
def Outcome.resultAt (o : Outcome) (key : Str) : Option Str :=
  match o.result with
  | some defs => defs key
  | none => none

/-! ## Notions used to state the properties of the serial number -/

/-- The vendor code of the serial number for a 24 bit vendor part of a hardware
address: 1 for `00:40:9D`, 2 for `B8:27:EB`, 3 for `40:A3:6B`, else 42. -/
def vendorCode (oui : Nat) : Nat :=
  if oui = 0x00409D then 1
  else if oui = 0xB827EB then 2
  else if oui = 0x40A36B then 3
  else 42

/-! ## JSON values and errors

The JSON interface of the daemon works on `JsonObjectPtr` values of p44utils,
which wrap json-c objects. A `JsonObjectPtr` is modelled as an optional JSON
value: no object (a null pointer), or a wrapper, which may wrap JSON null.
Numbers are integers in the model. -/

/-- A JSON value. -/
inductive Json
  | null
  | bool (b : Bool)
  | int (n : Int)
  | str (s : Str)
  | arr (items : List Json)
  | obj (fields : List (Str × Json))

/-- A `JsonObjectPtr`: no object, or a wrapper of a JSON value. -/
abbrev JsonObjectPtr := Option Json

/-- Modelled from the spec: `json_object_object_get_ex` of json-c, the field of
a JSON object under a key; a value that is not an object has no fields. -/
def Json.field (j : Json) (aKey : Str) : Option Json :=
  match j with
  | .obj fields => fields.lookup aKey
  | _ => none

/-- Modelled from the spec: `JsonObject::get(aKey)` of p44utils, the object
under a key; none when the key is missing and none when its value is JSON
null. -/
def Json.get (j : Json) (aKey : Str) : JsonObjectPtr :=
  match j.field aKey with
  | some .null => none
  | some v => some v
  | none => none

/-- Modelled from the spec: `JsonObject::get(aKey, aJsonObject, aNonNull)` of
p44utils: whether the key exists, and the object delivered. A key whose value is
JSON null delivers no object; it counts as existing only when `aNonNull` is
false. -/
def Json.getEx (j : Json) (aKey : Str) (aNonNull : Bool) : Bool × JsonObjectPtr :=
  match j.field aKey with
  | some .null => if aNonNull then (false, none) else (true, none)
  | some v => (true, some v)
  | none => (false, none)

/-- Modelled from the spec: `JsonObject::add(aKey, aObj)` of p44utils on an
object: sets the field, replacing the value of a key that is there already; no
object stands for JSON null. -/
def Json.add (j : Json) (aKey : Str) (aObj : JsonObjectPtr) : Json :=
  match j with
  | .obj fields =>
    let v := aObj.getD .null
    if (fields.lookup aKey).isSome then
      .obj (fields.map (fun kv => if kv.1 = aKey then (kv.1, v) else kv))
    else .obj (fields ++ [(aKey, v)])
  | other => other

/-- The result of `JsonObject::newObj()`. -/
def Json.newObj : Json := .obj []

/-- Modelled from the spec: `JsonObject::stringValue()` of p44utils: the text of
a JSON string, and the JSON text (given by `json_str`) of any other value. -/
def Json.stringValue (json_str : Json → Str) : Json → Str
  | .str s => s
  | .null => []
  | j => json_str j

/-- The range of a 32 bit `int`, values outside are clamped to its ends. -/
def clampInt32 (n : Int) : Int :=
  if n ≤ -(2 ^ 31) then -(2 ^ 31) else if n ≥ 2 ^ 31 - 1 then 2 ^ 31 - 1 else n

/-- The conversion of a wider integer to a 32 bit `int`. -/
def wrapInt32 (n : Int) : Int := (n + 2 ^ 31) % 2 ^ 32 - 2 ^ 31

/-- Modelled from the spec: `JsonObject::int32Value()` of p44utils
(`json_object_get_int`): an integer clamped to 32 bits, 0 or 1 for a boolean,
the number read from a string (given by `parse_int64`), 0 for other values. -/
def Json.int32Value (parse_int64 : Str → Int) : Json → Int
  | .int n => clampInt32 n
  | .bool b => if b then 1 else 0
  | .str s => clampInt32 (parse_int64 s)
  | _ => 0

/-- Modelled from the spec: `JsonObject::boolValue()` of p44utils
(`json_object_get_boolean`): the boolean, a non-zero integer, a non-empty
string; false for other values. -/
def Json.boolValue : Json → Bool
  | .bool b => b
  | .int n => n != 0
  | .str s => s.length != 0
  | _ => false

/-- An `Error` object of p44utils: domain, code and message. -/
structure Error where
  /-- The error domain. -/
  domain : Str
  /-- The error code, a `long`. -/
  code : Int
  /-- The error message. -/
  message : Str

/-- An `ErrorPtr`: no error object, or an error object. -/
abbrev ErrorPtr := Option Error

/-- Modelled from the spec: `Error::isOK(aError)` of p44utils: no error object,
or an error object with code 0. -/
def Error.isOK (aError : ErrorPtr) : Bool :=
  match aError with
  | none => true
  | some e => e.code == 0

/-- The error `new Error(aErrorCode, aErrorMessage)`, of the base error domain. -/
def Error.new (aErrorCode : Int) (aErrorMessage : Str) : ErrorPtr :=
  some { domain := "Error_baseClass".toList, code := aErrorCode, message := aErrorMessage }

/-- Modelled from the spec: `Error::isError(aError, aDomain, aErrorCode)` of
p44utils: an error object of that domain with that code. -/
def Error.isError (aError : ErrorPtr) (aDomain : Str) (aErrorCode : Int) : Bool :=
  match aError with
  | none => false
  | some e => e.domain == aDomain && e.code == aErrorCode

/-- The conversion `%d` of `string_format` applied to an `int`. -/
def fmt_int (n : Int) : Str :=
  if n < 0 then '-' :: Nat.toDigits 10 n.natAbs else Nat.toDigits 10 n.natAbs

/-- The value of a string of decimal digits. -/
def digitsValue (digits : Str) : Nat :=
  digits.foldl (fun n c => 10 * n + (c.toNat - 48)) 0

/-- The value that `strtol` delivers for a number: the number itself within the
range of `long`, taken 64 bits wide, and the nearest end of the range beyond. -/
def clampInt64 (n : Int) : Int :=
  if n < -9223372036854775808 then -9223372036854775808
  else if n > 9223372036854775807 then 9223372036854775807 else n

/-- Modelled from the spec: `atoi` of the C library, which is `strtol` with the
result converted to `int`: white space, an optional sign and the decimal digits
that follow, as a `long` (64 bits wide) cut to an `int`; 0 without digits. -/
def atoi (s : Str) : Int :=
  match s.dropWhile isspace with
  | '-' :: rest => wrapInt32 (clampInt64 (-(digitsValue (rest.takeWhile Char.isDigit) : Int)))
  | '+' :: rest => wrapInt32 (clampInt64 (digitsValue (rest.takeWhile Char.isDigit)))
  | rest => wrapInt32 (clampInt64 (digitsValue (rest.takeWhile Char.isDigit)))

/-- Modelled from the spec: `lowerCase` of p44utils: every character through
`tolower`. -/
def lowerCase (s : Str) : Str := s.map Char.toLower

/-- The test `aString.find_first_of("/.")!=string::npos`. -/
def hasSlashOrDot (s : Str) : Bool := s.any (fun c => c == '/' || c == '.')

/-! ## The JSON command dispatcher

A handler does not run anything in the model: what it does to the outside is
recorded as a list of `Action`s, in the order of the calls in the source. -/

/-- The build for which the daemon is compiled: `BUILDENV_XCODE`,
`BUILDENV_GENERIC`, `BUILDENV_OPENWRT` or `BUILDENV_DIGIESP`. -/
inductive Platform
  | xcode
  | generic
  | openwrt
  | digiesp
  deriving DecidableEq, Repr

/-- The callbacks that the dispatcher binds to `fork_and_system` and
`fork_and_execve`. -/
inductive Continuation
  | NoOP
  | tzset_done
  | tzget_done
  | cfgset_done
  | ipquery_done
  | wifiquery_done
  | passwordUpdated
  | configPrepared
  | endApp (aSuccess : Bool)
  deriving DecidableEq, Repr

/-- What the daemon does to the outside. -/
inductive Action
  /-- The call `fork_and_system` for a command line, with the callback bound. -/
  | fork_and_system (cmd : Str) (cont : Continuation)
  /-- The call `fork_and_execve` for a program and arguments, with the callback bound. -/
  | fork_and_execve (path : Str) (argv : List Str) (cont : Continuation)
  /-- The call `execve`, which replaces the process image when it succeeds. -/
  | execve (path : Str) (argv : List Str)
  /-- The call `reboot`. -/
  | reboot (aPowerOff : Bool)
  /-- An answer written to standard output by `answer`. -/
  | puts (aJSONAnswer : Json)
  /-- Other text written to standard output. -/
  | printf (text : Str)
  /-- The call `terminateApp`. -/
  | terminateApp (exitCode : Nat)
  /-- The call `string_tofile`. -/
  | string_tofile (path content : Str)
  /-- The call `unlink`. -/
  | unlink (path : Str)
  /-- The call `JsonObject::objFromFile`. -/
  | objFromFile (path : Str)
  /-- The call `mkdir`. -/
  | mkdir (path : Str)
  /-- The call `opendir`, with the directory read. -/
  | opendir (path : Str)
  /-- The call `readDefsFrom` of `configPrepared`. -/
  | readDefs (path : Str)
  /-- The red indicator switched steadily on or off. -/
  | redLED (lit : Bool)
  /-- The green indicator switched steadily on or off. -/
  | greenLED (lit : Bool)

/-- Everything outside the dispatcher that its handlers use. -/
structure Host where
  /-- The build. -/
  platform : Platform
  /-- The store `defs` after the identification. -/
  defs : DefsMap
  /-- The keys of `defs` in the order of the map. -/
  defsKeys : List Str
  /-- The files with definitions. -/
  fs : FileSystem
  /-- The JSON text of a value, `JsonObject::json_str`. -/
  json_str : Json → Str
  /-- The integer json-c reads from a string. -/
  parse_int64 : Str → Int
  /-- Whether `inet_pton(AF_INET, ..)` accepts the text (result not 0). -/
  inet_pton : Str → Bool
  /-- The table `timezones`: names and specifications. -/
  timezones : List (Str × Str)
  /-- The result of `JsonObject::objFromFile` for a path. -/
  objFromFile : Str → JsonObjectPtr
  /-- The result of `string_tofile` for a path and content. -/
  string_tofile : Str → Str → ErrorPtr
  /-- Whether `unlink` of a path succeeds. -/
  unlink_ok : Str → Bool
  /-- Whether `execve` fails and returns. -/
  execve_fails : Bool
  /-- The helper `shellQuote` of p44utils. -/
  shellQuote : Str → Str
  /-- The helper `string_ftime` of p44utils for a format. -/
  string_ftime : Str → Str
  /-- The result of `time(NULL)`. -/
  time : Int
  /-- The offset `tm_gmtoff` of local time. -/
  gmtoff : Int
  /-- The uptime `sysinfo` reports. -/
  uptime : Int
  /-- The result of `MainLoop::now()`. -/
  mainloop_now : Int
  /-- The result of `rand()`. -/
  rand : Int
  /-- The names `readdir` delivers for the alert directory, none when it cannot
  be opened. -/
  alertDir : Option (List Str)

/-- How a piece of code ends: it returns, the process image is replaced by
`execve`, or it dereferences a pointer that holds no object. -/
inductive Ending
  | returned
  | replaced
  | nullDeref
  deriving DecidableEq, Repr

/-- What a handler does: its actions, the answer it returns, the error it sets
and how it ends. -/
structure Handled where
  /-- The actions, in order. -/
  actions : List Action
  /-- The answer returned, `aAnswer`. -/
  answer : JsonObjectPtr
  /-- The error `err`. -/
  err : ErrorPtr
  /-- How it ends. -/
  ending : Ending

/-- A handler that returns an answer without doing anything. -/
def Handled.answered (aAnswer : Json) : Handled :=
  { actions := [], answer := some aAnswer, err := none, ending := .returned }

/-- A handler that sets an error without doing anything. -/
def Handled.failed (aError : ErrorPtr) : Handled :=
  { actions := [], answer := none, err := aError, ending := .returned }

/-- A handler that returns no answer after some actions. -/
def Handled.deferred (actions : List Action) : Handled :=
  { actions := actions, answer := none, err := none, ending := .returned }

/-- The function `makeAnswer(aResultObj)`. -/
def makeAnswer (aResultObj : JsonObjectPtr) : Json :=
  let aResultObj : JsonObjectPtr :=
    match aResultObj with
    | none => some .null
    | some r => some r
  Json.newObj.add "result".toList aResultObj

/-- The function `makeErrorAnswer(aError)`, for an error object. -/
def makeErrorAnswer (aError : Error) : Json :=
  let e := Json.newObj
  let e := e.add "code".toList (some (.int (wrapInt32 aError.code)))
  let e := e.add "message".toList (some (.str aError.message))
  Json.newObj.add "error".toList (some e)

/-- The function `emptyAnswer()`. -/
def emptyAnswer : Json := makeAnswer (some .null)

/-- The function `statusAnswer(aError, aResultObj)`. -/
def statusAnswer (aError : ErrorPtr) (aResultObj : JsonObjectPtr) : Json :=
  match aError with
  | none => makeAnswer aResultObj
  | some e => if e.code == 0 then makeAnswer aResultObj else makeErrorAnswer e

/-- The function `answer(aJSONAnswer)`. -/
def answer (aJSONAnswer : JsonObjectPtr) : List Action :=
  match aJSONAnswer with
  | some j => [.puts j]
  | none => []

/-- The function `answerAndTerminate(aJSONAnswer)`. -/
def answerAndTerminate (aJSONAnswer : JsonObjectPtr) : List Action :=
  answer aJSONAnswer ++ [.terminateApp 0]

/-- The function `checkParam(aParams, aParamName, aParam)`: whether the
parameter exists, and the object delivered. -/
def checkParam (aParams : JsonObjectPtr) (aParamName : Str) : Bool × JsonObjectPtr :=
  match aParams with
  | some params => params.getEx aParamName false
  | none => (false, none)

/-- The outcome of `checkStringParam`: the parameter is not found, or it is
found and its text delivered, or it is found without an object, which the
function then dereferences. -/
inductive StringParam
  | missing
  | value (aParamValue : Str)
  | nullDeref

/-- The function `checkStringParam(aParams, aParamName, aParamValue)`. -/
def checkStringParam (json_str : Json → Str) (aParams : JsonObjectPtr) (aParamName : Str) :
    StringParam :=
  let r := checkParam aParams aParamName
  if r.1 then
    match r.2 with
    | some o => .value (o.stringValue json_str)
    | none => .nullDeref
  else .missing

/-- The method `system_reboot(aHardReset, aPowerOff)`. -/
def system_reboot (host : Host) (aHardReset aPowerOff : Bool) : List Action :=
  let busy : List Action := [.redLED true, .greenLED true]
  if aHardReset then
    match host.platform with
    | .xcode => busy
    | .generic => busy
    | _ => busy ++ [.reboot aPowerOff]
  else
    let sdcmd := "sv stop p44mbrd vdcd mg44; sync; ".toList ++
      (if aPowerOff then "poweroff".toList else "reboot".toList)
    match host.platform with
    | .xcode =>
      busy ++ [.fork_and_system "echo dummy call simulating restart or shutdown".toList .NoOP]
    | .generic =>
      busy ++ [.fork_and_system "echo dummy call simulating restart or shutdown".toList .NoOP]
    | _ => busy ++ [.fork_and_system sdcmd .NoOP]

/-- The method `restart_from_ui(err, aPowerOff)`. -/
def restart_from_ui (host : Host) (aPowerOff : Bool) : Handled :=
  { actions := system_reboot host false aPowerOff, answer := some emptyAnswer, err := none,
    ending := .returned }

/-- The method `factoryReset(aMode)`. -/
def factoryReset (host : Host) (aMode : Int) : List Action :=
  let res :=
    match host.platform with
    | .xcode => "echo 'real platform would execute:' p44factoryreset ".toList ++ fmt_int aMode
    | .generic => "echo 'real platform would execute:' p44factoryreset ".toList ++ fmt_int aMode
    | _ => "p44factoryreset ".toList ++ fmt_int aMode
  [.redLED true, .greenLED true, .fork_and_system res (.endApp false)]

/-- The method `factory_reset_from_ui(aUriParams, err)`. -/
def factory_reset_from_ui (host : Host) (aUriParams : Json) : Handled :=
  match aUriParams.get "mode".toList with
  | some o =>
    let mode := o.int32Value host.parse_int64
    if mode ≥ 1 ∧ mode ≤ 3 then Handled.deferred (factoryReset host mode)
    else Handled.failed (Error.new 1 "Invalid or missing 'mode'".toList)
  | none => Handled.failed (Error.new 1 "Invalid or missing 'mode'".toList)

/-- The method `tzget_done(err, aAnswer)`. -/
def tzget_done (aAnswer : Str) : List Action :=
  let result := Json.newObj.add "timezonename".toList
    (some (.str (trimWhiteSpace aAnswer true true)))
  answerAndTerminate (some (makeAnswer (some result)))

/-- The method `tzset_done(err, aAnswer)`. -/
def tzset_done : List Action := answerAndTerminate (some emptyAnswer)

/-- The method `timezoneconfig(aUriParams, err)`; it is compiled for the builds
other than `BUILDENV_DIGIESP`. -/
def timezoneconfig (host : Host) (aUriParams : Json) : Handled :=
  match aUriParams.get "timezonename".toList with
  | some o =>
    let tzName := o.stringValue host.json_str
    match host.timezones.lookup tzName with
    | none => Handled.failed (Error.new 1 "Unknown time zone name".toList)
    | some tzSpec =>
      let tzcmd := "uci set system.@system[0].zonename='".toList ++ tzName ++ "';".toList ++
        "uci set system.@system[0].timezone='".toList ++ tzSpec ++ "';".toList ++
        "uci commit system;".toList ++
        "echo $(uci -q get system.@system[0].timezone) >/tmp/TZ".toList
      match host.platform with
      | .xcode => Handled.deferred (answerAndTerminate (some emptyAnswer))
      | .generic => Handled.deferred (answerAndTerminate (some emptyAnswer))
      | _ => Handled.deferred [.fork_and_system tzcmd .tzset_done]
  | none =>
    match host.platform with
    | .xcode => Handled.deferred (tzget_done "Europe/Zurich".toList)
    | .generic => Handled.deferred (tzget_done "Europe/Zurich".toList)
    | _ =>
      Handled.deferred
        [.fork_and_system "uci -q get system.@system[0].zonename".toList .tzget_done]

/-- The method `addSetIpCmd(aSetIp, aUriParams, aBootVarName)`: the returned
flag and the command text afterwards. -/
def addSetIpCmd (host : Host) (aSetIp : Str) (aUriParams : Json) (aBootVarName : Str) :
    Bool × Str :=
  match aUriParams.get aBootVarName with
  | some o =>
    let ipval := o.stringValue host.json_str
    if !host.inet_pton ipval then (false, aSetIp)
    else
      match host.platform with
      | .digiesp =>
        (true, aSetIp ++ "ubootenv --set '".toList ++ aBootVarName ++ "=".toList ++ ipval
          ++ "';".toList)
      | .xcode =>
        (true, aSetIp ++ "echo set ".toList ++ aBootVarName ++ "=".toList ++ ipval
          ++ "; ".toList)
      | .generic =>
        (true, aSetIp ++ "echo set ".toList ++ aBootVarName ++ "=".toList ++ ipval
          ++ "; ".toList)
      | .openwrt =>
        (true, aSetIp ++ "p44ipconf ".toList ++ aBootVarName ++ " ".toList ++ ipval
          ++ ";".toList)
  | none => (true, aSetIp)

/-- One operand `&& addSetIpCmd(setcmd, aUriParams, name)` of the conjunctions
in `ipconfig`, on the pair of the flag `ok` and the command text: the call is
made only while the flag holds. -/
def andSetIpCmd (host : Host) (aUriParams : Json) (st : Bool × Str) (aBootVarName : Str) :
    Bool × Str :=
  if st.1 then addSetIpCmd host st.2 aUriParams aBootVarName else st

/-- The command line of the query of `ipconfig`. -/
def ipQueryCmd (platform : Platform) : Str :=
  match platform with
  | .digiesp =>
    ("echo -n currentip=;ifconfig | sed -n -e 's/:127\\.0\\.0\\.1 //g' " ++
      "-e 's/ *inet addr:\\([0-9.]\\+\\).*/\\1/gp';" ++
      "/sbin/ubootenv --print 'dhcp ipaddr netmask gatewayip dnsip dnsip2'").toList
  | .xcode =>
    ("echo 'currentip=123.45.67.89'; echo 'dhcp=on'; echo 'ipv6=1'; " ++
      "echo 'ipaddr=192.168.42.99'; echo 'netmask=255.255.255.0'; " ++
      "echo 'gatewayip=192.168.42.1'; echo 'dnsip=8.8.8.8'; echo 'dnsip2=0.0.0.0'").toList
  | .generic =>
    ("echo 'currentip=123.42.42.42'; echo 'dhcp=on'; echo 'ipaddr=192.168.42.98'; " ++
      "echo 'netmask=255.255.255.0'; echo 'gatewayip=192.168.42.1'; echo 'dnsip=2.2.2.2'; " ++
      "echo 'dnsip2=0.0.0.0'").toList
  | .openwrt => "p44ipconf".toList

/-- The method `ipconfig(aUriParams, err)`. -/
def ipconfig (host : Host) (aUriParams : Json) : Handled :=
  match aUriParams.get "dhcp".toList with
  | some o =>
    let dhcp := o.boolValue
    let setcmd :=
      match host.platform with
      | .digiesp =>
        "ubootenv --set 'dhcp=".toList ++ (if dhcp then "on".toList else "off".toList)
          ++ "';".toList
      | .xcode =>
        "echo set dhcp=".toList ++ (if dhcp then "on".toList else "off".toList) ++ "; ".toList
      | .generic =>
        "echo set dhcp=".toList ++ (if dhcp then "on".toList else "off".toList) ++ "; ".toList
      | .openwrt => "p44ipconf dhcp ".toList ++ fmt_int (if dhcp then 1 else 0) ++ ";".toList
    let st : Bool × Str := (true, setcmd)
    let st :=
      if !dhcp then
        andSetIpCmd host aUriParams
          (andSetIpCmd host aUriParams
            (andSetIpCmd host aUriParams st "ipaddr".toList) "netmask".toList)
          "gatewayip".toList
      else st
    let st :=
      andSetIpCmd host aUriParams (andSetIpCmd host aUriParams st "dnsip".toList)
        "dnsip2".toList
    let ok := st.1
    let setcmd := st.2
    let setcmd :=
      match aUriParams.get "ipv6".toList with
      | some o6 =>
        setcmd ++ "p44ipconf ipv6 ".toList ++ fmt_int (if o6.boolValue then 1 else 0)
          ++ ";".toList
      | none => setcmd
    let setcmd :=
      match host.platform with
      | .openwrt => setcmd ++ "p44ipconf commit now".toList
      | _ => setcmd
    if ok then Handled.deferred [.fork_and_system setcmd .cfgset_done]
    else
      { actions := [],
        answer := some (makeErrorAnswer
          { domain := "Error_baseClass".toList, code := 415,
            message := "Invalid IP address parameters".toList }),
        err := Error.new 415 "Invalid IP address parameters".toList,
        ending := .returned }
  | none => Handled.deferred [.fork_and_system (ipQueryCmd host.platform) .ipquery_done]

/-- The search `aStr.find(needle)`: the text after the first place where the
needle stands, none when it stands nowhere. -/
def afterFirst (needle : Str) (hay : Str) : Option Str :=
  if needle.isPrefixOf hay then some (hay.drop needle.length)
  else
    match hay with
    | [] => none
    | _ :: rest => afterFirst needle rest

/-- The function `getVar(aStr, aVarName)`. -/
def getVar (aStr aVarName : Str) : Str :=
  let vn := aVarName ++ "=".toList
  match afterFirst vn aStr with
  | some rest => rest.takeWhile (fun c => c != '\n')
  | none => []

/-- The function `getIpVar(aStr, aVarName)`. -/
def getIpVar (aStr aVarName : Str) : Str :=
  let v := getVar aStr aVarName
  if v.isEmpty then "0.0.0.0".toList else v

/-- The result object that `ipquery_done` builds. -/
def ipqueryResult (host : Host) (aAnswer : Str) : Json :=
  let result := Json.newObj
  let result := result.add "currentip".toList
    (some (.str (getDefStr host.defs "STATUS_IPV4".toList)))
  let result := result.add "dhcp".toList
    (some (.bool (getVar aAnswer "dhcp".toList == "on".toList)))
  let result := result.add "ipv6".toList
    (some (.bool (getVar aAnswer "ipv6".toList == "1".toList)))
  let result := result.add "ipaddr".toList (some (.str (getIpVar aAnswer "ipaddr".toList)))
  let result := result.add "ipv6_link".toList
    (some (.str (getVar aAnswer "ipv6_link".toList)))
  let result := result.add "ipv6_global".toList
    (some (.str (getVar aAnswer "ipv6_global".toList)))
  let result := result.add "netmask".toList (some (.str (getIpVar aAnswer "netmask".toList)))
  let result := result.add "gatewayip".toList
    (some (.str (getIpVar aAnswer "gatewayip".toList)))
  let result := result.add "dnsip".toList (some (.str (getIpVar aAnswer "dnsip".toList)))
  result.add "dnsip2".toList (some (.str (getIpVar aAnswer "dnsip2".toList)))

/-- The method `ipquery_done(aErr, aAnswer)`. -/
def ipquery_done (host : Host) (aAnswer : Str) : List Action :=
  answerAndTerminate (some (makeAnswer (some (ipqueryResult host aAnswer))))

/-- The method `cfgset_done(err, aAnswer)`. -/
def cfgset_done : List Action := answerAndTerminate (some emptyAnswer)

/-- One turn of the loop of `wificonfig` for the interface `iface`, on the pair
of the command text and the flag `changes`. -/
def wificonfigIface (host : Host) (aUriParams : Json) (st : Str × Bool) (iface : Str) :
    Str × Bool :=
  match aUriParams.get iface with
  | some ifparams =>
    let setcmd := st.1
    let setcmd :=
      match ifparams.get "enabled".toList with
      | some o =>
        setcmd ++ " p44wificonf ".toList ++ iface ++ " ".toList
          ++ fmt_int (if o.boolValue then 1 else 0) ++ ";".toList
      | none => setcmd
    let setcmd :=
      match ifparams.get "ssid".toList with
      | some o =>
        setcmd ++ " p44wificonf ".toList ++ iface ++ "_ssid '".toList
          ++ o.stringValue host.json_str ++ "';".toList
      | none => setcmd
    let setcmd :=
      match ifparams.get "encryption".toList with
      | some o =>
        setcmd ++ " p44wificonf ".toList ++ iface ++ "_encryption '".toList
          ++ o.stringValue host.json_str ++ "';".toList
      | none => setcmd
    let setcmd :=
      match ifparams.get "key".toList with
      | some o =>
        setcmd ++ " p44wificonf ".toList ++ iface ++ "_key '".toList
          ++ o.stringValue host.json_str ++ "';".toList
      | none => setcmd
    (setcmd, true)
  | none => st

/-- The command line of the query of `wificonfig`. -/
def wifiQueryCmd (platform : Platform) : Str :=
  match platform with
  | .xcode =>
    ("echo 'cli=1'; echo 'cli_ssid=DUMMY'; echo 'cli_key=supersecret'; " ++
      "echo 'cli_encryption=psk2'; echo 'ap=0'; echo 'ap_ssid=AP_DUMMY'; echo 'ap_key='; " ++
      "echo 'ap_encryption=none';").toList
  | .generic =>
    ("echo 'cli=1'; echo 'cli_ssid=DUMMY'; echo 'cli_key=supersecret'; " ++
      "echo 'cli_encryption=psk2'; echo 'ap=0'; echo 'ap_ssid=AP_DUMMY'; echo 'ap_key='; " ++
      "echo 'ap_encryption=none';").toList
  | _ => "p44wificonf".toList

/-- The method `wificonfig(aUriParams, err)`; it is compiled for the builds
other than `BUILDENV_DIGIESP`. -/
def wificonfig (host : Host) (aUriParams : Json) : Handled :=
  let st := wificonfigIface host aUriParams
    (wificonfigIface host aUriParams ([], false) "cli".toList) "ap".toList
  if st.2 then
    let setcmd := st.1 ++ " p44wificonf commit now".toList
    let setcmd :=
      match host.platform with
      | .xcode => "echo ".toList ++ host.shellQuote setcmd ++ " >/tmp/p44maint_p44wificonf".toList
      | .generic =>
        "echo ".toList ++ host.shellQuote setcmd ++ " >/tmp/p44maint_p44wificonf".toList
      | _ => setcmd
    Handled.deferred [.fork_and_system setcmd .cfgset_done]
  else Handled.deferred [.fork_and_system (wifiQueryCmd host.platform) .wifiquery_done]

/-- The object that `wifiquery_done` builds for the interface `iface`. -/
def wifiqueryIface (aAnswer iface : Str) : Json :=
  let ifparams := Json.newObj
  let ifparams := ifparams.add "enabled".toList
    (some (.bool (getVar aAnswer iface == "1".toList)))
  let ifparams := ifparams.add "ssid".toList
    (some (.str (getVar aAnswer (iface ++ "_ssid".toList))))
  let ifparams := ifparams.add "encryption".toList
    (some (.str (getVar aAnswer (iface ++ "_encryption".toList))))
  ifparams.add "key".toList (some (.str (getVar aAnswer (iface ++ "_key".toList))))

/-- The method `wifiquery_done(aErr, aAnswer)`. -/
def wifiquery_done (aAnswer : Str) : List Action :=
  let result := Json.newObj
  let result := result.add "cli".toList (some (wifiqueryIface aAnswer "cli".toList))
  let result := result.add "ap".toList (some (wifiqueryIface aAnswer "ap".toList))
  answerAndTerminate (some (makeAnswer (some result)))

/-- The method `userlevel()`; the `%d` of `sscanf` reads like `atoi` here, a
text without a number leaves the level 0. -/
def userlevel (host : Host) : Int :=
  match getDef host.defs "STATUS_USER_LEVEL".toList with
  | some d => atoi d
  | none => 0

/-- The method `devinfo(err)`. -/
def devinfo (host : Host) : Handled :=
  let result := host.defsKeys.foldl
    (fun (result : Json) key =>
      match host.defs key with
      | some value => result.add key (some (.str value))
      | none => result)
    Json.newObj
  let result := result.add "timetick".toList (some (.int host.time))
  let result := result.add "localtimetick".toList (some (.int (host.time + host.gmtoff)))
  let uptime : Int :=
    match host.platform with
    | .xcode => 352800
    | .generic => 352800
    | _ => host.uptime
  let result := result.add "uptime".toList (some (.int uptime))
  Handled.answered (makeAnswer (some result))

/-- The method `passwordUpdated(aError)`. -/
def passwordUpdated (aError : ErrorPtr) : List Action :=
  match aError with
  | none => answerAndTerminate (some emptyAnswer)
  | some e =>
    if e.code == 0 then answerAndTerminate (some emptyAnswer)
    else answerAndTerminate (some (makeErrorAnswer e))

/-- The method `setpassword(aUriParams, err)`. -/
def setpassword (host : Host) (aUriParams : Json) : Handled :=
  let username := (getDef host.defs "PRODUCT_WEBADMIN_USER".toList).getD "vdcadmin".toList
  let username :=
    match aUriParams.get "username".toList with
    | some o => o.stringValue host.json_str
    | none => username
  match aUriParams.get "password".toList with
  | some o =>
    let password := o.stringValue host.json_str
    match host.platform with
    | .xcode =>
      Handled.deferred [.fork_and_execve "/bin/echo".toList
        ["echo".toList, "set user/password to".toList, username, "/".toList, password]
        .passwordUpdated]
    | .generic =>
      Handled.deferred [.fork_and_execve "/bin/echo".toList
        ["echo".toList, "set user/password to".toList, username, "/".toList, password]
        .passwordUpdated]
    | _ =>
      let model := getDefStr host.defs "PRODUCT_MODEL".toList
      Handled.deferred [.fork_and_execve "/usr/bin/mg44".toList
        ["mg44".toList, "-A".toList, FLASH_PATH ++ "webui_authfile".toList, model, username,
          password]
        .passwordUpdated]
  | none => Handled.failed (Error.new 1 "missing password".toList)

/-- The path of the file of a property. -/
def propertyFile (key : Str) : Str := FLASH_PATH ++ "p44_property_".toList ++ lowerCase key

/-- The method `property(aUriParams, err)`. -/
def property (host : Host) (aUriParams : Json) : Handled :=
  match aUriParams.get "key".toList with
  | none => Handled.answered emptyAnswer
  | some o =>
    let key := o.stringValue host.json_str
    if hasSlashOrDot key then Handled.answered emptyAnswer
    else
      let file := propertyFile key
      let r := aUriParams.getEx "value".toList false
      if r.1 then
        match r.2 with
        | some v =>
          { actions := [.string_tofile file (host.json_str v ++ "\n".toList)],
            answer := some emptyAnswer, err := none, ending := .returned }
        | none =>
          { actions := [.unlink file], answer := some emptyAnswer, err := none,
            ending := .returned }
      else
        match host.objFromFile file with
        | some v =>
          { actions := [.objFromFile file], answer := some (makeAnswer (some v)), err := none,
            ending := .returned }
        | none =>
          { actions := [.objFromFile file], answer := some emptyAnswer, err := none,
            ending := .returned }

/-- The method `getProperty(aKey)`: its actions and the object returned. -/
def getProperty (host : Host) (aKey : Str) : List Action × JsonObjectPtr :=
  if hasSlashOrDot aKey then ([], none)
  else ([.objFromFile (propertyFile aKey)], host.objFromFile (propertyFile aKey))

/-- The method `userlevelaccess(aUriParams, err)`. -/
def userlevelaccess (host : Host) (aUriParams : Json) : Handled :=
  match aUriParams.get "level".toList with
  | some o =>
    let level := o.int32Value host.parse_int64
    let file := FLASH_PATH ++ "p44userlevel".toList
    { actions := [.string_tofile file (fmt_int level)],
      answer := some (statusAnswer (host.string_tofile file (fmt_int level)) none),
      err := none, ending := .returned }
  | none => Handled.answered (makeAnswer (some (.str (fmt_int (userlevel host)))))

/-- The directory of the alert files, `FLASH_PATH ALERT_DIR`. -/
def alertDirPath : Str := FLASH_PATH ++ "p44alerts/".toList

/-- The path of the file of an alert. -/
def alertFile (alertId : Str) : Str := alertDirPath ++ "alert_".toList ++ alertId

/-- The method `newAlert(aAlert)`: its actions and the alert identifier returned. -/
def newAlert (host : Host) (aAlert : Json) : List Action × Str :=
  let r : Str × Json :=
    match aAlert.get "id".toList with
    | some o => (o.stringValue host.json_str, aAlert)
    | none =>
      let alertId := fmt_int host.mainloop_now ++ "_".toList ++ fmt_int host.rand
      (alertId, aAlert.add "id".toList (some (.str alertId)))
  ([.mkdir alertDirPath, .string_tofile (alertFile r.1) (host.json_str r.2)], r.1)

/-- The method `confirmAlert(aAlertId)`: its actions and the flag returned. -/
def confirmAlert (host : Host) (aAlertId : Str) : List Action × Bool :=
  if hasSlashOrDot aAlertId then ([], false)
  else ([.unlink (alertFile aAlertId)], host.unlink_ok (alertFile aAlertId))

/-- The method `nextAlert()`: its actions and the alert returned. -/
def nextAlert (host : Host) : List Action × JsonObjectPtr :=
  match host.alertDir with
  | some names =>
    match names.find? (fun name => name.head? != some '.') with
    | some name =>
      ([.opendir alertDirPath, .objFromFile (alertDirPath ++ name)],
        host.objFromFile (alertDirPath ++ name))
    | none => ([.opendir alertDirPath], none)
  | none => ([.opendir alertDirPath], none)

/-- The method `alert_from_ui(aUriParams, err)`. -/
def alert_from_ui (host : Host) (aUriParams : Json) : Handled :=
  match aUriParams.get "new".toList with
  | some o =>
    let r := newAlert host o
    { actions := r.1, answer := some (makeAnswer (some (.str r.2))), err := none,
      ending := .returned }
  | none =>
    match aUriParams.get "confirm".toList with
    | some o =>
      { actions := (confirmAlert host (o.stringValue host.json_str)).1,
        answer := some emptyAnswer, err := none, ending := .returned }
    | none =>
      let r := nextAlert host
      { actions := r.1, answer := some (makeAnswer r.2), err := none, ending := .returned }

/-- The method `config_backup(err)`. -/
def config_backup (host : Host) : Handled :=
  let fn := getDefStr host.defs "UNIT_HOSTNAME".toList ++ "_".toList
    ++ host.string_ftime "%Y-%m-%d_%H.%M".toList ++ ".p44cfg".toList
  let headers := "\x03application/octet-stream\r\n".toList ++
    "\x08Content-Disposition: attachment;filename=".toList ++ fn ++ "\r\n".toList
  let script :=
    match host.platform with
    | .xcode => "echo this is a dummy config file".toList
    | .generic => "echo this is a dummy config file".toList
    | _ => "p44configbackup".toList
  let actions : List Action :=
    [.printf headers, .execve "/bin/sh".toList ["sh".toList, "-c".toList, script]]
  if host.execve_fails then
    { actions := actions, answer := none,
      err := Error.new 1 "Cannot exec backup script".toList, ending := .returned }
  else { actions := actions, answer := none, err := none, ending := .replaced }

/-- The method `config_restore_prep(aUriParams, err)`. -/
def config_restore_prep (host : Host) (aUriParams : Json) : Handled :=
  match aUriParams.get "uploadedfile".toList with
  | some o =>
    let fn := o.stringValue host.json_str
    let rcmd :=
      match host.platform with
      | .xcode => "echo /tmp/config_restore".toList
      | .generic => "echo /tmp/config_restore".toList
      | _ => "p44configrestore --prepare \"".toList ++ fn ++ "\"".toList
    Handled.deferred [.fork_and_system rcmd .configPrepared]
  | none => Handled.failed (Error.new 1 "missing 'uploadedfile' param".toList)

/-- Modelled from the spec: `nextPart(aCursor, aPart, aSeparator)` of p44utils:
the part up to the next separator and the cursor after it; none at the end of
the text. -/
def nextPart (aCursor : Str) (aSeparator : Char) : Option (Str × Str) :=
  match aCursor with
  | [] => none
  | _ =>
    some (aCursor.takeWhile (fun c => c != aSeparator),
      (aCursor.dropWhile (fun c => c != aSeparator)).drop 1)

/-- The loop of `comparableVersion` from turn `i` on, with `n` turns left: `p`
is the cursor and `v` the sum so far. The products are computed in `int`; the
sum is a `long`, taken 64 bits wide, which the sum of four `int` values fits. -/
def comparableVersionLoop (i n : Nat) (p : Str) (v : Int) : Int :=
  match n with
  | 0 => v
  | n + 1 =>
    match nextPart p '.' with
    | none => v
    | some (part, rest) =>
      let vp := atoi part
      let v :=
        match i with
        | 0 => v + wrapInt32 (vp * 10000000)
        | 1 => v + wrapInt32 (vp * 100000)
        | 2 => v + wrapInt32 (vp * 1000)
        | 3 => v + vp
        | _ => v
      comparableVersionLoop (i + 1) n rest v

/-- The method `comparableVersion(aVersionStr)`. -/
def comparableVersion (aVersionStr : Str) : Int :=
  comparableVersionLoop 0 4 aVersionStr 0

/-- The result object that `configPrepared` builds. -/
def configPreparedResult (host : Host) (aResult : Str) : Json :=
  let prepdir := trimWhiteSpace aResult true true
  let r := readDefsFrom host.fs (prepdir ++ "/p44defs".toList) DefsMap.empty
  let cfgDefs := r.2
  let oldArchive := !r.1
  let differentModel :=
    if !r.1 then false
    else !(getDefStr host.defs "PRODUCT_GTIN".toList == getDefStr cfgDefs "PRODUCT_GTIN".toList)
  let differentSerial :=
    if !r.1 then false
    else !(getDefStr host.defs "UNIT_SERIALNO".toList
      == getDefStr cfgDefs "UNIT_SERIALNO".toList)
  let oldFirmware :=
    if !r.1 then false
    else decide (comparableVersion (getDefStr host.defs "FIRMWARE_VERSION".toList)
      < comparableVersion (getDefStr cfgDefs "FIRMWARE_VERSION".toList))
  let result := Json.newObj
  let result := result.add "gtin".toList (some (.str (getDefStr cfgDefs "PRODUCT_GTIN".toList)))
  let result := result.add "model".toList
    (some (.str (getDefStr cfgDefs "PRODUCT_MODEL".toList)))
  let result := result.add "serial".toList
    (some (.str (getDefStr cfgDefs "UNIT_SERIALNO".toList)))
  let result := result.add "version".toList
    (some (.str (getDefStr cfgDefs "FIRMWARE_VERSION".toList)))
  let result := result.add "time".toList (some (.str (getDefStr cfgDefs "STATUS_TIME".toList)))
  let result := result.add "oldarchive".toList (some (.bool oldArchive))
  let result := result.add "differentmodel".toList (some (.bool differentModel))
  let result := result.add "differentserial".toList (some (.bool differentSerial))
  result.add "oldfirmware".toList (some (.bool oldFirmware))

/-- The method `configPrepared(aErr, aResult)`. -/
def configPrepared (host : Host) (aErr : ErrorPtr) (aResult : Str) : List Action :=
  let prepared : List Action :=
    [.readDefs (trimWhiteSpace aResult true true ++ "/p44defs".toList)] ++
      answerAndTerminate (some (makeAnswer (some (configPreparedResult host aResult))))
  match aErr with
  | none => prepared
  | some e =>
    if e.code == 0 then prepared
    else if Error.isError aErr "ExecError".toList 1 then
      answerAndTerminate (some (makeErrorAnswer
        { domain := "Error_baseClass".toList, code := 1,
          message := trimWhiteSpace aResult true true }))
    else answerAndTerminate (some (makeErrorAnswer e))

/-- The method `config_restore_apply(aUriParams, err)`. -/
def config_restore_apply (host : Host) (aUriParams : Json) : Handled :=
  match aUriParams.get "mode".toList with
  | some o =>
    let mode := o.int32Value host.parse_int64
    if mode ≥ 0 ∧ mode ≤ 3 then
      let apply : Handled :=
        if host.execve_fails then
          { actions := [.execve "/bin/sh".toList
              ["sh".toList, "-c".toList, "p44configrestore --apply ".toList ++ fmt_int mode]],
            answer := none, err := Error.new 1 "Cannot exec restore apply script".toList,
            ending := .returned }
        else
          { actions := [.execve "/bin/sh".toList
              ["sh".toList, "-c".toList, "p44configrestore --apply ".toList ++ fmt_int mode]],
            answer := none, err := none, ending := .replaced }
      match host.platform with
      | .xcode =>
        Handled.deferred
          ([.printf ("Real unit would execute: p44configrestore --apply ".toList ++ fmt_int mode)]
            ++ answerAndTerminate (some emptyAnswer))
      | .generic =>
        Handled.deferred
          ([.printf ("Real unit would execute: p44configrestore --apply ".toList ++ fmt_int mode)]
            ++ answerAndTerminate (some emptyAnswer))
      | _ => apply
    else Handled.failed (Error.new 1 "missing or wrong 'mode'".toList)
  | none => Handled.failed (Error.new 1 "missing or wrong 'mode'".toList)

/-- The method `endApp(aSuccess)`. -/
def endApp (aSuccess : Bool) : List Action :=
  [.redLED false, .greenLED false, if aSuccess then .greenLED true else .redLED true,
    .terminateApp (if aSuccess then 0 else 1)]

/-- The method `handleJSONCmd(aCmd, aParams, aCmdObj, aAnswer)`. -/
def handleJSONCmd (host : Host) (aCmd : Str) (aParams aCmdObj : Json) : Handled :=
  if aCmd = "restart".toList then restart_from_ui host false
  else if aCmd = "poweroff".toList then restart_from_ui host true
  else if aCmd = "configbackup".toList then config_backup host
  else if aCmd = "configrestoreprep".toList then config_restore_prep host aCmdObj
  else if aCmd = "configrestoreapply".toList then config_restore_apply host aParams
  else if aCmd = "tzconfig".toList ∧ host.platform ≠ .digiesp then timezoneconfig host aParams
  else if aCmd = "wificonfig".toList ∧ host.platform ≠ .digiesp then wificonfig host aParams
  else if aCmd = "ipconfig".toList then ipconfig host aParams
  else if aCmd = "setpassword".toList then setpassword host aParams
  else if aCmd = "factoryreset".toList then factory_reset_from_ui host aParams
  else if aCmd = "devinfo".toList then devinfo host
  else if aCmd = "userlevel".toList then userlevelaccess host aParams
  else if aCmd = "property".toList then property host aParams
  else if aCmd = "alert".toList then alert_from_ui host aParams
  else Handled.failed (Error.new 1 "Unknown 'cmd'".toList)

/-- The parameter object that `processJSON` selects from the request. -/
def requestParams (cmdObj : Json) : JsonObjectPtr :=
  match cmdObj.get "data".toList with
  | some params => some params
  | none => cmdObj.get "uri_params".toList

/-- The first part of `processJSON(aJSONCommand)`, up to the error and answer it
has before answering; the request is given as `objFromText` delivers it. -/
def processJSONCmd (host : Host) (cmdObj : JsonObjectPtr) : Handled :=
  match cmdObj with
  | some cmdObj =>
    let params := requestParams cmdObj
    match checkStringParam host.json_str params "cmd".toList with
    | .value cmd =>
      match params with
      | some params => handleJSONCmd host cmd params cmdObj
      | none => { actions := [], answer := none, err := none, ending := .nullDeref }
    | .missing => Handled.failed (Error.new 1 "Missing 'cmd'".toList)
    | .nullDeref => { actions := [], answer := none, err := none, ending := .nullDeref }
  | none => Handled.failed (Error.new 1 "Cannot decode JSON".toList)

/-- What a run of a piece of the daemon leaves: its actions and how it ends. -/
structure Trace where
  /-- The actions, in order. -/
  actions : List Action
  /-- How it ends. -/
  ending : Ending

/-- The method `processJSON(aJSONCommand)`. -/
def processJSON (host : Host) (cmdObj : JsonObjectPtr) : Trace :=
  let h := processJSONCmd host cmdObj
  match h.ending with
  | .returned =>
    let answer : JsonObjectPtr :=
      match h.err with
      | none => h.answer
      | some e => if e.code == 0 then h.answer else some (makeErrorAnswer e)
    match answer with
    | some a => { actions := h.actions ++ answerAndTerminate (some a), ending := .returned }
    | none => { actions := h.actions, ending := .returned }
  | .replaced => { actions := h.actions, ending := .replaced }
  | .nullDeref => { actions := h.actions, ending := .nullDeref }

/-- The callback that the main loop runs when a forked process has ended, with
the status and the captured output. -/
def runContinuation (host : Host) (cont : Continuation) (aErr : ErrorPtr) (aAnswer : Str) :
    List Action :=
  match cont with
  | .NoOP => []
  | .tzset_done => tzset_done
  | .tzget_done => tzget_done aAnswer
  | .cfgset_done => cfgset_done
  | .ipquery_done => ipquery_done host aAnswer
  | .wifiquery_done => wifiquery_done aAnswer
  | .passwordUpdated => passwordUpdated aErr
  | .configPrepared => configPrepared host aErr aAnswer
  | .endApp aSuccess => endApp aSuccess

/-! ## Notions used to state the properties of the dispatcher -/

/-- An answer written to standard output. -/
def Action.isPuts : Action → Bool
  | .puts _ => true
  | _ => false

/-- The callback of an external process invocation that is queued. -/
def Action.queues : Action → Option Continuation
  | .fork_and_system _ cont => some cont
  | .fork_and_execve _ _ cont => some cont
  | _ => none

/-- An external program started or put in place of the daemon. -/
def Action.isInvocation : Action → Bool
  | .fork_and_system _ _ => true
  | .fork_and_execve _ _ _ => true
  | .execve _ _ => true
  | .reboot _ => true
  | _ => false

/-- An access to the file system. -/
def Action.isFileAccess : Action → Bool
  | .string_tofile _ _ => true
  | .unlink _ => true
  | .objFromFile _ => true
  | .mkdir _ => true
  | .opendir _ => true
  | .readDefs _ => true
  | _ => false

/-- The number of answers among some actions. -/
def answersIn (actions : List Action) : Nat := actions.countP Action.isPuts

/-- The callbacks of the invocations queued by some actions, in order. -/
def queued (actions : List Action) : List Continuation := actions.filterMap Action.queues

/-- The command names that `handleJSONCmd` routes on a build. -/
def routedCommands (platform : Platform) : List Str :=
  ["restart".toList, "poweroff".toList, "configbackup".toList, "configrestoreprep".toList,
    "configrestoreapply".toList] ++
  (if platform = .digiesp then [] else ["tzconfig".toList, "wificonfig".toList]) ++
  ["ipconfig".toList, "setpassword".toList, "factoryreset".toList, "devinfo".toList,
    "userlevel".toList, "property".toList, "alert".toList]

/-- The number of answers the callback of an invocation emits. -/
def Continuation.answers : Continuation → Nat
  | .NoOP => 0
  | .endApp _ => 0
  | _ => 1

/-- The actions of the callbacks of the invocations queued by some actions, each
run once when its process has ended, with the status and captured output that
`completion` gives for the invocation. -/
def continuationActions (host : Host) (completion : Action → ErrorPtr × Str) :
    List Action → List Action
  | [] => []
  | a :: rest =>
    (match a.queues with
      | some cont => runContinuation host cont (completion a).1 (completion a).2
      | none => []) ++ continuationActions host completion rest

/-- A whole run of the daemon for a request: `processJSON`, and then the
callbacks of the invocations it queued. -/
def wholeRun (host : Host) (completion : Action → ErrorPtr × Str) (cmdObj : JsonObjectPtr) :
    List Action :=
  (processJSON host cmdObj).actions ++
    continuationActions host completion (processJSON host cmdObj).actions

/-- Whether an address field of an `ipconfig` request is there and is not a
valid IPv4 address. -/
def invalidIpField (host : Host) (aUriParams : Json) (name : Str) : Bool :=
  match aUriParams.get name with
  | some o => !host.inet_pton (o.stringValue host.json_str)
  | none => false

/-- The error answer for a code and a message of the base error domain. -/
def errorAnswer (code : Int) (message : Str) : Json :=
  makeErrorAnswer { domain := "Error_baseClass".toList, code := code, message := message }

/-- A stand-in for the JSON text of a value, for the example hosts. -/
def exampleJsonStr : Json → Str
  | .null => "null".toList
  | .bool b => if b then "true".toList else "false".toList
  | .int n => fmt_int n
  | .str s => dquote :: s ++ [dquote]
  | .arr _ => "[ ]".toList
  | .obj _ => "{ }".toList

/-- A host for the examples, on a given build: it accepts two addresses as
valid, knows two time zones, has no files and lets `execve` succeed. -/
def exampleHost (platform : Platform) : Host where
  platform := platform
  defs := DefsMap.empty.assign "STATUS_IPV4".toList "192.168.1.2".toList
  defsKeys := ["STATUS_IPV4".toList]
  fs := fun _ => none
  json_str := exampleJsonStr
  parse_int64 := atoi
  inet_pton := fun s => s == "192.168.1.2".toList || s == "8.8.8.8".toList
  timezones := [("Africa/Abidjan".toList, "GMT0".toList),
    ("Europe/Zurich".toList, "CET-1CEST,M3.5.0,M10.5.0/3".toList)]
  objFromFile := fun _ => none
  string_tofile := fun _ _ => none
  unlink_ok := fun _ => true
  execve_fails := false
  shellQuote := fun s => squote :: s ++ [squote]
  string_ftime := fun _ => "2024-01-01_00.00".toList
  time := 1700000000
  gmtoff := 3600
  uptime := 100
  mainloop_now := 1
  rand := 2
  alertDir := none

/-- The status and output with which the invocations of the examples end: no
error and no output. -/
def exampleCompletion : Action → ErrorPtr × Str := fun _ => (none, [])

/-- A request whose `data` field holds JSON null and whose `uri_params` name a
command. -/
def nullDataRequest : Json :=
  .obj [("data".toList, .null),
    ("uri_params".toList, .obj [("cmd".toList, .str "devinfo".toList)])]

/-- A request for the preparation of a restore with the name of the uploaded
file among the parameters in `data`. -/
def restorePrepRequest : Json :=
  .obj [("data".toList, .obj [("cmd".toList, .str "configrestoreprep".toList),
    ("uploadedfile".toList, .str "/tmp/upload".toList)])]

/-- A request with an empty `data` object and with `uri_params` that name a
command. -/
def emptyDataRequest : Json :=
  .obj [("data".toList, .obj []),
    ("uri_params".toList, .obj [("cmd".toList, .str "devinfo".toList)])]

/-- A request with a command name that differs from a routed one in case only. -/
def unknownCmdRequest : Json :=
  .obj [("uri_params".toList, .obj [("cmd".toList, .str "Restart".toList)])]

/-- A request for a restart. -/
def restartRequest : Json :=
  .obj [("data".toList, .obj [("cmd".toList, .str "restart".toList)])]

/-- A request for the network configuration without a `dhcp` field. -/
def ipQueryRequest : Json :=
  .obj [("uri_params".toList, .obj [("cmd".toList, .str "ipconfig".toList)])]

/-- The parameters of an `ipconfig` request that switches DHCP off and gives
an address that is not valid. -/
def badIpParams : Json :=
  .obj [("cmd".toList, .str "ipconfig".toList), ("dhcp".toList, .bool false),
    ("ipaddr".toList, .str "300.1.1.1".toList)]

/-- The parameters of a `property` request with a path in the key. -/
def badPropertyParams : Json :=
  .obj [("cmd".toList, .str "property".toList), ("key".toList, .str "a/b".toList),
    ("value".toList, .int 5)]

/-- A captured output of the network query in which a line whose key ends in
`ipaddr` stands before the line of `ipaddr`. -/
def shadowedIpOutput : Str := "myipaddr=9.9.9.9\nipaddr=1.2.3.4\n".toList

/-- The number of answers to which the run of a handler leads: those it emits
itself, those the callbacks of the invocations it queues emit, and the one
`processJSON` emits when the handler returns with an answer or an error. -/
def Handled.answers (h : Handled) : Nat :=
  answersIn h.actions + ((queued h.actions).map Continuation.answers).sum +
    (if h.ending = .returned ∧ (h.answer.isSome ∨ Error.isOK h.err = false) then 1 else 0)

/-- A handler keeps to the rule for queued work: it queues at most one
invocation, when it queues one it returns without an answer and without an
error and has emitted no answer itself, and the callback it binds is one that
emits an answer, or the callback `endApp` of the factory reset. -/
def Handled.defers (h : Handled) : Prop :=
  (queued h.actions).length ≤ 1 ∧
  (queued h.actions ≠ [] →
    h.answer = none ∧ h.err = none ∧ answersIn h.actions = 0 ∧ h.ending = .returned) ∧
  (∀ cont ∈ queued h.actions, cont.answers = 1 ∨ cont = .endApp false)

/-- The key and the value of a line of the form `key=value`, split at the first
`=`; none for a line without `=`. -/
def lineKeyValue (line : Str) : Option (Str × Str) :=
  if '=' ∈ line then
    some (line.takeWhile (fun c => c != '='), (line.dropWhile (fun c => c != '=')).drop 1)
  else none

/-- The value that a text of lines `key=value`, separated by newlines, gives to
the variable `name`: the value of the first line whose key equals `name`, none
when no line has that key. -/
def lineValue (text name : Str) : Option Str :=
  ((text.splitOn '\n').filterMap lineKeyValue).lookup name

/-! ## Definitions for the later properties -/

/-- Modelled from the spec: `tolower` of the C library, in the C locale: the
capital letters `A` to `Z` become small, every other character stays. -/
def tolower (c : Char) : Char := c.toLower

/-- The method `isDefTrue(aKey)`. -/
def isDefTrue (defs : DefsMap) (aKey : Str) : Bool :=
  match getDef defs aKey with
  | some d =>
    match d with
    | [] => false
    | c :: _ =>
      d == "1".toList || d == "ok".toList || tolower c == 't' || tolower c == 'y'
  | none => false

/-- The method `macFromSerial(aSerial)`, on the serial number as a `uint64_t`;
`ulBits` is the width of `unsigned long`, the type in which the vendor parts
are shifted. -/
def macFromSerial (ulBits : Nat) (aSerial : Nat) : Nat :=
  let aSerial := aSerial % 2 ^ 64
  let mac := aSerial &&& 0xFFFFFF
  if aSerial >>> 24 = 1 then mac ||| ((0x00409D <<< 24) % 2 ^ ulBits)
  else if aSerial >>> 24 = 2 then mac ||| ((0xB827EB <<< 24) % 2 ^ ulBits)
  else if aSerial >>> 24 = 3 then mac ||| ((0x40A36B <<< 24) % 2 ^ ulBits)
  else mac

/-- The content of the files that the handlers write and remove, by path. -/
abbrev FileStore := Str → Option Str

/-- Modelled from the spec: what an action does to the files. `string_tofile`
of p44utils puts the content in place of what the file had when it reports no
error, and `unlink` removes the file when it succeeds; a call that fails and
every other action leave the files as they are. -/
def Action.onFiles (host : Host) (files : FileStore) : Action → FileStore
  | .string_tofile path content =>
    if Error.isOK (host.string_tofile path content) then
      fun p => if p = path then some content else files p
    else files
  | .unlink path =>
    if host.unlink_ok path then fun p => if p = path then none else files p else files
  | _ => files

/-- The files after some actions, in order. -/
def filesAfter (host : Host) (actions : List Action) (files : FileStore) : FileStore :=
  actions.foldl (Action.onFiles host) files

/-- The invocations that a run of the pipeline issues, in order, each with its
command line and the continuation bound to it: the one an outcome has pending,
and then those of the outcome of its continuation, which the main loop runs
when the command has finished (`n` continuations at most). -/
def invocations (env : Env) : Nat → Outcome → List (Str × Getter)
  | _, .called _ => []
  | 0, .forked cmd cont _ => [(cmd, cont)]
  | n + 1, .forked cmd cont defs =>
    (cmd, cont) :: invocations env n (queryDone env cont defs (env.captured cmd))

/-- The four getters in the order of the stages of the pipeline. -/
def pipelineOrder : List Getter := [.platformid, .productid, .producer, .variant]

/-- The getters of the stages that can still follow an outcome of a given
rank, in order. -/
def stagesFrom : Nat → List Getter
  | 0 => []
  | 1 => [.variant]
  | 2 => [.producer, .variant]
  | 3 => [.productid, .producer, .variant]
  | _ => [.platformid, .productid, .producer, .variant]

/-- The keys that `processVariantSpecifics` assigns after it has merged the
custom overrides file. -/
def unitKeys : List Str :=
  ["UNIT_SERIALNO".toList, "UNIT_MAC_DECIMAL".toList, "UNIT_MACADDRESS".toList,
   "STATUS_IPV4".toList, "UNIT_HOSTNAME".toList]

/-- The path of the custom overrides file as the code writes it. -/
def customDefsFile : Str := FLASH_PATH ++ "/p44custom.defs".toList

/-- Files with a custom overrides file that defines the serial number of the
unit and the product model. -/
def unitFiles : FileSystem := fun path =>
  if path = "/flash//p44custom.defs".toList then
    some ["UNIT_SERIALNO=1".toList, "PRODUCT_MODEL=custom-model".toList]
  else if path = "/etc/p44product.defs".toList then some ["PRODUCT_MODEL=stock".toList]
  else none

/-- A target device with the files `unitFiles`. -/
def unitEnv : Env where
  build := .target
  defspath := "/etc/".toList
  fs := unitFiles
  captured := fun _ => []
  now := "2024-01-01 00:00:00".toList
  year := 2024
  macAddress := 0xB827EB123456
  ipv4Address := 0xC0A80001

/-- A store with three flags, of the values `yes`, `T` and `tbd`. -/
def flagDefs : DefsMap :=
  ((DefsMap.empty.assign "FLAG".toList "yes".toList).assign "OTHER".toList "T".toList).assign
    "DRAFT".toList "tbd".toList

/-- A text of two lines in which the key of the first line ends in `ssid`. -/
def suffixKeyText : Str := "ap_ssid=guest\nssid=home\n".toList

/-- A text of two lines in which the value of the first line contains `ssid=`. -/
def nameInValueText : Str := "note=ssid=x\nssid=home\n".toList

/-- A request whose parameters have the field `cmd` with the value JSON null. -/
def nullCmdRequest : Json := .obj [("data".toList, .obj [("cmd".toList, .null)])]

/-- An alert that brings an identifier with a dot. -/
def dottedAlert : Json :=
  .obj [("id".toList, .str "a.b".toList), ("text".toList, .str "hello".toList)]

/-- The parameters of an `alert` request that stores `dottedAlert`. -/
def dottedAlertParams : Json :=
  .obj [("cmd".toList, .str "alert".toList), ("new".toList, dottedAlert)]

/-- The parameters of an `alert` request that confirms the alert `a.b`. -/
def dottedConfirmParams : Json :=
  .obj [("cmd".toList, .str "alert".toList), ("confirm".toList, .str "a.b".toList)]

/-- The parameters of a `wificonfig` request whose network name contains
single quotes. -/
def quoteSsidParams : Json :=
  .obj [("cmd".toList, .str "wificonfig".toList),
    ("cli".toList, .obj [("ssid".toList, .str "x'; reboot; '".toList)])]

/-- The parameters of a `property` request that sets a value. -/
def setPropertyParams : Json :=
  .obj [("cmd".toList, .str "property".toList), ("key".toList, .str "Color".toList),
    ("value".toList, .int 5)]

/-- A host that runs the firmware version `214.0.0.0` and has a prepared
archive in `/tmp/prep` whose definitions record the version `215.0.0.0`. -/
def oldFirmwareHost : Host :=
  { exampleHost .openwrt with
    defs := DefsMap.empty.assign "FIRMWARE_VERSION".toList "214.0.0.0".toList
    fs := fun path =>
      if path = "/tmp/prep/p44defs".toList then some ["FIRMWARE_VERSION=215.0.0.0".toList]
      else none }

/-- A part of a version that is a decimal number: digits, at least one. -/
def isNumber (p : Str) : Bool := !p.isEmpty && p.all Char.isDigit

/-- The text of a version of four parts, separated by dots. -/
def versionOf (pa pb pc pd : Str) : Str := pa ++ '.' :: (pb ++ '.' :: (pc ++ '.' :: pd))

/-- The dotted decimal text of a network address, as `processVariantSpecifics`
formats it. -/
def dottedDecimal (ipv4 : Nat) : Str :=
  fmt_d ((ipv4 >>> 24) &&& 0xFF) ++ ".".toList ++ fmt_d ((ipv4 >>> 16) &&& 0xFF)
    ++ ".".toList ++ fmt_d ((ipv4 >>> 8) &&& 0xFF) ++ ".".toList ++ fmt_d (ipv4 &&& 0xFF)

/-! ## The defs files that a run merges -/

/-- The defs files that the store mutations of `processPlatformSpecifics` merge
with `readDefsFrom`, in order. -/
def platformDefsFiles (env : Env) (defs : DefsMap) : List Str :=
  match getDef defs "PLATFORM_IDENTIFIER".toList with
  | some d => [env.defspath ++ "p44platform-".toList ++ d ++ ".defs".toList]
  | none => []

/-- One call of `readDefsFrom` on the store, with the list of the files merged
so far. -/
def mergeStep (env : Env) (file : Str) (r : List Str × DefsMap) : List Str × DefsMap :=
  (r.1 ++ [file], (readDefsFrom env.fs file r.2).2)

/-- The store mutations of `processProductSpecifics`, with the list of the defs
files they merge, in order: the second and third file only while no product
identifier is in the store, the fourth for the product identifier then in the
store. -/
def productMerges (env : Env) (defs : DefsMap) : List Str × DefsMap :=
  let r := mergeStep env (env.defspath ++ "p44product.defs".toList) ([], defs)
  let r :=
    if (getDef r.2 "PRODUCT_IDENTIFIER".toList).isNone then
      match getDef r.2 "PLATFORM_IDENTIFIER".toList with
      | some d =>
        mergeStep env (env.defspath ++ "p44product-default_".toList ++ d ++ ".defs".toList) r
      | none => r
    else r
  let r :=
    if (getDef r.2 "PRODUCT_IDENTIFIER".toList).isNone then
      mergeStep env (env.defspath ++ "p44product-default.defs".toList) r
    else r
  match getDef r.2 "PRODUCT_IDENTIFIER".toList with
  | some d => mergeStep env (env.defspath ++ "p44product-".toList ++ d ++ ".defs".toList) r
  | none => r

/-- The defs files that the store mutations of `processProductSpecifics` merge
with `readDefsFrom`, in order. -/
def productDefsFiles (env : Env) (defs : DefsMap) : List Str := (productMerges env defs).1

/-- That a store, reached by merging a list of files, still has the value of a
key that an earlier store had, provided none of the files defines the key. -/
def KeepsKey (fs : FileSystem) (K : Str) (before : DefsMap) (r : List Str × DefsMap) : Prop :=
  (∀ path ∈ r.1, fileDefinitionsOf fs path K = []) → r.2 K = before K

/-- The defs files that `processVariantSpecifics` merges with `readDefsFrom`,
in order: the variant specific file and the custom overrides file. -/
def variantDefsFiles (env : Env) (defs : DefsMap) : List Str :=
  (match getDef defs "PRODUCT_VARIANT".toList with
    | some d =>
      [env.defspath ++ "p44variant-".toList ++ getDefStr defs "PRODUCT_IDENTIFIER".toList
        ++ "-".toList ++ d ++ ".defs".toList]
    | none => []) ++ [FLASH_PATH ++ "/p44custom.defs".toList]

/-- The defs files that `checkProducer` merges until it returns. -/
def checkProducerFiles (env : Env) (defs : DefsMap) : List Str :=
  let defs := producerDefs env defs
  match getDef defs "PLATFORM_VARIANT_GETTER".toList with
  | some _ => []
  | none => variantDefsFiles env defs

/-- The defs files that `processProductSpecifics` merges until it returns. -/
def processProductSpecificsFiles (env : Env) (defs : DefsMap) : List Str :=
  productDefsFiles env defs ++
    (let defs := productDefs env defs
     match getDef defs "PRODUCER_GETTER".toList with
     | some _ => []
     | none =>
       checkProducerFiles env
         (readDefFromFirstLine env.fs (env.defspath ++ "p44producer".toList)
           "PRODUCER".toList defs).2)

/-- The defs files that `processPlatformSpecifics` merges until it returns. -/
def processPlatformSpecificsFiles (env : Env) (defs : DefsMap) : List Str :=
  platformDefsFiles env defs ++
    (let defs := platformDefs env defs
     match getDef defs "PLATFORM_PRODUCT_IDENTIFIER_GETTER".toList with
     | some _ => []
     | none => processProductSpecificsFiles env defs)

/-- The defs files that the continuation of a getter merges until it returns. -/
def queryDoneFiles (env : Env) (cont : Getter) (defs : DefsMap) (aAnswer : Str) : List Str :=
  let v := trimWhiteSpace aAnswer true true
  match cont with
  | .platformid =>
    processPlatformSpecificsFiles env
      (if v.length > 0 then defs.assign "PLATFORM_IDENTIFIER".toList v else defs)
  | .productid =>
    processProductSpecificsFiles env
      (if v.length > 0 then defs.assign "PRODUCT_IDENTIFIER".toList v else defs)
  | .producer =>
    checkProducerFiles env (if v.length > 0 then defs.assign "PRODUCER".toList v else defs)
  | .variant =>
    variantDefsFiles env
      (if v.length > 0 then defs.assign "PRODUCT_VARIANT".toList v
       else defs.assign "PRODUCT_VARIANT".toList "0".toList)

/-- The defs files that the continuations merge which the main loop runs after
an outcome, in order (`n` continuations at most). -/
def mainLoopFiles (env : Env) : Nat → Outcome → List Str
  | 0, _ => []
  | _ + 1, .called _ => []
  | n + 1, .forked cmd cont defs =>
    queryDoneFiles env cont defs (env.captured cmd) ++
      mainLoopFiles env n (queryDone env cont defs (env.captured cmd))

/-- A request for a factory reset whose mode is the JSON value `true`. -/
def coercedResetRequest : Json :=
  .obj [("data".toList,
    .obj [("cmd".toList, .str "factoryreset".toList), ("mode".toList, .bool true)])]

/-- A request to apply a restore whose mode is an empty array. -/
def coercedApplyRequest : Json :=
  .obj [("data".toList,
    .obj [("cmd".toList, .str "configrestoreapply".toList), ("mode".toList, .arr [])])]

/-! ## The identification as a sequence of events

The functions of the pipeline once more, statement by statement, this time
recording what they do in order: the store mutations, the invocations issued
with `fork_and_system`, and the call of the completion callback. The store is
passed along as the member `defs` is in the source. -/

/-- What the pipeline and the main loop do, as far as the sequence goes. -/
inductive PipelineEvent
  /-- Statements that change the store, with the store after them. -/
  | mutated (defs : DefsMap)
  /-- The call `fork_and_system` for a command line, with the continuation bound. -/
  | issued (cmd : Str) (cont : Getter)
  /-- The command of an invocation has ended and the main loop calls its
  continuation. -/
  | finished (cont : Getter)
  /-- The call `aCallback()`, with the store of that moment. -/
  | callback (defs : DefsMap)

/-- The events of a piece of the pipeline, in order, and the store after it. -/
abbrev Traced := List PipelineEvent × DefsMap

/-- The method `processVariantSpecifics(aCallback)`, with its events. -/
def processVariantSpecificsT (env : Env) (defs : DefsMap) : Traced :=
  let defs := variantDefs env defs
  ([.mutated defs, .callback defs], defs)

/-- The method `variantQueryDone(aCallback, err, aAnswer)`, with its events. -/
def variantQueryDoneT (env : Env) (defs : DefsMap) (aAnswer : Str) : Traced :=
  let v := trimWhiteSpace aAnswer true true
  let defs :=
    if v.length > 0 then defs.assign "PRODUCT_VARIANT".toList v
    else defs.assign "PRODUCT_VARIANT".toList "0".toList
  let r := processVariantSpecificsT env defs
  (.mutated defs :: r.1, r.2)

/-- The method `checkProducer(aCallback)`, with its events. -/
def checkProducerT (env : Env) (defs : DefsMap) : Traced :=
  let defs := producerDefs env defs
  match getDef defs "PLATFORM_VARIANT_GETTER".toList with
  | some d => ([.mutated defs, .issued d .variant], defs)
  | none =>
    let r := processVariantSpecificsT env defs
    (.mutated defs :: r.1, r.2)

/-- The method `producerQueryDone(aCallback, err, aAnswer)`, with its events. -/
def producerQueryDoneT (env : Env) (defs : DefsMap) (aAnswer : Str) : Traced :=
  let v := trimWhiteSpace aAnswer true true
  if v.length > 0 then
    let defs := defs.assign "PRODUCER".toList v
    let r := checkProducerT env defs
    (.mutated defs :: r.1, r.2)
  else checkProducerT env defs

/-- The method `processProductSpecifics(aCallback)`, with its events. -/
def processProductSpecificsT (env : Env) (defs : DefsMap) : Traced :=
  let defs := productDefs env defs
  match getDef defs "PRODUCER_GETTER".toList with
  | some d => ([.mutated defs, .issued d .producer], defs)
  | none =>
    let defs2 := (readDefFromFirstLine env.fs (env.defspath ++ "p44producer".toList)
      "PRODUCER".toList defs).2
    let r := checkProducerT env defs2
    (.mutated defs :: .mutated defs2 :: r.1, r.2)

/-- The method `productidQueryDone(aCallback, err, aAnswer)`, with its events. -/
def productidQueryDoneT (env : Env) (defs : DefsMap) (aAnswer : Str) : Traced :=
  let v := trimWhiteSpace aAnswer true true
  if v.length > 0 then
    let defs := defs.assign "PRODUCT_IDENTIFIER".toList v
    let r := processProductSpecificsT env defs
    (.mutated defs :: r.1, r.2)
  else processProductSpecificsT env defs

/-- The method `processPlatformSpecifics(aCallback)`, with its events. -/
def processPlatformSpecificsT (env : Env) (defs : DefsMap) : Traced :=
  let defs := platformDefs env defs
  match getDef defs "PLATFORM_PRODUCT_IDENTIFIER_GETTER".toList with
  | some d => ([.mutated defs, .issued d .productid], defs)
  | none =>
    let r := processProductSpecificsT env defs
    (.mutated defs :: r.1, r.2)

/-- The method `platformidQueryDone(aCallback, err, aAnswer)`, with its events. -/
def platformidQueryDoneT (env : Env) (defs : DefsMap) (aAnswer : Str) : Traced :=
  let v := trimWhiteSpace aAnswer true true
  if v.length > 0 then
    let defs := defs.assign "PLATFORM_IDENTIFIER".toList v
    let r := processPlatformSpecificsT env defs
    (.mutated defs :: r.1, r.2)
  else processPlatformSpecificsT env defs

/-- The method `identifyDynamically(aCallback)`, with its events. -/
def identifyDynamicallyT (env : Env) : Traced :=
  let r := setDefDefaults env DefsMap.empty
  if !r.1 then
    let t := processProductSpecificsT env r.2
    (.mutated r.2 :: t.1, t.2)
  else
    let defs := (readDefsFrom env.fs (env.defspath ++ "p44platform.defs".toList) r.2).2
    match getDef defs "PLATFORM_IDENTIFIER_GETTER".toList with
    | some d => ([.mutated r.2, .mutated defs, .issued d .platformid], defs)
    | none =>
      let t := processPlatformSpecificsT env defs
      (.mutated r.2 :: .mutated defs :: t.1, t.2)

/-- The continuation bound to an invocation, with its events. -/
def queryDoneT (env : Env) (cont : Getter) (defs : DefsMap) (aAnswer : Str) : Traced :=
  match cont with
  | .platformid => platformidQueryDoneT env defs aAnswer
  | .productid => productidQueryDoneT env defs aAnswer
  | .producer => producerQueryDoneT env defs aAnswer
  | .variant => variantQueryDoneT env defs aAnswer

/-- The invocations issued among some events, in order. -/
def issuedIn (events : List PipelineEvent) : List (Str × Getter) :=
  events.filterMap
    (fun e => match e with
      | .issued cmd cont => some (cmd, cont)
      | _ => none)

/-- The continuations run among some events, in order. -/
def finishedIn (events : List PipelineEvent) : List Getter :=
  events.filterMap
    (fun e => match e with
      | .finished cont => some cont
      | _ => none)

/-- The number of calls of the completion callback among some events. -/
def callbacksIn (events : List PipelineEvent) : Nat :=
  events.countP
    (fun e => match e with
      | .callback _ => true
      | _ => false)

/-- Whether an event is a store mutation. -/
def PipelineEvent.isMutation : PipelineEvent → Bool
  | .mutated _ => true
  | _ => false

/-- The main loop, with its events: as long as invocations are pending and
fuel is left, the command of the first of them ends and its continuation runs;
the invocations that the continuation issues are pending after those already
there. -/
def mainLoopT (env : Env) : Nat → List (Str × Getter) → DefsMap → List PipelineEvent
  | 0, _, _ => []
  | _ + 1, [], _ => []
  | n + 1, (cmd, cont) :: pending, defs =>
    .finished cont :: (queryDoneT env cont defs (env.captured cmd)).1 ++
      mainLoopT env n (pending ++ issuedIn (queryDoneT env cont defs (env.captured cmd)).1)
        (queryDoneT env cont defs (env.captured cmd)).2

/-- The events of the whole identification: those of `identifyDynamically`, and
then those of the main loop with the invocations it has issued (`n`
continuations at most). -/
def identifyT (env : Env) (n : Nat) : List PipelineEvent :=
  (identifyDynamicallyT env).1 ++
    mainLoopT env n (issuedIn (identifyDynamicallyT env).1) (identifyDynamicallyT env).2

/-- Whether, in a sequence of events that starts with `pending` invocations
under way, every invocation is issued while no other is pending, and every
continuation runs for an invocation that is pending. -/
def oneAtATime : Nat → List PipelineEvent → Bool
  | _, [] => true
  | pending, .issued _ _ :: rest => pending == 0 && oneAtATime (pending + 1) rest
  | pending, .finished _ :: rest => pending != 0 && oneAtATime (pending - 1) rest
  | pending, .mutated _ :: rest => oneAtATime pending rest
  | pending, .callback _ :: rest => oneAtATime pending rest

/-- That the events of a piece of the pipeline and its store are those of an
outcome: store mutations, and then either the one invocation that the outcome
has pending or, after a last store mutation, the callback with the store of
that mutation. -/
def Traced.agrees (r : Traced) (o : Outcome) : Prop :=
  ∃ pre : List PipelineEvent, (∀ e ∈ pre, e.isMutation = true) ∧
    match o with
    | .called defs => r.2 = defs ∧ r.1 = pre ++ [.mutated defs, .callback defs]
    | .forked cmd cont defs => r.2 = defs ∧ r.1 = pre ++ [.issued cmd cont]

/-! ## Lemmas on the store and on reading files -/

theorem assign_same (defs : DefsMap) (key value : Str) :
    defs.assign key value key = some value := by
  simp [DefsMap.assign]

theorem assign_other (defs : DefsMap) (key value k : Str) (h : k ≠ key) :
    defs.assign key value k = defs k := by
  simp [DefsMap.assign, h]

theorem readDefsLine_eq (st : DefsMap × Bool) (line : Str) :
    readDefsLine st line =
      match acceptedLine line with
      | some kv => (st.1.assign kv.1 (storedValue kv.2), true)
      | none => st := by
  unfold readDefsLine acceptedLine
  by_cases h : (trimWhiteSpace line true false).length > 0 ∧
      (trimWhiteSpace line true false).head? ≠ some '#'
  · rw [if_pos h, if_pos h]
    cases keyAndValue line '=' <;> rfl
  · rw [if_neg h, if_neg h]

theorem definitionsOf_nil (k : Str) : definitionsOf [] k = [] := rfl

theorem definitionsOf_cons (line : Str) (lines : List Str) (k : Str) :
    definitionsOf (line :: lines) k =
      (match acceptedLine line with
        | some kv => if kv.1 = k then [storedValue kv.2] else []
        | none => []) ++ definitionsOf lines k := by
  unfold definitionsOf
  cases h : acceptedLine line with
  | none => simp [List.filterMap_cons, h]
  | some kv =>
    by_cases hk : kv.1 = k <;> simp [List.filterMap_cons, h, hk]

/-- The value of a key after the line loop: the last definition the lines give
it, or else the value it had. -/
theorem foldl_readDefsLine_apply (lines : List Str) (st : DefsMap × Bool) (k : Str) :
    (lines.foldl readDefsLine st).1 k = ((definitionsOf lines k).getLast?).or (st.1 k) := by
  induction lines generalizing st with
  | nil => simp [definitionsOf_nil]
  | cons line lines ih =>
    rw [List.foldl_cons, ih, definitionsOf_cons, readDefsLine_eq]
    cases hl : acceptedLine line with
    | none => simp
    | some kv =>
      by_cases hk : kv.1 = k
      · cases hd : definitionsOf lines k with
        | nil => simp [hk, DefsMap.assign]
        | cons v vs =>
          rw [List.getLast?_append_of_ne_nil _ (by simp),
            List.getLast?_eq_getLast _ (List.cons_ne_nil _ _)]
          simp
      · have hk' : k ≠ kv.1 := fun h => hk h.symm
        simp [hk, DefsMap.assign, hk']

/-- The value of a key after `readDefsFrom`: the last definition the file gives
it, or else the value it had. -/
theorem readDefsFrom_apply (fs : FileSystem) (aFileName : Str) (aDefs : DefsMap) (k : Str) :
    (readDefsFrom fs aFileName aDefs).2 k =
      ((fileDefinitionsOf fs aFileName k).getLast?).or (aDefs k) := by
  unfold readDefsFrom fileDefinitionsOf
  cases fs aFileName with
  | none => simp
  | some lines => simp [foldl_readDefsLine_apply]

theorem readDefsFrom_of_undefined (fs : FileSystem) (aFileName : Str) (aDefs : DefsMap) (k : Str)
    (h : fileDefinitionsOf fs aFileName k = []) :
    (readDefsFrom fs aFileName aDefs).2 k = aDefs k := by
  rw [readDefsFrom_apply, h]; simp

theorem readDefsFrom_isSome (fs : FileSystem) (aFileName : Str) (aDefs : DefsMap) (k : Str)
    (h : (aDefs k).isSome) : ((readDefsFrom fs aFileName aDefs).2 k).isSome := by
  rw [readDefsFrom_apply]
  cases (fileDefinitionsOf fs aFileName k).getLast? with
  | none => simpa using h
  | some v => simp

theorem readDefFromFirstLine_apply (fs : FileSystem) (aFileName key : Str) (defs : DefsMap)
    (k : Str) :
    (readDefFromFirstLine fs aFileName key defs).2 k =
      if k = key then (string_fgetfirstline fs aFileName).or (defs k) else defs k := by
  unfold readDefFromFirstLine
  cases string_fgetfirstline fs aFileName with
  | none => simp
  | some v => by_cases hk : k = key <;> simp [DefsMap.assign, hk]

theorem readDefFromFirstLine_other (fs : FileSystem) (aFileName key : Str) (defs : DefsMap)
    (k : Str) (hk : k ≠ key) :
    (readDefFromFirstLine fs aFileName key defs).2 k = defs k := by
  rw [readDefFromFirstLine_apply]; simp [hk]

theorem readDefFromFirstLine_isSome (fs : FileSystem) (aFileName key : Str) (defs : DefsMap)
    (k : Str) (h : (defs k).isSome) :
    ((readDefFromFirstLine fs aFileName key defs).2 k).isSome := by
  rw [readDefFromFirstLine_apply]
  by_cases hk : k = key
  · cases string_fgetfirstline fs aFileName with
    | none => simpa [hk] using h
    | some v => simp [hk]
  · simpa [hk] using h

theorem setDefDefault_apply (defs : DefsMap) (aKey aValue k : Str) :
    (setDefDefault defs aKey aValue).2 k =
      if k = aKey then (defs k).or (some aValue) else defs k := by
  unfold setDefDefault
  by_cases hk : k = aKey
  · subst hk
    cases h : defs k with
    | none => simp [h, DefsMap.assign]
    | some v => simp [h]
  · cases h : defs aKey with
    | none => simp [h, DefsMap.assign, hk]
    | some v => simp [h, hk]

theorem definitionsOf_append (l₁ l₂ : List Str) (k : Str) :
    definitionsOf (l₁ ++ l₂) k = definitionsOf l₁ k ++ definitionsOf l₂ k := by
  simp [definitionsOf, List.filterMap_append]

theorem definitionsOf_eq_nil (lines : List Str) (k : Str)
    (h : ∀ l ∈ lines, ∀ kv, acceptedLine l = some kv → kv.1 ≠ k) :
    definitionsOf lines k = [] := by
  induction lines with
  | nil => rfl
  | cons line lines ih =>
    rw [definitionsOf_cons, ih (fun l hl => h l (List.mem_cons_of_mem _ hl))]
    cases hl : acceptedLine line with
    | none => simp
    | some kv => simp [h line (List.mem_cons_self _ _) kv hl]

/-- The last accepted line for a key decides its value after `readDefsFrom`. -/
theorem readDefsFrom_last_line (fs : FileSystem) (aFileName : Str) (aDefs : DefsMap)
    (pre post : List Str) (line k value : Str)
    (hfile : fs aFileName = some (pre ++ line :: post))
    (hline : acceptedLine line = some (k, value))
    (hpost : ∀ l ∈ post, ∀ kv, acceptedLine l = some kv → kv.1 ≠ k) :
    (readDefsFrom fs aFileName aDefs).2 k = some (storedValue value) := by
  rw [readDefsFrom_apply]
  unfold fileDefinitionsOf
  rw [hfile]
  simp only
  rw [definitionsOf_append, definitionsOf_cons, hline, definitionsOf_eq_nil post k hpost]
  simp

/-! ## Lemmas on the stages of the pipeline -/

theorem ne_of_not_mem_assignedKeys {K key : Str} (hK : K ∉ assignedKeys)
    (hkey : key ∈ assignedKeys) : K ≠ key :=
  fun h => hK (h ▸ hkey)

theorem productStageFile_product (env : Env) (tail : Str) :
    productStageFile env (env.defspath ++ "p44product".toList ++ tail) = true := by
  simp [productStageFile]

theorem productStageFile_variant (env : Env) (tail : Str) :
    productStageFile env (env.defspath ++ "p44variant-".toList ++ tail) = true := by
  simp [productStageFile]

theorem productStageFile_custom (env : Env) :
    productStageFile env (FLASH_PATH ++ "/p44custom.defs".toList) = true := by
  simp [productStageFile]

/-- The variant stage leaves a key alone that it does not assign itself and that
neither the variant specific file nor the custom overrides file defines. -/
theorem variantDefs_other (env : Env) (defs : DefsMap) (K : Str)
    (h1 : K ≠ "UNIT_SERIALNO".toList) (h2 : K ≠ "UNIT_MAC_DECIMAL".toList)
    (h3 : K ≠ "UNIT_MACADDRESS".toList) (h4 : K ≠ "STATUS_IPV4".toList)
    (h5 : K ≠ "UNIT_HOSTNAME".toList) (h6 : K ≠ "PRODUCT_COPYRIGHT_YEARS".toList)
    (h7 : K ≠ "PRODUCT_COPYRIGHT_HOLDER".toList)
    (hvariant : ∀ d, getDef defs "PRODUCT_VARIANT".toList = some d →
      fileDefinitionsOf env.fs
        (env.defspath ++ "p44variant-".toList ++ getDefStr defs "PRODUCT_IDENTIFIER".toList
          ++ "-".toList ++ d ++ ".defs".toList) K = [])
    (hcustom : fileDefinitionsOf env.fs (FLASH_PATH ++ "/p44custom.defs".toList) K = []) :
    variantDefs env defs K = defs K := by
  unfold variantDefs setDerivedDefs
  simp only [setDefDefault_apply, if_neg h7, if_neg h6, assign_other _ _ _ _ h5,
    assign_other _ _ _ _ h4, assign_other _ _ _ _ h3, assign_other _ _ _ _ h2,
    assign_other _ _ _ _ h1]
  rw [readDefsFrom_of_undefined _ _ _ _ hcustom]
  cases h : getDef defs "PRODUCT_VARIANT".toList with
  | none => rfl
  | some d => exact readDefsFrom_of_undefined _ _ _ _ (hvariant d h)

theorem variantDefs_keeps (env : Env) (defs : DefsMap) (K : Str) (hK : K ∉ assignedKeys)
    (hfiles : ∀ path, productStageFile env path = true → fileDefinitionsOf env.fs path K = []) :
    variantDefs env defs K = defs K := by
  refine variantDefs_other env defs K
    (ne_of_not_mem_assignedKeys hK (by decide)) (ne_of_not_mem_assignedKeys hK (by decide))
    (ne_of_not_mem_assignedKeys hK (by decide)) (ne_of_not_mem_assignedKeys hK (by decide))
    (ne_of_not_mem_assignedKeys hK (by decide)) (ne_of_not_mem_assignedKeys hK (by decide))
    (ne_of_not_mem_assignedKeys hK (by decide)) ?_ (hfiles _ (productStageFile_custom env))
  intro d _
  refine hfiles _ ?_
  have hp := productStageFile_variant env
    (getDefStr defs "PRODUCT_IDENTIFIER".toList ++ "-".toList ++ d ++ ".defs".toList)
  simpa [List.append_assoc] using hp

/-- Apart from the user level, the store mutations of `checkProducer` are the
producer default and the feed and version marker files. -/
theorem producerDefs_not_level (env : Env) (defs : DefsMap) (K : Str)
    (h4 : K ≠ "STATUS_USER_LEVEL".toList) :
    producerDefs env defs K =
      (readDefFromFirstLine env.fs (env.defspath ++ "p44version".toList)
        "FIRMWARE_VERSION".toList
        (readDefFromFirstLine env.fs (env.defspath ++ "p44feed".toList) "FIRMWARE_FEED".toList
          (setDefDefault defs "PRODUCER".toList "unknown".toList).2).2).2 K := by
  unfold producerDefs
  generalize (readDefFromFirstLine env.fs (env.defspath ++ "p44version".toList)
      "FIRMWARE_VERSION".toList
      (readDefFromFirstLine env.fs (env.defspath ++ "p44feed".toList) "FIRMWARE_FEED".toList
        (setDefDefault defs "PRODUCER".toList "unknown".toList).2).2).2 = d
  simp only [ite_apply]
  split_ifs
  · cases getDef d "PRODUCT_DEFAULT_USER_LEVEL".toList <;>
      simp only [assign_other _ _ _ _ h4]
  · cases getDef d "PRODUCT_DEFAULT_USER_LEVEL".toList <;>
      simp only [assign_other _ _ _ _ h4]
  · rw [readDefFromFirstLine_other _ _ _ _ _ h4]
  · rw [readDefFromFirstLine_other _ _ _ _ _ h4]

theorem producerDefs_apply (env : Env) (defs : DefsMap) (K : Str)
    (h2 : K ≠ "FIRMWARE_FEED".toList)
    (h3 : K ≠ "FIRMWARE_VERSION".toList) (h4 : K ≠ "STATUS_USER_LEVEL".toList) :
    producerDefs env defs K = (setDefDefault defs "PRODUCER".toList "unknown".toList).2 K := by
  rw [producerDefs_not_level env defs K h4, readDefFromFirstLine_other _ _ _ _ _ h3,
    readDefFromFirstLine_other _ _ _ _ _ h2]

theorem producerDefs_other (env : Env) (defs : DefsMap) (K : Str)
    (h1 : K ≠ "PRODUCER".toList) (h2 : K ≠ "FIRMWARE_FEED".toList)
    (h3 : K ≠ "FIRMWARE_VERSION".toList) (h4 : K ≠ "STATUS_USER_LEVEL".toList) :
    producerDefs env defs K = defs K := by
  rw [producerDefs_apply env defs K h2 h3 h4, setDefDefault_apply, if_neg h1]

/-- The producer after the store mutations of `checkProducer`: the one the
store had, or else the literal `unknown`. -/
theorem producerDefs_producer (env : Env) (defs : DefsMap) :
    producerDefs env defs "PRODUCER".toList =
      some ((defs "PRODUCER".toList).getD "unknown".toList) := by
  rw [producerDefs_apply env defs _ (by decide) (by decide) (by decide), setDefDefault_apply,
    if_pos rfl]
  cases defs "PRODUCER".toList <;> rfl

/-- The store of `checkProducer` when it comes to the user level: after the
producer default and the feed and version marker files. -/
theorem producerDefs_level (env : Env) (defs d : DefsMap)
    (hd : d = (readDefFromFirstLine env.fs (env.defspath ++ "p44version".toList)
      "FIRMWARE_VERSION".toList
      (readDefFromFirstLine env.fs (env.defspath ++ "p44feed".toList) "FIRMWARE_FEED".toList
        (setDefDefault defs "PRODUCER".toList "unknown".toList).2).2).2) :
    producerDefs env defs "STATUS_USER_LEVEL".toList =
      some (resolvedUserLevel env.fs (d "PRODUCT_DEFAULT_USER_LEVEL".toList)
        (d "FIRMWARE_FEED".toList)) := by
  have hflash : FLASH_PATH ++ "p44userlevel".toList = "/flash/p44userlevel".toList := by decide
  unfold producerDefs
  rw [← hd, hflash]
  unfold resolvedUserLevel readDefFromFirstLine
  cases string_fgetfirstline env.fs "/tmp/p44userlevel".toList with
  | some level => simp [DefsMap.assign]
  | none =>
    cases string_fgetfirstline env.fs "/flash/p44userlevel".toList with
    | some level => simp [DefsMap.assign]
    | none =>
      simp only [Bool.not_false, if_true, getDef, getDefStr]
      cases d "PRODUCT_DEFAULT_USER_LEVEL".toList with
      | some level => exact assign_same _ _ _
      | none =>
        refine (assign_same _ _ _).trans (congrArg some ?_)
        by_cases hfeed : d "FIRMWARE_FEED".toList = some "prod".toList
        · rw [if_pos hfeed, if_pos (by rw [hfeed]; rfl)]
        · rw [if_neg hfeed, if_neg]
          intro h
          apply hfeed
          cases hx : d "FIRMWARE_FEED".toList with
          | none =>
            rw [hx] at h
            exact absurd h (by decide)
          | some feed =>
            rw [hx] at h
            exact congrArg some h

/-- The feed that `checkProducer` looks at: the first line of the feed marker
file, or else the feed of the store. -/
theorem producerDefs_feed (env : Env) (defs : DefsMap) :
    (readDefFromFirstLine env.fs (env.defspath ++ "p44version".toList)
      "FIRMWARE_VERSION".toList
      (readDefFromFirstLine env.fs (env.defspath ++ "p44feed".toList) "FIRMWARE_FEED".toList
        (setDefDefault defs "PRODUCER".toList "unknown".toList).2).2).2 "FIRMWARE_FEED".toList =
      (string_fgetfirstline env.fs (env.defspath ++ "p44feed".toList)).or
        (defs "FIRMWARE_FEED".toList) := by
  rw [readDefFromFirstLine_other _ _ _ _ _ (by decide), readDefFromFirstLine_apply, if_pos rfl,
    setDefDefault_apply, if_neg (by decide)]

theorem assign_isSome (defs : DefsMap) (key value K : Str) (h : (defs K).isSome) :
    (defs.assign key value K).isSome := by
  unfold DefsMap.assign
  split_ifs
  · rfl
  · exact h

theorem setDefDefault_isSome (defs : DefsMap) (key value K : Str) (h : (defs K).isSome) :
    ((setDefDefault defs key value).2 K).isSome := by
  unfold setDefDefault
  split_ifs
  · exact h
  · exact assign_isSome _ _ _ _ h

/-- The variant stage removes no key. -/
theorem variantDefs_isSome (env : Env) (defs : DefsMap) (K : Str) (h : (defs K).isSome) :
    (variantDefs env defs K).isSome := by
  unfold variantDefs setDerivedDefs
  refine setDefDefault_isSome _ _ _ _ (setDefDefault_isSome _ _ _ _ ?_)
  refine assign_isSome _ _ _ _ (assign_isSome _ _ _ _ (assign_isSome _ _ _ _
    (assign_isSome _ _ _ _ (assign_isSome _ _ _ _ (readDefsFrom_isSome _ _ _ _ ?_)))))
  cases getDef defs "PRODUCT_VARIANT".toList with
  | none => exact h
  | some d => exact readDefsFrom_isSome _ _ _ _ h

theorem producerDefs_keeps (env : Env) (defs : DefsMap) (K : Str) (hK : K ∉ assignedKeys) :
    producerDefs env defs K = defs K :=
  producerDefs_other env defs K
    (ne_of_not_mem_assignedKeys hK (by decide)) (ne_of_not_mem_assignedKeys hK (by decide))
    (ne_of_not_mem_assignedKeys hK (by decide)) (ne_of_not_mem_assignedKeys hK (by decide))

theorem productDefs_keeps (env : Env) (defs : DefsMap) (K : Str)
    (hfiles : ∀ path, productStageFile env path = true → fileDefinitionsOf env.fs path K = []) :
    productDefs env defs K = defs K := by
  have hprod : ∀ (tail : Str) (d : DefsMap),
      (readDefsFrom env.fs (env.defspath ++ "p44product".toList ++ tail) d).2 K = d K :=
    fun tail d => readDefsFrom_of_undefined _ _ _ _ (hfiles _ (productStageFile_product env tail))
  have h1 : ∀ d : DefsMap,
      (readDefsFrom env.fs (env.defspath ++ "p44product.defs".toList) d).2 K = d K := by
    intro d
    have := hprod ".defs".toList d
    simpa [List.append_assoc] using this
  have h2 : ∀ (x : Str) (d : DefsMap),
      (readDefsFrom env.fs
        (env.defspath ++ "p44product-default_".toList ++ x ++ ".defs".toList) d).2 K = d K := by
    intro x d
    have := hprod ("-default_".toList ++ x ++ ".defs".toList) d
    simpa [List.append_assoc] using this
  have h3 : ∀ d : DefsMap,
      (readDefsFrom env.fs (env.defspath ++ "p44product-default.defs".toList) d).2 K = d K := by
    intro d
    have := hprod "-default.defs".toList d
    simpa [List.append_assoc] using this
  have h4 : ∀ (x : Str) (d : DefsMap),
      (readDefsFrom env.fs
        (env.defspath ++ "p44product-".toList ++ x ++ ".defs".toList) d).2 K = d K := by
    intro x d
    have := hprod ("-".toList ++ x ++ ".defs".toList) d
    simpa [List.append_assoc] using this
  have s2 : ∀ d : DefsMap,
      (if (getDef d "PRODUCT_IDENTIFIER".toList).isNone then
        match getDef d "PLATFORM_IDENTIFIER".toList with
        | some x =>
          (readDefsFrom env.fs
            (env.defspath ++ "p44product-default_".toList ++ x ++ ".defs".toList) d).2
        | none => d
      else d) K = d K := by
    intro d
    split_ifs
    · cases getDef d "PLATFORM_IDENTIFIER".toList with
      | none => rfl
      | some x => exact h2 x d
    · rfl
  have s3 : ∀ d : DefsMap,
      (if (getDef d "PRODUCT_IDENTIFIER".toList).isNone then
        (readDefsFrom env.fs (env.defspath ++ "p44product-default.defs".toList) d).2
      else d) K = d K := by
    intro d
    split_ifs
    · exact h3 d
    · rfl
  have s4 : ∀ d : DefsMap,
      (match getDef d "PRODUCT_IDENTIFIER".toList with
        | some x =>
          (readDefsFrom env.fs (env.defspath ++ "p44product-".toList ++ x ++ ".defs".toList) d).2
        | none => d) K = d K := by
    intro d
    cases getDef d "PRODUCT_IDENTIFIER".toList with
    | none => rfl
    | some x => exact h4 x d
  unfold productDefs
  exact (s4 _).trans ((s3 _).trans ((s2 _).trans (h1 defs)))

theorem platformDefs_keeps (env : Env) (defs : DefsMap) (K : Str) (hK : K ∉ assignedKeys)
    (hfiles : ∀ path, platformStageFile env path = true → fileDefinitionsOf env.fs path K = []) :
    platformDefs env defs K = defs K := by
  unfold platformDefs
  rw [readDefFromFirstLine_other _ _ _ _ _ (ne_of_not_mem_assignedKeys hK (by decide))]
  cases getDef defs "PLATFORM_IDENTIFIER".toList with
  | none => rfl
  | some d =>
    refine readDefsFrom_of_undefined _ _ _ _ (hfiles _ ?_)
    simp [platformStageFile, List.append_assoc]

/-! ### How far each function can still be from the callback -/

theorem checkProducer_rank (env : Env) (defs : DefsMap) :
    (checkProducer env defs).rank ≤ 1 := by
  unfold checkProducer
  dsimp only
  cases getDef (producerDefs env defs) "PLATFORM_VARIANT_GETTER".toList <;>
    simp [processVariantSpecifics, Outcome.rank, Getter.rank]

theorem processProductSpecifics_rank (env : Env) (defs : DefsMap) :
    (processProductSpecifics env defs).rank ≤ 2 := by
  unfold processProductSpecifics
  dsimp only
  cases getDef (productDefs env defs) "PRODUCER_GETTER".toList with
  | none => exact Nat.le_succ_of_le (checkProducer_rank env _)
  | some d => simp [Outcome.rank, Getter.rank]

theorem processPlatformSpecifics_rank (env : Env) (defs : DefsMap) :
    (processPlatformSpecifics env defs).rank ≤ 3 := by
  unfold processPlatformSpecifics
  dsimp only
  cases getDef (platformDefs env defs) "PLATFORM_PRODUCT_IDENTIFIER_GETTER".toList with
  | none => exact Nat.le_succ_of_le (processProductSpecifics_rank env _)
  | some d => simp [Outcome.rank, Getter.rank]

theorem queryDone_rank (env : Env) (cont : Getter) (defs : DefsMap) (aAnswer : Str) :
    (queryDone env cont defs aAnswer).rank + 1 ≤ cont.rank := by
  cases cont with
  | platformid =>
    exact Nat.succ_le_succ (processPlatformSpecifics_rank env _)
  | productid =>
    exact Nat.succ_le_succ (processProductSpecifics_rank env _)
  | producer =>
    exact Nat.succ_le_succ (checkProducer_rank env _)
  | variant =>
    simp [queryDone, variantQueryDone, processVariantSpecifics, Outcome.rank, Getter.rank]

/-- With fuel for the continuations still possible, the main loop reaches the
completion callback. -/
theorem mainLoop_called (env : Env) (n : Nat) (o : Outcome) (h : o.rank ≤ n) :
    ∃ defs, mainLoop env n o = .called defs := by
  induction n generalizing o with
  | zero =>
    cases o with
    | called d => exact ⟨d, rfl⟩
    | forked cmd cont d => cases cont <;> simp [Outcome.rank, Getter.rank] at h
  | succ n ih =>
    cases o with
    | called d => exact ⟨d, rfl⟩
    | forked cmd cont d =>
      have hr := queryDone_rank env cont d (env.captured cmd)
      simp only [Outcome.rank] at h
      exact ih _ (by omega)

/-! ### Keys that the later stages leave alone -/

theorem checkProducer_keeps (env : Env) (defs : DefsMap) (K : Str) (hK : K ∉ assignedKeys)
    (hfiles : ∀ path, productStageFile env path = true → fileDefinitionsOf env.fs path K = []) :
    (checkProducer env defs).defs K = defs K := by
  unfold checkProducer
  dsimp only
  cases getDef (producerDefs env defs) "PLATFORM_VARIANT_GETTER".toList with
  | none =>
    simp only [processVariantSpecifics, Outcome.defs]
    rw [variantDefs_keeps env _ K hK hfiles, producerDefs_keeps env defs K hK]
  | some d =>
    simp only [Outcome.defs]
    exact producerDefs_keeps env defs K hK

theorem processProductSpecifics_keeps (env : Env) (defs : DefsMap) (K : Str)
    (hK : K ∉ assignedKeys)
    (hfiles : ∀ path, productStageFile env path = true → fileDefinitionsOf env.fs path K = []) :
    (processProductSpecifics env defs).defs K = defs K := by
  unfold processProductSpecifics
  dsimp only
  cases getDef (productDefs env defs) "PRODUCER_GETTER".toList with
  | none =>
    rw [checkProducer_keeps env _ K hK hfiles,
      readDefFromFirstLine_other _ _ _ _ _ (ne_of_not_mem_assignedKeys hK (by decide)),
      productDefs_keeps env defs K hfiles]
  | some d =>
    simp only [Outcome.defs]
    exact productDefs_keeps env defs K hfiles

theorem processPlatformSpecifics_keeps (env : Env) (defs : DefsMap) (K : Str)
    (hK : K ∉ assignedKeys)
    (hplatform : ∀ path, platformStageFile env path = true →
      fileDefinitionsOf env.fs path K = [])
    (hfiles : ∀ path, productStageFile env path = true → fileDefinitionsOf env.fs path K = []) :
    (processPlatformSpecifics env defs).defs K = defs K := by
  unfold processPlatformSpecifics
  dsimp only
  cases getDef (platformDefs env defs) "PLATFORM_PRODUCT_IDENTIFIER_GETTER".toList with
  | none =>
    rw [processProductSpecifics_keeps env _ K hK hfiles,
      platformDefs_keeps env defs K hK hplatform]
  | some d =>
    simp only [Outcome.defs]
    exact platformDefs_keeps env defs K hK hplatform

theorem queryDone_keeps (env : Env) (cont : Getter) (defs : DefsMap) (aAnswer K : Str)
    (hcont : cont ≠ .platformid) (hK : K ∉ assignedKeys)
    (hfiles : ∀ path, productStageFile env path = true → fileDefinitionsOf env.fs path K = []) :
    (queryDone env cont defs aAnswer).defs K = defs K := by
  cases cont with
  | platformid => exact absurd rfl hcont
  | productid =>
    simp only [queryDone, productidQueryDone]
    rw [processProductSpecifics_keeps env _ K hK hfiles]
    split_ifs
    · exact assign_other _ _ _ _ (ne_of_not_mem_assignedKeys hK (by decide))
    · rfl
  | producer =>
    simp only [queryDone, producerQueryDone]
    rw [checkProducer_keeps env _ K hK hfiles]
    split_ifs
    · exact assign_other _ _ _ _ (ne_of_not_mem_assignedKeys hK (by decide))
    · rfl
  | variant =>
    simp only [queryDone, variantQueryDone, processVariantSpecifics, Outcome.defs]
    rw [variantDefs_keeps env _ K hK hfiles]
    split_ifs <;> exact assign_other _ _ _ _ (ne_of_not_mem_assignedKeys hK (by decide))

/-- From an outcome past the platform identifier query, the main loop reaches
the completion callback with a store that still has the value of every key
which no later stage assigns and no later file defines. -/
theorem mainLoop_keeps (env : Env) (K : Str) (hK : K ∉ assignedKeys)
    (hfiles : ∀ path, productStageFile env path = true → fileDefinitionsOf env.fs path K = [])
    (n : Nat) (o : Outcome) (h : o.rank ≤ n) (h3 : o.rank ≤ 3) :
    ∃ defs, mainLoop env n o = .called defs ∧ defs K = o.defs K := by
  induction n generalizing o with
  | zero =>
    cases o with
    | called d => exact ⟨d, rfl, rfl⟩
    | forked cmd cont d => cases cont <;> simp [Outcome.rank, Getter.rank] at h
  | succ n ih =>
    cases o with
    | called d => exact ⟨d, rfl, rfl⟩
    | forked cmd cont d =>
      have hr := queryDone_rank env cont d (env.captured cmd)
      simp only [Outcome.rank] at h h3
      have hcont : cont ≠ .platformid := by
        intro hc
        subst hc
        simp [Getter.rank] at h3
      obtain ⟨d', hd', hk'⟩ := ih (queryDone env cont d (env.captured cmd)) (by omega) (by omega)
      refine ⟨d', hd', ?_⟩
      rw [hk', queryDone_keeps env cont d _ K hcont hK hfiles]
      rfl

/-! ## The store contract (C1 to C5) -/

/-- C1: `setDefDefault(key, value)` returns false and leaves the store unchanged
when the key is already in the store; otherwise it returns true, the store
afterwards maps the key to the value, and every other key keeps its value. -/
theorem setDefDefault_contract (defs : DefsMap) (key value : Str) :
    ((defs key).isSome → setDefDefault defs key value = (false, defs)) ∧
    (defs key = none →
      (setDefDefault defs key value).1 = true ∧
      (setDefDefault defs key value).2 key = some value ∧
      ∀ k, k ≠ key → (setDefDefault defs key value).2 k = defs k) := by
  constructor
  · intro h
    simp [setDefDefault, h]
  · intro h
    refine ⟨by simp [setDefDefault, h], by simp [setDefDefault, h, DefsMap.assign], ?_⟩
    intro k hk
    simp [setDefDefault, h, DefsMap.assign, hk]

theorem setDefDefault_contract_witness :
    setDefDefault (DefsMap.empty.assign "A".toList "1".toList) "A".toList "2".toList
      = (false, DefsMap.empty.assign "A".toList "1".toList) ∧
    (setDefDefault DefsMap.empty "A".toList "2".toList).1 = true ∧
    (setDefDefault DefsMap.empty "A".toList "2".toList).2 "A".toList = some "2".toList :=
  ⟨(setDefDefault_contract _ _ _).1 (by decide),
   ((setDefDefault_contract DefsMap.empty "A".toList "2".toList).2 rfl).1,
   ((setDefDefault_contract DefsMap.empty "A".toList "2".toList).2 rfl).2.1⟩

/-- C2, as stated, fails: the key `A` is set to `1` by `setDefDefault` (which
returns true), the file `/etc/a.defs` defines `A`, and merging the file with
`readDefsFrom` changes the value of `A` to `3`. -/
theorem readDefsFrom_overwrites_default :
    (setDefDefault DefsMap.empty "A".toList "1".toList).1 = true ∧
    (setDefDefault DefsMap.empty "A".toList "1".toList).2 "A".toList = some "1".toList ∧
    fileDefinitionsOf exampleFiles "/etc/a.defs".toList "A".toList ≠ [] ∧
    (readDefsFrom exampleFiles "/etc/a.defs".toList
      (setDefDefault DefsMap.empty "A".toList "1".toList).2).2 "A".toList = some "3".toList := by
  decide

/-- C2, amended: when a key was set via `setDefDefault` and a file is afterwards
merged with `readDefsFrom`, the merge does not change the value of the key
provided the file has no accepted line that defines the key; when the file has
such lines the key takes the value of the last of them. -/
theorem readDefsFrom_keeps_default (fs : FileSystem) (aFileName : Str) (defs : DefsMap)
    (key value : Str) (hset : (setDefDefault defs key value).1 = true) :
    (fileDefinitionsOf fs aFileName key = [] →
      (readDefsFrom fs aFileName (setDefDefault defs key value).2).2 key = some value) ∧
    (∀ w, (fileDefinitionsOf fs aFileName key).getLast? = some w →
      (readDefsFrom fs aFileName (setDefDefault defs key value).2).2 key = some w) := by
  have hnone : defs key = none := by
    cases h : defs key with
    | none => rfl
    | some v => simp [setDefDefault, h] at hset
  constructor
  · intro h
    rw [readDefsFrom_of_undefined _ _ _ _ h]
    simp [setDefDefault, hnone, DefsMap.assign]
  · intro w h
    rw [readDefsFrom_apply, h]
    simp

theorem readDefsFrom_keeps_default_witness :
    (readDefsFrom exampleFiles "/etc/b.defs".toList
      (setDefDefault DefsMap.empty "A".toList "1".toList).2).2 "A".toList = some "1".toList ∧
    (readDefsFrom exampleFiles "/etc/a.defs".toList
      (setDefDefault DefsMap.empty "A".toList "1".toList).2).2 "A".toList = some "3".toList :=
  ⟨(readDefsFrom_keeps_default exampleFiles "/etc/b.defs".toList DefsMap.empty "A".toList
      "1".toList (by decide)).1 (by decide),
   (readDefsFrom_keeps_default exampleFiles "/etc/a.defs".toList DefsMap.empty "A".toList
      "1".toList (by decide)).2 "3".toList (by decide)⟩

/-- C3: when a defs file has an accepted `key=value` line for key `k`, and no
accepted line after it defines `k` (it is the last such line), then after
`readDefsFrom` the store maps `k` to the value stored for that line, whatever
the store held before; this is the last of the values the file gives to `k`. -/
theorem readDefsFrom_last_write_wins (fs : FileSystem) (aFileName : Str) (aDefs : DefsMap)
    (pre post : List Str) (line k value : Str)
    (hfile : fs aFileName = some (pre ++ line :: post))
    (hline : acceptedLine line = some (k, value))
    (hpost : ∀ l ∈ post, ∀ kv, acceptedLine l = some kv → kv.1 ≠ k) :
    (readDefsFrom fs aFileName aDefs).2 k = some (storedValue value) ∧
    (fileDefinitionsOf fs aFileName k).getLast? = some (storedValue value) := by
  have hlast : (fileDefinitionsOf fs aFileName k).getLast? = some (storedValue value) := by
    unfold fileDefinitionsOf
    rw [hfile]
    simp only
    rw [definitionsOf_append, definitionsOf_cons, hline, definitionsOf_eq_nil post k hpost]
    simp
  refine ⟨?_, hlast⟩
  rw [readDefsFrom_apply, hlast]
  rfl

theorem readDefsFrom_last_write_wins_witness :
    (readDefsFrom exampleFiles "/etc/a.defs".toList
      (DefsMap.empty.assign "A".toList "0".toList)).2 "A".toList = some (storedValue "3".toList) :=
  (readDefsFrom_last_write_wins exampleFiles "/etc/a.defs".toList _
    ["# a comment".toList, "A=2".toList, "B = \"x\\\"y\" tail".toList] [] "A=3".toList
    "A".toList "3".toList (by decide) (by decide) (by simp)).1

theorem dequoteLoop_unescaped (quote c : Char) (more dequoted : Str) :
    dequoteLoop quote false (c :: more) dequoted =
      if c = quote then dequoted
      else if c = backslash then dequoteLoop quote true more dequoted
      else dequoteLoop quote false more (dequoted ++ [c]) := by
  rw [dequoteLoop]
  simp

theorem dequoteLoop_escaped (quote c : Char) (more dequoted : Str) :
    dequoteLoop quote true (c :: more) dequoted =
      dequoteLoop quote false more (dequoted ++ [c]) := by
  rw [dequoteLoop]
  simp

theorem dequoteLoop_writtenText (quote : Char) (items : List QItem) (rest dequoted : Str)
    (hquote : quote ≠ backslash)
    (hitems : ∀ item ∈ items, item.wellFormed quote = true) :
    dequoteLoop quote false (writtenText items ++ quote :: rest) dequoted
      = dequoted ++ items.map QItem.meant := by
  induction items generalizing dequoted with
  | nil =>
    rw [writtenText, List.nil_append, dequoteLoop_unescaped]
    simp
  | cons item items ih =>
    have hrest : ∀ it ∈ items, it.wellFormed quote = true :=
      fun it hit => hitems it (List.mem_cons_of_mem _ hit)
    have hitem := hitems item (List.mem_cons_self _ _)
    cases item with
    | plain c =>
      simp only [QItem.wellFormed, Bool.and_eq_true, bne_iff_ne, ne_eq] at hitem
      rw [writtenText, QItem.written, List.append_assoc, List.singleton_append,
        dequoteLoop_unescaped, if_neg hitem.1, if_neg hitem.2, ih _ hrest]
      simp [QItem.meant]
    | escaped c =>
      rw [writtenText, QItem.written, List.append_assoc, List.cons_append, List.cons_append,
        List.nil_append, dequoteLoop_unescaped, if_neg (Ne.symm hquote), if_pos rfl,
        dequoteLoop_escaped, ih _ hrest]
      simp [QItem.meant]

/-- C4: for a value that begins with a single or double quote, `readDefsFrom`
stores the text between the opening quote and the first later unescaped
occurrence of the same quote, with each escaping backslash removed and the
character after it taken literally; what follows the closing quote is ignored,
and the other kind of quote is an ordinary character. Here the value of the last
accepted line for `k` is the quote, the written units, the quote again and any
rest; the store then maps `k` to the characters the units stand for. -/
theorem readDefsFrom_dequotes (fs : FileSystem) (aFileName : Str) (aDefs : DefsMap)
    (pre post : List Str) (line k : Str) (quote : Char) (items : List QItem) (rest : Str)
    (hquote : quote = dquote ∨ quote = squote)
    (hitems : ∀ item ∈ items, item.wellFormed quote = true)
    (hfile : fs aFileName = some (pre ++ line :: post))
    (hline : acceptedLine line = some (k, quote :: (writtenText items ++ quote :: rest)))
    (hpost : ∀ l ∈ post, ∀ kv, acceptedLine l = some kv → kv.1 ≠ k) :
    (readDefsFrom fs aFileName aDefs).2 k = some (items.map QItem.meant) := by
  rw [readDefsFrom_last_line fs aFileName aDefs pre post line k _ hfile hline hpost]
  have hne : quote ≠ backslash := by
    rcases hquote with h | h <;> subst h <;> decide
  rw [storedValue]
  rw [if_pos hquote, dequoteLoop_writtenText quote items rest [] hne hitems]
  simp

theorem readDefsFrom_dequotes_witness :
    (readDefsFrom exampleFiles "/etc/a.defs".toList DefsMap.empty).2 "B".toList
      = some "x\"y".toList :=
  readDefsFrom_dequotes exampleFiles "/etc/a.defs".toList DefsMap.empty
    ["# a comment".toList, "A=2".toList] ["A=3".toList] "B = \"x\\\"y\" tail".toList
    "B".toList dquote [.plain 'x', .escaped dquote, .plain 'y'] " tail".toList
    (Or.inl rfl) (by decide) (by decide) (by decide) (by decide)

/-- C5: file merges never remove keys. For every store, every file system and
every path (a missing file included): after `readDefsFrom` and after
`readDefFromFirstLine` a key that was in the store is still in it; a key for
which the defs file has no accepted line keeps its value under `readDefsFrom`;
a key other than the one the marker file is read into keeps its value under
`readDefFromFirstLine`; and a file that cannot be opened changes nothing. -/
theorem file_merges_never_remove_keys (fs : FileSystem) (aFileName key : Str) (defs : DefsMap)
    (k : Str) :
    ((defs k).isSome →
      ((readDefsFrom fs aFileName defs).2 k).isSome ∧
      ((readDefFromFirstLine fs aFileName key defs).2 k).isSome) ∧
    (fileDefinitionsOf fs aFileName k = [] → (readDefsFrom fs aFileName defs).2 k = defs k) ∧
    (k ≠ key → (readDefFromFirstLine fs aFileName key defs).2 k = defs k) ∧
    (fs aFileName = none →
      readDefsFrom fs aFileName defs = (false, defs) ∧
      readDefFromFirstLine fs aFileName key defs = (false, defs)) := by
  refine ⟨fun h => ⟨readDefsFrom_isSome _ _ _ _ h, readDefFromFirstLine_isSome _ _ _ _ _ h⟩,
    readDefsFrom_of_undefined _ _ _ _, readDefFromFirstLine_other _ _ _ _ _, ?_⟩
  intro h
  simp [readDefsFrom, readDefFromFirstLine, string_fgetfirstline, h]

theorem file_merges_never_remove_keys_witness :
    (((readDefsFrom exampleFiles "/etc/a.defs".toList
        (DefsMap.empty.assign "A".toList "0".toList)).2 "A".toList).isSome ∧
      ((readDefFromFirstLine exampleFiles "/etc/marker".toList "A".toList
        (DefsMap.empty.assign "A".toList "0".toList)).2 "A".toList).isSome) ∧
    (readDefsFrom exampleFiles "/etc/b.defs".toList
        (DefsMap.empty.assign "A".toList "0".toList)).2 "A".toList = some "0".toList ∧
    (readDefFromFirstLine exampleFiles "/etc/marker".toList "M".toList
        (DefsMap.empty.assign "A".toList "0".toList)).2 "A".toList = some "0".toList ∧
    readDefsFrom exampleFiles "/etc/none".toList DefsMap.empty = (false, DefsMap.empty) :=
  ⟨⟨((file_merges_never_remove_keys exampleFiles "/etc/a.defs".toList "A".toList
      (DefsMap.empty.assign "A".toList "0".toList) "A".toList).1 (by decide)).1,
   ((file_merges_never_remove_keys exampleFiles "/etc/marker".toList "A".toList
      (DefsMap.empty.assign "A".toList "0".toList) "A".toList).1 (by decide)).2⟩,
   (file_merges_never_remove_keys exampleFiles "/etc/b.defs".toList "A".toList
      (DefsMap.empty.assign "A".toList "0".toList) "A".toList).2.1 (by decide),
   (file_merges_never_remove_keys exampleFiles "/etc/marker".toList "M".toList
      (DefsMap.empty.assign "A".toList "0".toList) "A".toList).2.2.1 (by decide),
   ((file_merges_never_remove_keys exampleFiles "/etc/none".toList "M".toList
      DefsMap.empty "A".toList).2.2.2 (by decide)).1⟩

/-! ## The getters (C6 to C10) -/

/-- C6, as stated, fails: the platform identifier getter prints `acme-box`
with white space around it, yet the store handed to the completion callback has
the platform identifier `custom`, which the custom overrides file defines. -/
theorem platform_identifier_overridden_by_custom :
    (identifyDynamically overrideEnv).pending = some ("getid".toList, Getter.platformid) ∧
    trimWhiteSpace (overrideEnv.captured "getid".toList) true true = "acme-box".toList ∧
    (identify overrideEnv).resultAt "PLATFORM_IDENTIFIER".toList = some "custom".toList := by
  decide

/-- C7, as stated, fails in its last part: the variant getter of this device
is invoked and prints nothing, so that `variantQueryDone` sets the variant to
`0`, yet the product variant in the store handed to the completion callback is
`7`, which the custom overrides file defines. -/
theorem product_variant_overridden_by_custom :
    (mainLoop overrideEnv 1 (identifyDynamically overrideEnv)).pending
      = some ("getvariant".toList, Getter.variant) ∧
    trimWhiteSpace (overrideEnv.captured "getvariant".toList) true true = [] ∧
    (identify overrideEnv).resultAt "PRODUCT_VARIANT".toList = some "7".toList := by
  decide

/-- C7, amended: when the trimmed output of a getter is empty, the continuation
of the platform identifier, product identifier and producer getter goes on to
its next stage with the store exactly as it was (so the key of the getter keeps
its value, and stays absent when it was absent), while the continuation of the
variant getter goes on to the variant stage with `PRODUCT_VARIANT` set to
exactly `0`; the store handed to the completion callback then maps
`PRODUCT_VARIANT` to `0` provided neither the variant specific file for variant
`0` nor the custom overrides file defines `PRODUCT_VARIANT`. -/
theorem empty_getter_output (env : Env) (defs : DefsMap) (aAnswer : Str)
    (hempty : trimWhiteSpace aAnswer true true = []) :
    platformidQueryDone env defs aAnswer = processPlatformSpecifics env defs ∧
    productidQueryDone env defs aAnswer = processProductSpecifics env defs ∧
    producerQueryDone env defs aAnswer = checkProducer env defs ∧
    variantQueryDone env defs aAnswer =
      processVariantSpecifics env (defs.assign "PRODUCT_VARIANT".toList "0".toList) ∧
    (fileDefinitionsOf env.fs
        (env.defspath ++ "p44variant-".toList ++ getDefStr defs "PRODUCT_IDENTIFIER".toList
          ++ "-".toList ++ "0".toList ++ ".defs".toList) "PRODUCT_VARIANT".toList = [] →
      fileDefinitionsOf env.fs (FLASH_PATH ++ "/p44custom.defs".toList)
        "PRODUCT_VARIANT".toList = [] →
      ∃ final, variantQueryDone env defs aAnswer = .called final ∧
        final "PRODUCT_VARIANT".toList = some "0".toList) := by
  have hv : variantQueryDone env defs aAnswer =
      processVariantSpecifics env (defs.assign "PRODUCT_VARIANT".toList "0".toList) := by
    simp [variantQueryDone, hempty]
  refine ⟨by simp [platformidQueryDone, hempty], by simp [productidQueryDone, hempty],
    by simp [producerQueryDone, hempty], hv, ?_⟩
  intro hvariant hcustom
  refine ⟨variantDefs env (defs.assign "PRODUCT_VARIANT".toList "0".toList), ?_, ?_⟩
  · rw [hv]
    rfl
  · rw [variantDefs_other env _ _ (by decide) (by decide) (by decide) (by decide) (by decide)
      (by decide) (by decide) ?_ hcustom]
    · exact assign_same _ _ _
    · intro d hd
      have hd0 : d = "0".toList := by
        have : getDef (defs.assign "PRODUCT_VARIANT".toList "0".toList)
            "PRODUCT_VARIANT".toList = some "0".toList := assign_same _ _ _
        rw [this] at hd
        exact (Option.some.inj hd).symm
      have hid : getDefStr (defs.assign "PRODUCT_VARIANT".toList "0".toList)
          "PRODUCT_IDENTIFIER".toList = getDefStr defs "PRODUCT_IDENTIFIER".toList := by
        unfold getDefStr
        rw [assign_other _ _ _ _ (by decide)]
      rw [hd0, hid]
      exact hvariant

theorem empty_getter_output_witness :
    producerQueryDone acmeEnv DefsMap.empty " \n".toList = checkProducer acmeEnv DefsMap.empty ∧
    ∃ final, variantQueryDone acmeEnv DefsMap.empty " \n".toList = .called final ∧
      final "PRODUCT_VARIANT".toList = some "0".toList :=
  ⟨(empty_getter_output acmeEnv DefsMap.empty " \n".toList (by decide)).2.2.1,
   (empty_getter_output acmeEnv DefsMap.empty " \n".toList (by decide)).2.2.2.2
     (by decide) (by decide)⟩

/-- C8: producer resolution. If the store after the product files names a
`PRODUCER_GETTER`, `processProductSpecifics` invokes it, with the store as the
product files left it (the marker file `p44producer` is not read), and a
non-empty trimmed output becomes `PRODUCER`. If no getter is named, the first
line of the marker file `p44producer`, when there is one, becomes `PRODUCER`.
In every case `PRODUCER` is defined once `checkProducer` has run: it is the
value the store had on entry, and the literal `unknown` when the store had
none. -/
theorem producer_resolution (env : Env) (defs : DefsMap) :
    (∀ cmd, productDefs env defs "PRODUCER_GETTER".toList = some cmd →
      processProductSpecifics env defs = .forked cmd .producer (productDefs env defs) ∧
      (trimWhiteSpace (env.captured cmd) true true ≠ [] →
        producerQueryDone env (productDefs env defs) (env.captured cmd) =
          checkProducer env ((productDefs env defs).assign "PRODUCER".toList
            (trimWhiteSpace (env.captured cmd) true true)) ∧
        producerDefs env ((productDefs env defs).assign "PRODUCER".toList
            (trimWhiteSpace (env.captured cmd) true true)) "PRODUCER".toList =
          some (trimWhiteSpace (env.captured cmd) true true))) ∧
    (productDefs env defs "PRODUCER_GETTER".toList = none →
      processProductSpecifics env defs =
        checkProducer env (readDefFromFirstLine env.fs (env.defspath ++ "p44producer".toList)
          "PRODUCER".toList (productDefs env defs)).2 ∧
      ∀ line, string_fgetfirstline env.fs (env.defspath ++ "p44producer".toList) = some line →
        producerDefs env (readDefFromFirstLine env.fs (env.defspath ++ "p44producer".toList)
          "PRODUCER".toList (productDefs env defs)).2 "PRODUCER".toList = some line) ∧
    (∀ d : DefsMap,
      (d "PRODUCER".toList = none →
        producerDefs env d "PRODUCER".toList = some "unknown".toList) ∧
      (∀ w, d "PRODUCER".toList = some w → producerDefs env d "PRODUCER".toList = some w) ∧
      ((checkProducer env d).defs "PRODUCER".toList).isSome) := by
  refine ⟨?_, ?_, ?_⟩
  · intro cmd hcmd
    constructor
    · unfold processProductSpecifics
      simp only [getDef, hcmd]
    · intro hv
      have hlen : (trimWhiteSpace (env.captured cmd) true true).length > 0 :=
        List.length_pos.mpr hv
      constructor
      · unfold producerQueryDone
        simp only [hlen, if_true]
      · rw [producerDefs_producer, assign_same]
        rfl
  · intro hnone
    constructor
    · unfold processProductSpecifics
      simp only [getDef, hnone]
    · intro line hline
      rw [producerDefs_producer, readDefFromFirstLine_apply, if_pos rfl, hline]
      rfl
  · intro d
    refine ⟨?_, ?_, ?_⟩
    · intro h
      rw [producerDefs_producer, h]
      rfl
    · intro w h
      rw [producerDefs_producer, h]
      rfl
    · have hp : (producerDefs env d "PRODUCER".toList).isSome := by
        rw [producerDefs_producer]
        rfl
      unfold checkProducer
      dsimp only
      cases getDef (producerDefs env d) "PLATFORM_VARIANT_GETTER".toList with
      | none => exact variantDefs_isSome env _ _ hp
      | some cmd => exact hp

theorem producer_resolution_witness :
    (processProductSpecifics producerEnv DefsMap.empty =
        .forked "getproducer".toList .producer (productDefs producerEnv DefsMap.empty) ∧
      producerDefs producerEnv ((productDefs producerEnv DefsMap.empty).assign "PRODUCER".toList
          (trimWhiteSpace (producerEnv.captured "getproducer".toList) true true))
        "PRODUCER".toList = some "plan44".toList) ∧
    producerDefs markerEnv (readDefFromFirstLine markerEnv.fs
        (markerEnv.defspath ++ "p44producer".toList) "PRODUCER".toList
        (productDefs markerEnv DefsMap.empty)).2 "PRODUCER".toList = some "markerco".toList ∧
    producerDefs acmeEnv DefsMap.empty "PRODUCER".toList = some "unknown".toList :=
  ⟨⟨((producer_resolution producerEnv DefsMap.empty).1 "getproducer".toList (by decide)).1,
    (((producer_resolution producerEnv DefsMap.empty).1 "getproducer".toList (by decide)).2
      (by decide)).2⟩,
   ((producer_resolution markerEnv DefsMap.empty).2.1 (by decide)).2 "markerco".toList
      (by decide),
   ((producer_resolution acmeEnv DefsMap.empty).2.2 DefsMap.empty).1 (by decide)⟩

/-- C9: user level resolution. The store mutations of `checkProducer` set
`STATUS_USER_LEVEL` to the first line of `/tmp/p44userlevel`, else to the first
line of `/flash/p44userlevel`, else to the value of `PRODUCT_DEFAULT_USER_LEVEL`,
else to `0` when `FIRMWARE_FEED` equals `prod` and to `1` in every other case,
an undefined feed included; the feed is the one of the store at that moment,
which is the first line of the feed marker file or else the feed the store had.
The result is the same for two stores that differ only in `STATUS_USER_LEVEL`. -/
theorem user_level_resolution (env : Env) (defs : DefsMap) :
    producerDefs env defs "STATUS_USER_LEVEL".toList =
      some (resolvedUserLevel env.fs (defs "PRODUCT_DEFAULT_USER_LEVEL".toList)
        (producerDefs env defs "FIRMWARE_FEED".toList)) ∧
    producerDefs env defs "FIRMWARE_FEED".toList =
      (string_fgetfirstline env.fs (env.defspath ++ "p44feed".toList)).or
        (defs "FIRMWARE_FEED".toList) ∧
    (∀ defs' : DefsMap, (∀ k, k ≠ "STATUS_USER_LEVEL".toList → defs' k = defs k) →
      producerDefs env defs' "STATUS_USER_LEVEL".toList =
        producerDefs env defs "STATUS_USER_LEVEL".toList) := by
  have hlevel : ∀ d : DefsMap, producerDefs env d "STATUS_USER_LEVEL".toList =
      some (resolvedUserLevel env.fs (d "PRODUCT_DEFAULT_USER_LEVEL".toList)
        ((string_fgetfirstline env.fs (env.defspath ++ "p44feed".toList)).or
          (d "FIRMWARE_FEED".toList))) := by
    intro d
    rw [producerDefs_level env d _ rfl, producerDefs_feed,
      readDefFromFirstLine_other _ _ _ _ _ (by decide),
      readDefFromFirstLine_other _ _ _ _ _ (by decide), setDefDefault_apply,
      if_neg (by decide)]
  have hfeed : producerDefs env defs "FIRMWARE_FEED".toList =
      (string_fgetfirstline env.fs (env.defspath ++ "p44feed".toList)).or
        (defs "FIRMWARE_FEED".toList) := by
    rw [producerDefs_not_level env defs _ (by decide)]
    exact producerDefs_feed env defs
  refine ⟨?_, hfeed, ?_⟩
  · rw [hlevel, hfeed]
  · intro defs' h
    rw [hlevel, hlevel, h _ (by decide), h _ (by decide)]

theorem user_level_resolution_witness :
    producerDefs levelEnv DefsMap.empty "STATUS_USER_LEVEL".toList = some "2".toList ∧
    producerDefs feedEnv DefsMap.empty "STATUS_USER_LEVEL".toList = some "0".toList ∧
    producerDefs acmeEnv DefsMap.empty "STATUS_USER_LEVEL".toList = some "1".toList ∧
    producerDefs feedEnv (DefsMap.empty.assign "STATUS_USER_LEVEL".toList "9".toList)
      "STATUS_USER_LEVEL".toList = producerDefs feedEnv DefsMap.empty "STATUS_USER_LEVEL".toList :=
  ⟨(user_level_resolution levelEnv DefsMap.empty).1.trans (by decide),
   (user_level_resolution feedEnv DefsMap.empty).1.trans (by decide),
   (user_level_resolution acmeEnv DefsMap.empty).1.trans (by decide),
   (user_level_resolution feedEnv DefsMap.empty).2.2 _ (fun _ hk => assign_other _ _ _ _ hk)⟩

/-- C10, as stated, fails: on a generic build `setDefDefaults` installs the
fixed identity and returns false, yet `identifyDynamically` returns with the
producer getter invoked and the completion callback not called, because the
product file of the defs directory names a `PRODUCER_GETTER`. -/
theorem fixed_platform_invokes_producer_getter :
    (setDefDefaults fixedEnv DefsMap.empty).1 = false ∧
    (identifyDynamically fixedEnv).pending = some ("getproducer".toList, Getter.producer) ∧
    (identifyDynamically fixedEnv).resultAt "PLATFORM_IDENTIFIER".toList = none := by
  decide

/-- The fixed defaults name no getter. -/
theorem setDefDefaults_no_getter (env : Env) (hbuild : env.build ≠ .target) :
    (setDefDefaults env DefsMap.empty).1 = false ∧
    (setDefDefaults env DefsMap.empty).2 "PRODUCER_GETTER".toList = none ∧
    (setDefDefaults env DefsMap.empty).2 "PLATFORM_VARIANT_GETTER".toList = none := by
  unfold setDefDefaults
  cases h : env.build with
  | target => exact absurd h hbuild
  | xcode => exact ⟨rfl, rfl, rfl⟩
  | generic => exact ⟨rfl, rfl, rfl⟩

/-- C10, amended: on a fixed defaults-only platform (`setDefDefaults` installs
the fixed identity and returns false) `identifyDynamically` skips the platform
stages and goes straight to the product stage, so that whatever the defs files
contain it never invokes the platform identifier getter or the product
identifier getter; and when none of the defs files of the product and variant
stages defines `PRODUCER_GETTER` or `PLATFORM_VARIANT_GETTER`, it attempts no
external invocation at all and has called the completion callback when it
returns. -/
theorem fixed_platform_pipeline (env : Env) (hbuild : env.build ≠ .target) :
    (setDefDefaults env DefsMap.empty).1 = false ∧
    identifyDynamically env =
      processProductSpecifics env (setDefDefaults env DefsMap.empty).2 ∧
    (∀ cmd cont, (identifyDynamically env).pending = some (cmd, cont) →
      cont = .producer ∨ cont = .variant) ∧
    ((∀ path, productStageFile env path = true →
        fileDefinitionsOf env.fs path "PRODUCER_GETTER".toList = [] ∧
        fileDefinitionsOf env.fs path "PLATFORM_VARIANT_GETTER".toList = []) →
      ∃ defs, identifyDynamically env = .called defs) := by
  obtain ⟨hret, hpg, hvg⟩ := setDefDefaults_no_getter env hbuild
  have hid : identifyDynamically env =
      processProductSpecifics env (setDefDefaults env DefsMap.empty).2 := by
    unfold identifyDynamically
    simp only [hret, Bool.not_false, if_true]
  refine ⟨hret, hid, ?_, ?_⟩
  · intro cmd cont hpending
    have hrank := processProductSpecifics_rank env (setDefDefaults env DefsMap.empty).2
    rw [← hid] at hrank
    cases ho : identifyDynamically env with
    | called d =>
      rw [ho] at hpending
      simp [Outcome.pending] at hpending
    | forked c g d =>
      rw [ho] at hpending hrank
      simp only [Outcome.pending, Option.some.injEq, Prod.mk.injEq] at hpending
      obtain ⟨_, hg⟩ := hpending
      subst hg
      cases g <;> simp [Outcome.rank, Getter.rank] at hrank ⊢
  · intro hfiles
    have hf1 : ∀ path, productStageFile env path = true →
        fileDefinitionsOf env.fs path "PRODUCER_GETTER".toList = [] :=
      fun path h => (hfiles path h).1
    have hf2 : ∀ path, productStageFile env path = true →
        fileDefinitionsOf env.fs path "PLATFORM_VARIANT_GETTER".toList = [] :=
      fun path h => (hfiles path h).2
    have h1 : getDef (productDefs env (setDefDefaults env DefsMap.empty).2)
        "PRODUCER_GETTER".toList = none := by
      unfold getDef
      rw [productDefs_keeps env _ _ hf1, hpg]
    have h2 : getDef (producerDefs env
        (readDefFromFirstLine env.fs (env.defspath ++ "p44producer".toList) "PRODUCER".toList
          (productDefs env (setDefDefaults env DefsMap.empty).2)).2)
        "PLATFORM_VARIANT_GETTER".toList = none := by
      unfold getDef
      rw [producerDefs_other env _ _ (by decide) (by decide) (by decide) (by decide),
        readDefFromFirstLine_other _ _ _ _ _ (by decide), productDefs_keeps env _ _ hf2, hvg]
    refine ⟨variantDefs env (producerDefs env
      (readDefFromFirstLine env.fs (env.defspath ++ "p44producer".toList) "PRODUCER".toList
        (productDefs env (setDefDefaults env DefsMap.empty).2)).2), ?_⟩
    rw [hid]
    unfold processProductSpecifics
    simp only [h1]
    unfold checkProducer
    simp only [h2]
    rfl

theorem fixed_platform_pipeline_witness :
    (setDefDefaults xcodeEnv DefsMap.empty).1 = false ∧
    ∃ defs, identifyDynamically xcodeEnv = .called defs :=
  ⟨(fixed_platform_pipeline xcodeEnv (by decide)).1,
   (fixed_platform_pipeline xcodeEnv (by decide)).2.2.2 (fun _ _ => ⟨rfl, rfl⟩)⟩

/-! ## The serial number (C11) -/

theorem low_or_code (mac code : Nat) :
    (mac &&& 0xFFFFFF) ||| (code <<< 24) = code * 2 ^ 24 + mac % 2 ^ 24 := by
  have h1 : mac &&& 0xFFFFFF = mac % 2 ^ 24 := by
    have := Nat.and_pow_two_sub_one_eq_mod mac 24
    simpa using this
  have hlt : mac % 2 ^ 24 < 2 ^ 24 := Nat.mod_lt _ (by norm_num)
  rw [h1, Nat.shiftLeft_eq, Nat.or_comm, Nat.mul_comm code, ← Nat.mul_add_lt_is_or hlt]

/-- The serial number of a 48 bit hardware address: the vendor code above the
low 24 bits of the address. -/
theorem serial_eq (mac : Nat) (h : mac < 2 ^ 48) :
    serial mac = vendorCode (mac / 2 ^ 24) * 2 ^ 24 + mac % 2 ^ 24 := by
  have hm : mac % 2 ^ 64 = mac := Nat.mod_eq_of_lt (by omega)
  unfold serial vendorCode
  simp only [hm, Nat.shiftRight_eq_div_pow]
  split_ifs <;> exact low_or_code mac _

theorem vendorCode_lt (oui : Nat) : vendorCode oui < 2 ^ 8 := by
  unfold vendorCode
  split_ifs <;> norm_num

/-- C11: for every 48 bit hardware address, `serial()` keeps the low 24 bits of
the address, has the vendor code of the 24 bit vendor part of the address (1 for
`00:40:9D`, 2 for `B8:27:EB`, 3 for `40:A3:6B`, 42 for every other) in the byte
above them, and has no higher bit set. -/
theorem serial_encoding (mac : Nat) (h : mac < 2 ^ 48) :
    serial mac % 2 ^ 24 = mac % 2 ^ 24 ∧
    serial mac / 2 ^ 24 = vendorCode (mac / 2 ^ 24) ∧
    (serial mac / 2 ^ 24) % 2 ^ 8 = vendorCode (mac / 2 ^ 24) ∧
    serial mac / 2 ^ 32 = 0 ∧
    (mac / 2 ^ 24 = 0x00409D → serial mac / 2 ^ 24 = 1) ∧
    (mac / 2 ^ 24 = 0xB827EB → serial mac / 2 ^ 24 = 2) ∧
    (mac / 2 ^ 24 = 0x40A36B → serial mac / 2 ^ 24 = 3) ∧
    (mac / 2 ^ 24 ≠ 0x00409D → mac / 2 ^ 24 ≠ 0xB827EB → mac / 2 ^ 24 ≠ 0x40A36B →
      serial mac / 2 ^ 24 = 42) := by
  have hs := serial_eq mac h
  have hc := vendorCode_lt (mac / 2 ^ 24)
  have hlt : mac % 2 ^ 24 < 2 ^ 24 := Nat.mod_lt _ (by norm_num)
  have hdiv : serial mac / 2 ^ 24 = vendorCode (mac / 2 ^ 24) := by
    rw [hs]
    omega
  refine ⟨by rw [hs]; omega, hdiv, by rw [hdiv]; omega, by rw [hs]; omega, ?_, ?_, ?_, ?_⟩
  · intro h1
    rw [hdiv, h1]
    rfl
  · intro h1
    rw [hdiv, h1]
    rfl
  · intro h1
    rw [hdiv, h1]
    rfl
  · intro h1 h2 h3
    rw [hdiv]
    unfold vendorCode
    rw [if_neg h1, if_neg h2, if_neg h3]

theorem serial_encoding_witness :
    serial 0xB827EB123456 % 2 ^ 24 = 0x123456 ∧
    serial 0xB827EB123456 / 2 ^ 24 = 2 ∧
    serial 0x0011223344FF / 2 ^ 24 = 42 :=
  ⟨(serial_encoding 0xB827EB123456 (by norm_num)).1.trans (by norm_num),
   (serial_encoding 0xB827EB123456 (by norm_num)).2.2.2.2.2.1 (by norm_num),
   (serial_encoding 0x0011223344FF (by norm_num)).2.2.2.2.2.2.2
     (by norm_num) (by norm_num) (by norm_num)⟩

/-! ## Lemmas on JSON lookups -/

theorem Json.get_of_field_none (j : Json) (aKey : Str) (h : j.field aKey = none) :
    j.get aKey = none := by
  unfold Json.get
  rw [h]

theorem Json.getEx_of_field_none (j : Json) (aKey : Str) (aNonNull : Bool)
    (h : j.field aKey = none) : j.getEx aKey aNonNull = (false, none) := by
  unfold Json.getEx
  rw [h]

theorem Json.getEx_of_get (j : Json) (aKey : Str) (aNonNull : Bool) (o : Json)
    (h : j.get aKey = some o) : j.getEx aKey aNonNull = (true, some o) := by
  unfold Json.get at h
  unfold Json.getEx
  generalize j.field aKey = f at h ⊢
  cases f with
  | none => cases h
  | some v => cases v <;> first | (cases h; done) | (cases h; rfl)

theorem checkStringParam_missing (json_str : Json → Str) (aParams : JsonObjectPtr)
    (aParamName : Str)
    (h : aParams = none ∨ ∃ params, aParams = some params ∧ params.field aParamName = none) :
    checkStringParam json_str aParams aParamName = .missing := by
  unfold checkStringParam checkParam
  rcases h with h | ⟨params, h, hf⟩
  · rw [h]
    rfl
  · rw [h]
    simp only [Json.getEx_of_field_none params aParamName false hf]
    rfl

theorem checkStringParam_value (json_str : Json → Str) (params : Json) (aParamName : Str)
    (o : Json) (h : params.get aParamName = some o) :
    checkStringParam json_str (some params) aParamName = .value (o.stringValue json_str) := by
  unfold checkStringParam checkParam
  simp only [Json.getEx_of_get params aParamName false o h]
  rfl

/-- What `processJSON` does when the first part ends with an error and without
actions: it emits the error answer and terminates. -/
theorem processJSON_of_failed (host : Host) (cmdObj : JsonObjectPtr) (code : Int)
    (message : Str) (hcode : code ≠ 0)
    (h : processJSONCmd host cmdObj = Handled.failed (Error.new code message)) :
    processJSON host cmdObj =
      { actions := [.puts (errorAnswer code message), .terminateApp 0], ending := .returned } := by
  unfold processJSON
  rw [h]
  simp [Handled.failed, Error.new, hcode, answerAndTerminate, answer, errorAnswer]

/-! ## The request (C12 to C14) -/

/-- C12, as stated, fails: in this request the field `data` exists, with the
value JSON null, and the parameters are taken from `uri_params`, whose command
`devinfo` is carried out. -/
theorem null_data_uses_uri_params :
    nullDataRequest.field "data".toList = some Json.null ∧
    requestParams nullDataRequest = some (.obj [("cmd".toList, .str "devinfo".toList)]) ∧
    (processJSONCmd (exampleHost .openwrt) (some nullDataRequest)).err = none ∧
    (processJSONCmd (exampleHost .openwrt) (some nullDataRequest)).answer.isSome = true :=
  ⟨rfl, rfl, rfl, rfl⟩

/-- The command handlers use the request itself only for the field
`uploadedfile`. -/
theorem handleJSONCmd_cmdObj (host : Host) (aCmd : Str) (aParams cmdObj cmdObj' : Json)
    (h : cmdObj.get "uploadedfile".toList = cmdObj'.get "uploadedfile".toList) :
    handleJSONCmd host aCmd aParams cmdObj = handleJSONCmd host aCmd aParams cmdObj' := by
  unfold handleJSONCmd config_restore_prep
  rw [h]

/-- C12, amended: `processJSON` takes the request parameters from the field
`data` whenever that field holds a value other than JSON null, and from
`uri_params` only when `data` is absent or JSON null. When `data` holds a value,
the command name and the parameters come from it, whatever `uri_params` holds:
a request without `cmd` in `data` is answered with the error `Missing 'cmd'`,
and two requests with the same `data` and the same `uploadedfile` (the one
parameter that is read from the request itself) are processed alike. -/
theorem request_params_from_data (host : Host) (cmdObj params : Json)
    (hdata : cmdObj.get "data".toList = some params) :
    requestParams cmdObj = some params ∧
    (params.field "cmd".toList = none →
      processJSON host (some cmdObj) =
        { actions := [.puts (errorAnswer 1 "Missing 'cmd'".toList), .terminateApp 0],
          ending := .returned }) ∧
    (∀ cmdObj' : Json, cmdObj'.get "data".toList = some params →
      cmdObj'.get "uploadedfile".toList = cmdObj.get "uploadedfile".toList →
      processJSON host (some cmdObj') = processJSON host (some cmdObj)) ∧
    (∀ other : Json, other.get "data".toList = none →
      requestParams other = other.get "uri_params".toList) := by
  have hparams : ∀ c : Json, c.get "data".toList = some params → requestParams c = some params := by
    intro c hc
    unfold requestParams
    rw [hc]
  refine ⟨hparams cmdObj hdata, ?_, ?_, ?_⟩
  · intro hcmd
    apply processJSON_of_failed host _ 1 _ (by decide)
    unfold processJSONCmd
    simp only [hparams cmdObj hdata]
    rw [checkStringParam_missing host.json_str (some params) _ (Or.inr ⟨params, rfl, hcmd⟩)]
  · intro cmdObj' hdata' hup
    unfold processJSON processJSONCmd
    simp only [hparams cmdObj hdata, hparams cmdObj' hdata']
    cases checkStringParam host.json_str (some params) "cmd".toList with
    | missing => rfl
    | nullDeref => rfl
    | value cmd =>
      simp only [handleJSONCmd_cmdObj host cmd params cmdObj' cmdObj hup]
  · intro other hother
    unfold requestParams
    rw [hother]

theorem request_params_from_data_witness :
    requestParams emptyDataRequest = some (.obj []) ∧
    processJSON (exampleHost .openwrt) (some emptyDataRequest) =
      { actions := [.puts (errorAnswer 1 "Missing 'cmd'".toList), .terminateApp 0],
        ending := .returned } :=
  ⟨(request_params_from_data (exampleHost .openwrt) emptyDataRequest (.obj []) rfl).1,
   (request_params_from_data (exampleHost .openwrt) emptyDataRequest (.obj []) rfl).2.1 rfl⟩

/-- C13: if the request has neither `data` nor `uri_params`, or the selected
parameter object has no field `cmd`, `processJSON` runs no handler and queues no
invocation: all it does is to emit the error answer with code 1 and message
`Missing 'cmd'` and to terminate. -/
theorem missing_cmd (host : Host) (cmdObj : Json)
    (h : (cmdObj.field "data".toList = none ∧ cmdObj.field "uri_params".toList = none) ∨
      ∃ params, requestParams cmdObj = some params ∧ params.field "cmd".toList = none) :
    processJSON host (some cmdObj) =
      { actions := [.puts (errorAnswer 1 "Missing 'cmd'".toList), .terminateApp 0],
        ending := .returned } := by
  apply processJSON_of_failed host _ 1 _ (by decide)
  unfold processJSONCmd
  have hmissing : requestParams cmdObj = none ∨
      ∃ params, requestParams cmdObj = some params ∧ params.field "cmd".toList = none := by
    rcases h with ⟨h1, h2⟩ | h
    · left
      unfold requestParams
      rw [Json.get_of_field_none _ _ h1, Json.get_of_field_none _ _ h2]
    · exact Or.inr h
  simp only [checkStringParam_missing host.json_str (requestParams cmdObj) _ hmissing]

theorem missing_cmd_witness :
    processJSON (exampleHost .openwrt) (some (.obj [])) =
      { actions := [.puts (errorAnswer 1 "Missing 'cmd'".toList), .terminateApp 0],
        ending := .returned } ∧
    processJSON (exampleHost .openwrt) (some emptyDataRequest) =
      { actions := [.puts (errorAnswer 1 "Missing 'cmd'".toList), .terminateApp 0],
        ending := .returned } :=
  ⟨missing_cmd (exampleHost .openwrt) (.obj []) (Or.inl ⟨rfl, rfl⟩),
   missing_cmd (exampleHost .openwrt) emptyDataRequest (Or.inr ⟨.obj [], rfl, rfl⟩)⟩

theorem handleJSONCmd_unknown (host : Host) (aCmd : Str) (aParams aCmdObj : Json)
    (h : aCmd ∉ routedCommands host.platform) :
    handleJSONCmd host aCmd aParams aCmdObj =
      Handled.failed (Error.new 1 "Unknown 'cmd'".toList) := by
  have hne : ∀ name, name ∈ routedCommands host.platform → aCmd ≠ name :=
    fun name hn he => h (he ▸ hn)
  have hmem : ∀ name, name ∈ ["restart".toList, "poweroff".toList, "configbackup".toList,
      "configrestoreprep".toList, "configrestoreapply".toList, "ipconfig".toList,
      "setpassword".toList, "factoryreset".toList, "devinfo".toList, "userlevel".toList,
      "property".toList, "alert".toList] → name ∈ routedCommands host.platform := by
    intro name hn
    unfold routedCommands
    simp only [List.mem_append, List.mem_cons, List.mem_singleton, List.not_mem_nil,
      or_false] at hn ⊢
    tauto
  have htz : ∀ name, name ∈ ["tzconfig".toList, "wificonfig".toList] →
      ¬(aCmd = name ∧ host.platform ≠ .digiesp) := by
    intro name hn hc
    refine hne name ?_ hc.1
    unfold routedCommands
    rw [if_neg hc.2]
    simp only [List.mem_append]
    exact Or.inl (Or.inr hn)
  unfold handleJSONCmd
  rw [if_neg (hne _ (hmem _ (by decide))), if_neg (hne _ (hmem _ (by decide))),
    if_neg (hne _ (hmem _ (by decide))), if_neg (hne _ (hmem _ (by decide))),
    if_neg (hne _ (hmem _ (by decide))), if_neg (htz _ (by decide)),
    if_neg (htz _ (by decide)), if_neg (hne _ (hmem _ (by decide))),
    if_neg (hne _ (hmem _ (by decide))), if_neg (hne _ (hmem _ (by decide))),
    if_neg (hne _ (hmem _ (by decide))), if_neg (hne _ (hmem _ (by decide))),
    if_neg (hne _ (hmem _ (by decide))), if_neg (hne _ (hmem _ (by decide)))]

/-- C14: for every request with a command name that is not exactly one of the
names `handleJSONCmd` routes on the build, `processJSON` runs no handler, issues
no invocation and accesses no file: all it does is to emit the error answer with
code 1 and message `Unknown 'cmd'` and to terminate. -/
theorem unknown_cmd (host : Host) (cmdObj params o : Json)
    (hparams : requestParams cmdObj = some params)
    (hcmd : params.get "cmd".toList = some o)
    (hunknown : o.stringValue host.json_str ∉ routedCommands host.platform) :
    processJSON host (some cmdObj) =
      { actions := [.puts (errorAnswer 1 "Unknown 'cmd'".toList), .terminateApp 0],
        ending := .returned } := by
  apply processJSON_of_failed host _ 1 _ (by decide)
  unfold processJSONCmd
  simp only [hparams, checkStringParam_value host.json_str params _ o hcmd]
  exact handleJSONCmd_unknown host _ params cmdObj hunknown

theorem unknown_cmd_witness :
    processJSON (exampleHost .openwrt) (some unknownCmdRequest) =
      { actions := [.puts (errorAnswer 1 "Unknown 'cmd'".toList), .terminateApp 0],
        ending := .returned } :=
  unknown_cmd (exampleHost .openwrt) unknownCmdRequest
    (.obj [("cmd".toList, .str "Restart".toList)]) (.str "Restart".toList) rfl rfl (by decide)

/-! ## The answers (C15 to C17) -/

theorem wrapInt32_of_int (n : Int) (h1 : -(2 ^ 31) ≤ n) (h2 : n < 2 ^ 31) : wrapInt32 n = n := by
  unfold wrapInt32
  omega

/-- C16: `makeAnswer(p)` is the JSON object with the single field `result`,
holding `p` or JSON null when `p` is absent; `makeErrorAnswer(e)` is the JSON
object with the single field `error`, whose value has exactly the fields `code`,
the code of `e` as an `int`, and `message`, the message of `e`; `statusAnswer`
returns the former when the error is OK and the latter otherwise; and an answer
of the one kind has no field of the other kind. -/
theorem answer_shapes (aResultObj : JsonObjectPtr) (e : Error) (aError : ErrorPtr) :
    makeAnswer aResultObj = .obj [("result".toList, aResultObj.getD .null)] ∧
    makeErrorAnswer e =
      .obj [("error".toList,
        .obj [("code".toList, .int (wrapInt32 e.code)), ("message".toList, .str e.message)])] ∧
    (-(2 ^ 31) ≤ e.code → e.code < 2 ^ 31 →
      makeErrorAnswer e =
        .obj [("error".toList,
          .obj [("code".toList, .int e.code), ("message".toList, .str e.message)])]) ∧
    (Error.isOK aError = true → statusAnswer aError aResultObj = makeAnswer aResultObj) ∧
    (Error.isOK aError = false →
      ∃ err, aError = some err ∧ statusAnswer aError aResultObj = makeErrorAnswer err) ∧
    ((makeAnswer aResultObj).field "result".toList = some (aResultObj.getD .null) ∧
      (makeAnswer aResultObj).field "error".toList = none) ∧
    ((makeErrorAnswer e).field "error".toList ≠ none ∧
      (makeErrorAnswer e).field "result".toList = none) := by
  have h1 : makeAnswer aResultObj = .obj [("result".toList, aResultObj.getD .null)] := by
    cases aResultObj <;> rfl
  have h2 : makeErrorAnswer e =
      .obj [("error".toList,
        .obj [("code".toList, .int (wrapInt32 e.code)), ("message".toList, .str e.message)])] :=
    rfl
  refine ⟨h1, h2, ?_, ?_, ?_, ?_, ?_⟩
  · intro hlo hhi
    rw [h2, wrapInt32_of_int e.code hlo hhi]
  · intro hok
    unfold statusAnswer
    cases aError with
    | none => rfl
    | some err =>
      have hc : (err.code == 0) = true := hok
      simp only [hc, if_true]
  · intro hok
    unfold statusAnswer
    cases aError with
    | none => cases hok
    | some err =>
      have hc : (err.code == 0) = false := hok
      exact ⟨err, rfl, by simp only [hc, Bool.false_eq_true, if_false]⟩
  · rw [h1]
    exact ⟨rfl, rfl⟩
  · rw [h2]
    exact ⟨fun h => (by cases h), rfl⟩

theorem answer_shapes_witness :
    statusAnswer none (some (.int 5)) = .obj [("result".toList, .int 5)] ∧
    statusAnswer (Error.new 1 "no".toList) none =
      .obj [("error".toList,
        .obj [("code".toList, .int 1), ("message".toList, .str "no".toList)])] :=
  ⟨((answer_shapes (some (.int 5)) ⟨[], 0, []⟩ none).2.2.2.1 rfl).trans
      (answer_shapes (some (.int 5)) ⟨[], 0, []⟩ none).1,
   (answer_shapes none ⟨"Error_baseClass".toList, 1, "no".toList⟩
      (Error.new 1 "no".toList)).2.2.1 (by decide) (by decide) ▸ rfl⟩

theorem restart_from_ui_answers (host : Host) (aPowerOff : Bool) :
    (restart_from_ui host aPowerOff).answers ≤ 1 := by
  unfold restart_from_ui system_reboot
  cases host.platform <;>
    simp [Handled.answers, answersIn, queued, Action.isPuts, Action.queues,
      Continuation.answers, Error.isOK]

theorem timezoneconfig_answers (host : Host) (aUriParams : Json) :
    (timezoneconfig host aUriParams).answers ≤ 1 ∧ (timezoneconfig host aUriParams).defers := by
  unfold timezoneconfig
  cases aUriParams.get "timezonename".toList with
  | none =>
    cases host.platform <;>
      simp [Handled.answers, Handled.defers, Handled.deferred, tzget_done, answerAndTerminate,
        answer, answersIn, queued, Action.isPuts, Action.queues, Continuation.answers,
        Error.isOK]
  | some o =>
    dsimp only
    cases host.timezones.lookup (o.stringValue host.json_str) with
    | none =>
      simp [Handled.answers, Handled.defers, Handled.failed, Error.new, answersIn, queued,
        Error.isOK]
    | some tzSpec =>
      cases host.platform <;>
        simp [Handled.answers, Handled.defers, Handled.deferred, answerAndTerminate, answer,
          answersIn, queued, Action.isPuts, Action.queues, Continuation.answers, Error.isOK]

theorem config_backup_answers (host : Host) :
    (config_backup host).answers ≤ 1 ∧ (config_backup host).defers := by
  unfold config_backup
  cases host.execve_fails <;>
    simp [Handled.answers, Handled.defers, Error.new, answersIn, queued, Action.isPuts,
      Action.queues, Error.isOK]

theorem config_restore_prep_answers (host : Host) (aUriParams : Json) :
    (config_restore_prep host aUriParams).answers ≤ 1 ∧
    (config_restore_prep host aUriParams).defers := by
  unfold config_restore_prep
  cases aUriParams.get "uploadedfile".toList <;>
    simp [Handled.answers, Handled.defers, Handled.deferred, Handled.failed, Error.new,
      answersIn, queued, Action.isPuts, Action.queues, Continuation.answers, Error.isOK]

theorem config_restore_apply_answers (host : Host) (aUriParams : Json) :
    (config_restore_apply host aUriParams).answers ≤ 1 ∧
    (config_restore_apply host aUriParams).defers := by
  unfold config_restore_apply
  cases aUriParams.get "mode".toList with
  | none =>
    simp [Handled.answers, Handled.defers, Handled.failed, Error.new, answersIn, queued,
      Error.isOK]
  | some o =>
    dsimp only
    split_ifs
    · cases host.platform <;>
        simp [Handled.answers, Handled.defers, Handled.deferred, Error.new, answerAndTerminate,
          answer, answersIn, queued, Action.isPuts, Action.queues, Error.isOK]
    · cases host.platform <;>
        simp [Handled.answers, Handled.defers, Handled.deferred, Error.new, answerAndTerminate,
          answer, answersIn, queued, Action.isPuts, Action.queues, Error.isOK]
    · simp [Handled.answers, Handled.defers, Handled.failed, Error.new, answersIn, queued,
        Error.isOK]

theorem wificonfig_answers (host : Host) (aUriParams : Json) :
    (wificonfig host aUriParams).answers ≤ 1 ∧ (wificonfig host aUriParams).defers := by
  unfold wificonfig
  dsimp only
  split_ifs <;>
    simp [Handled.answers, Handled.defers, Handled.deferred, answersIn, queued, Action.isPuts,
      Action.queues, Continuation.answers, Error.isOK]

theorem ipconfig_answers (host : Host) (aUriParams : Json) :
    (ipconfig host aUriParams).answers ≤ 1 ∧ (ipconfig host aUriParams).defers := by
  unfold ipconfig
  cases aUriParams.get "dhcp".toList with
  | none =>
    simp [Handled.answers, Handled.defers, Handled.deferred, answersIn, queued, Action.isPuts,
      Action.queues, Continuation.answers, Error.isOK]
  | some o =>
    dsimp only
    split_ifs <;>
      simp [Handled.answers, Handled.defers, Handled.deferred, Error.new, answersIn, queued,
        Action.isPuts, Action.queues, Continuation.answers, Error.isOK]

theorem setpassword_answers (host : Host) (aUriParams : Json) :
    (setpassword host aUriParams).answers ≤ 1 ∧ (setpassword host aUriParams).defers := by
  unfold setpassword
  cases aUriParams.get "password".toList with
  | none =>
    simp [Handled.answers, Handled.defers, Handled.failed, Error.new, answersIn, queued,
      Error.isOK]
  | some o =>
    cases host.platform <;>
      simp [Handled.answers, Handled.defers, Handled.deferred, answersIn, queued,
        Action.isPuts, Action.queues, Continuation.answers, Error.isOK]

theorem factory_reset_from_ui_answers (host : Host) (aUriParams : Json) :
    (factory_reset_from_ui host aUriParams).answers ≤ 1 ∧
    (factory_reset_from_ui host aUriParams).defers := by
  unfold factory_reset_from_ui factoryReset
  cases aUriParams.get "mode".toList with
  | none =>
    simp [Handled.answers, Handled.defers, Handled.failed, Error.new, answersIn, queued,
      Error.isOK]
  | some o =>
    dsimp only
    split_ifs <;>
      simp [Handled.answers, Handled.defers, Handled.deferred, Handled.failed, Error.new,
        answersIn, queued, Action.isPuts, Action.queues, Continuation.answers, Error.isOK]

theorem devinfo_answers (host : Host) :
    (devinfo host).answers ≤ 1 ∧ (devinfo host).defers := by
  unfold devinfo
  simp [Handled.answers, Handled.defers, Handled.answered, answersIn, queued, Error.isOK]

theorem userlevelaccess_answers (host : Host) (aUriParams : Json) :
    (userlevelaccess host aUriParams).answers ≤ 1 ∧
    (userlevelaccess host aUriParams).defers := by
  unfold userlevelaccess
  cases aUriParams.get "level".toList <;>
    simp [Handled.answers, Handled.defers, Handled.answered, answersIn, queued, Action.isPuts,
      Action.queues, Error.isOK]

theorem property_answers (host : Host) (aUriParams : Json) :
    (property host aUriParams).answers ≤ 1 ∧ (property host aUriParams).defers := by
  unfold property
  cases aUriParams.get "key".toList with
  | none =>
    simp [Handled.answers, Handled.defers, Handled.answered, answersIn, queued, Error.isOK]
  | some o =>
    dsimp only
    split_ifs
    · simp [Handled.answers, Handled.defers, Handled.answered, answersIn, queued, Error.isOK]
    · cases (aUriParams.getEx "value".toList false).2 <;>
        simp [Handled.answers, Handled.defers, answersIn, queued, Action.isPuts,
          Action.queues, Error.isOK]
    · cases host.objFromFile (propertyFile (o.stringValue host.json_str)) <;>
        simp [Handled.answers, Handled.defers, answersIn, queued, Action.isPuts,
          Action.queues, Error.isOK]

theorem nextAlert_actions (host : Host) :
    answersIn (nextAlert host).1 = 0 ∧ queued (nextAlert host).1 = [] := by
  unfold nextAlert
  repeat' split
  all_goals simp [answersIn, queued, Action.isPuts, Action.queues]

theorem alert_from_ui_answers (host : Host) (aUriParams : Json) :
    (alert_from_ui host aUriParams).answers ≤ 1 ∧ (alert_from_ui host aUriParams).defers := by
  unfold alert_from_ui
  cases aUriParams.get "new".toList with
  | some o =>
    simp [Handled.answers, Handled.defers, newAlert, answersIn, queued, Action.isPuts,
      Action.queues, Error.isOK]
  | none =>
    cases aUriParams.get "confirm".toList with
    | some o =>
      dsimp only
      unfold confirmAlert
      split_ifs <;>
        simp [Handled.answers, Handled.defers, answersIn, queued, Action.isPuts,
          Action.queues, Error.isOK]
    | none =>
      obtain ⟨h1, h2⟩ := nextAlert_actions host
      simp only [Handled.answers, Handled.defers, h1, h2]
      simp [Error.isOK]

theorem failed_answers (code : Int) (message : Str) :
    (Handled.failed (Error.new code message)).answers ≤ 1 ∧
    (Handled.failed (Error.new code message)).defers := by
  simp [Handled.answers, Handled.defers, Handled.failed, Error.new, answersIn, queued,
    Error.isOK]
  split_ifs <;> omega

/-- A property that holds of what every handler does, and of the error for an
unknown command, holds of what `handleJSONCmd` does. -/
theorem handleJSONCmd_cases (P : Handled → Prop) (host : Host) (aCmd : Str)
    (aParams aCmdObj : Json)
    (hrestart : aCmd = "restart".toList → P (restart_from_ui host false))
    (hpoweroff : aCmd = "poweroff".toList → P (restart_from_ui host true))
    (h3 : P (config_backup host)) (h4 : P (config_restore_prep host aCmdObj))
    (h5 : P (config_restore_apply host aParams)) (h6 : P (timezoneconfig host aParams))
    (h7 : P (wificonfig host aParams)) (h8 : P (ipconfig host aParams))
    (h9 : P (setpassword host aParams)) (h10 : P (factory_reset_from_ui host aParams))
    (h11 : P (devinfo host)) (h12 : P (userlevelaccess host aParams))
    (h13 : P (property host aParams)) (h14 : P (alert_from_ui host aParams))
    (h15 : P (Handled.failed (Error.new 1 "Unknown 'cmd'".toList))) :
    P (handleJSONCmd host aCmd aParams aCmdObj) := by
  unfold handleJSONCmd
  by_cases c1 : aCmd = "restart".toList
  · rw [if_pos c1]; exact hrestart c1
  rw [if_neg c1]
  by_cases c2 : aCmd = "poweroff".toList
  · rw [if_pos c2]; exact hpoweroff c2
  rw [if_neg c2]
  by_cases c3 : aCmd = "configbackup".toList
  · rw [if_pos c3]; exact h3
  rw [if_neg c3]
  by_cases c4 : aCmd = "configrestoreprep".toList
  · rw [if_pos c4]; exact h4
  rw [if_neg c4]
  by_cases c5 : aCmd = "configrestoreapply".toList
  · rw [if_pos c5]; exact h5
  rw [if_neg c5]
  by_cases c6 : aCmd = "tzconfig".toList ∧ host.platform ≠ .digiesp
  · rw [if_pos c6]; exact h6
  rw [if_neg c6]
  by_cases c7 : aCmd = "wificonfig".toList ∧ host.platform ≠ .digiesp
  · rw [if_pos c7]; exact h7
  rw [if_neg c7]
  by_cases c8 : aCmd = "ipconfig".toList
  · rw [if_pos c8]; exact h8
  rw [if_neg c8]
  by_cases c9 : aCmd = "setpassword".toList
  · rw [if_pos c9]; exact h9
  rw [if_neg c9]
  by_cases c10 : aCmd = "factoryreset".toList
  · rw [if_pos c10]; exact h10
  rw [if_neg c10]
  by_cases c11 : aCmd = "devinfo".toList
  · rw [if_pos c11]; exact h11
  rw [if_neg c11]
  by_cases c12 : aCmd = "userlevel".toList
  · rw [if_pos c12]; exact h12
  rw [if_neg c12]
  by_cases c13 : aCmd = "property".toList
  · rw [if_pos c13]; exact h13
  rw [if_neg c13]
  by_cases c14 : aCmd = "alert".toList
  · rw [if_pos c14]; exact h14
  rw [if_neg c14]
  exact h15

/-- Every handler leads to at most one answer. -/
theorem handleJSONCmd_answers (host : Host) (aCmd : Str) (aParams aCmdObj : Json) :
    (handleJSONCmd host aCmd aParams aCmdObj).answers ≤ 1 :=
  handleJSONCmd_cases (fun h => h.answers ≤ 1) host aCmd aParams aCmdObj
    (fun _ => restart_from_ui_answers host false) (fun _ => restart_from_ui_answers host true)
    (config_backup_answers host).1 (config_restore_prep_answers host aCmdObj).1
    (config_restore_apply_answers host aParams).1 (timezoneconfig_answers host aParams).1
    (wificonfig_answers host aParams).1 (ipconfig_answers host aParams).1
    (setpassword_answers host aParams).1 (factory_reset_from_ui_answers host aParams).1
    (devinfo_answers host).1 (userlevelaccess_answers host aParams).1
    (property_answers host aParams).1 (alert_from_ui_answers host aParams).1
    (failed_answers 1 _).1

/-- Every handler but the one of `restart` and `poweroff` keeps to the rule for
queued work. -/
theorem handleJSONCmd_defers (host : Host) (aCmd : Str) (aParams aCmdObj : Json)
    (h1 : aCmd ≠ "restart".toList) (h2 : aCmd ≠ "poweroff".toList) :
    (handleJSONCmd host aCmd aParams aCmdObj).defers :=
  handleJSONCmd_cases (fun h => h.defers) host aCmd aParams aCmdObj
    (fun c => absurd c h1) (fun c => absurd c h2)
    (config_backup_answers host).2 (config_restore_prep_answers host aCmdObj).2
    (config_restore_apply_answers host aParams).2 (timezoneconfig_answers host aParams).2
    (wificonfig_answers host aParams).2 (ipconfig_answers host aParams).2
    (setpassword_answers host aParams).2 (factory_reset_from_ui_answers host aParams).2
    (devinfo_answers host).2 (userlevelaccess_answers host aParams).2
    (property_answers host aParams).2 (alert_from_ui_answers host aParams).2
    (failed_answers 1 _).2

/-- The number of answers a callback emits does not depend on how the process
ended. -/
theorem runContinuation_answers (host : Host) (cont : Continuation) (aErr : ErrorPtr)
    (aAnswer : Str) : answersIn (runContinuation host cont aErr aAnswer) = cont.answers := by
  cases cont with
  | passwordUpdated =>
    unfold runContinuation passwordUpdated
    cases aErr with
    | none => rfl
    | some e =>
      dsimp only
      split_ifs <;> rfl
  | configPrepared =>
    unfold runContinuation configPrepared
    cases aErr with
    | none => rfl
    | some e =>
      dsimp only
      split_ifs <;> rfl
  | endApp aSuccess => cases aSuccess <;> rfl
  | _ => rfl

theorem answersIn_append (l₁ l₂ : List Action) :
    answersIn (l₁ ++ l₂) = answersIn l₁ + answersIn l₂ := by
  simp [answersIn]

theorem continuationActions_answers (host : Host) (completion : Action → ErrorPtr × Str)
    (actions : List Action) :
    answersIn (continuationActions host completion actions) =
      ((queued actions).map Continuation.answers).sum := by
  induction actions with
  | nil => rfl
  | cons a rest ih =>
    unfold continuationActions
    rw [answersIn_append, ih]
    cases hq : a.queues with
    | none => simp [queued, List.filterMap_cons, hq, answersIn]
    | some cont =>
      simp only [runContinuation_answers]
      simp [queued, List.filterMap_cons, hq]

theorem queued_append (l₁ l₂ : List Action) : queued (l₁ ++ l₂) = queued l₁ ++ queued l₂ := by
  simp [queued]

/-- The answers of a whole run are the answers to which the first part of
`processJSON` leads. -/
theorem wholeRun_answers (host : Host) (completion : Action → ErrorPtr × Str)
    (cmdObj : JsonObjectPtr) :
    answersIn (wholeRun host completion cmdObj) = (processJSONCmd host cmdObj).answers := by
  unfold wholeRun
  rw [answersIn_append, continuationActions_answers]
  unfold processJSON Handled.answers
  generalize processJSONCmd host cmdObj = h
  obtain ⟨actions, ans, err, ending⟩ := h
  cases ending with
  | replaced => simp
  | nullDeref => simp
  | returned =>
    cases err with
    | none =>
      cases ans with
      | none => simp [Error.isOK]
      | some a =>
        simp [Error.isOK, answerAndTerminate, answer, answersIn_append, queued_append, answersIn,
          queued, Action.isPuts, Action.queues]
        omega
    | some e =>
      by_cases hc : e.code = 0
      · cases ans with
        | none => simp [Error.isOK, hc]
        | some a =>
          simp [Error.isOK, hc, answerAndTerminate, answer, answersIn_append, queued_append,
            answersIn, queued, Action.isPuts, Action.queues]
          omega
      · simp [Error.isOK, hc, answerAndTerminate, answer, answersIn_append, queued_append,
          answersIn, queued, Action.isPuts, Action.queues]
        omega

theorem processJSONCmd_answers (host : Host) (cmdObj : JsonObjectPtr) :
    (processJSONCmd host cmdObj).answers ≤ 1 := by
  unfold processJSONCmd
  cases cmdObj with
  | none => exact (failed_answers 1 _).1
  | some cmdObj =>
    dsimp only
    cases checkStringParam host.json_str (requestParams cmdObj) "cmd".toList with
    | missing => exact (failed_answers 1 _).1
    | nullDeref => simp [Handled.answers, answersIn, queued]
    | value cmd =>
      cases requestParams cmdObj with
      | none => simp [Handled.answers, answersIn, queued]
      | some params => exact handleJSONCmd_answers host cmd params cmdObj

/-- C15, as stated, fails: the handler of `restart` queues an external process
invocation (the reboot command, with the callback `NoOP`) and returns an answer
that is not null. -/
theorem restart_answers_and_queues :
    (processJSONCmd (exampleHost .openwrt) (some restartRequest)).answer = some emptyAnswer ∧
    (processJSONCmd (exampleHost .openwrt) (some restartRequest)).actions =
      [.redLED true, .greenLED true,
        .fork_and_system "sv stop p44mbrd vdcd mg44; sync; reboot".toList .NoOP] ∧
    queued (processJSONCmd (exampleHost .openwrt) (some restartRequest)).actions = [.NoOP] :=
  ⟨rfl, rfl, rfl⟩

/-- C15, amended: for every command routed by `handleJSONCmd` other than
`restart` and `poweroff`, and every parameter object, the handler never both
returns an answer and queues an external process invocation: it queues at most
one invocation, and when it queues one it returns no answer and no error and
has emitted no answer, and the callback of the invocation emits exactly one
answer, except for the callback `endApp` of the factory reset, which ends the
process without an answer. The handler of `restart` and `poweroff` queues the
reboot command with the callback `NoOP` and returns the empty answer. -/
theorem handlers_defer (host : Host) (aCmd : Str) (aParams aCmdObj : Json)
    (h1 : aCmd ≠ "restart".toList) (h2 : aCmd ≠ "poweroff".toList) :
    ¬((handleJSONCmd host aCmd aParams aCmdObj).answer.isSome = true ∧
      queued (handleJSONCmd host aCmd aParams aCmdObj).actions ≠ []) ∧
    (queued (handleJSONCmd host aCmd aParams aCmdObj).actions).length ≤ 1 ∧
    (queued (handleJSONCmd host aCmd aParams aCmdObj).actions ≠ [] →
      (handleJSONCmd host aCmd aParams aCmdObj).answer = none ∧
      (handleJSONCmd host aCmd aParams aCmdObj).err = none ∧
      answersIn (handleJSONCmd host aCmd aParams aCmdObj).actions = 0) ∧
    (∀ cont ∈ queued (handleJSONCmd host aCmd aParams aCmdObj).actions,
      ∀ (aErr : ErrorPtr) (aAnswer : Str),
        (cont = .endApp false ∧ answersIn (runContinuation host cont aErr aAnswer) = 0) ∨
        answersIn (runContinuation host cont aErr aAnswer) = 1) ∧
    (∀ aPowerOff : Bool,
      (restart_from_ui host aPowerOff).answer = some emptyAnswer ∧
      queued (restart_from_ui host aPowerOff).actions = [.NoOP]) := by
  obtain ⟨hlen, hq, hcont⟩ := handleJSONCmd_defers host aCmd aParams aCmdObj h1 h2
  refine ⟨?_, hlen, fun hne => ⟨(hq hne).1, (hq hne).2.1, (hq hne).2.2.1⟩, ?_, ?_⟩
  · rintro ⟨hsome, hne⟩
    rw [(hq hne).1] at hsome
    cases hsome
  · intro cont hmem aErr aAnswer
    rw [runContinuation_answers]
    rcases hcont cont hmem with h | h
    · exact Or.inr h
    · exact Or.inl ⟨h, by rw [h]; rfl⟩
  · intro aPowerOff
    unfold restart_from_ui system_reboot
    cases host.platform <;> cases aPowerOff <;> exact ⟨rfl, rfl⟩

theorem handlers_defer_witness :
    ¬((handleJSONCmd (exampleHost .openwrt) "ipconfig".toList badIpParams (.obj [])).answer.isSome
        = true ∧
      queued (handleJSONCmd (exampleHost .openwrt) "ipconfig".toList badIpParams
        (.obj [])).actions ≠ []) ∧
    (queued (handleJSONCmd (exampleHost .openwrt) "ipconfig".toList (.obj [])
      (.obj [])).actions).length ≤ 1 :=
  ⟨(handlers_defer (exampleHost .openwrt) "ipconfig".toList badIpParams (.obj [])
      (by decide) (by decide)).1,
   (handlers_defer (exampleHost .openwrt) "ipconfig".toList (.obj []) (.obj [])
      (by decide) (by decide)).2.1⟩

/-- A callback queues no further invocation. -/
theorem runContinuation_queues_none (host : Host) (cont : Continuation) (aErr : ErrorPtr)
    (aAnswer : Str) : queued (runContinuation host cont aErr aAnswer) = [] := by
  cases cont with
  | passwordUpdated =>
    unfold runContinuation passwordUpdated
    cases aErr with
    | none => rfl
    | some e =>
      dsimp only
      split_ifs <;> rfl
  | configPrepared =>
    unfold runContinuation configPrepared
    cases aErr with
    | none => rfl
    | some e =>
      dsimp only
      split_ifs <;> rfl
  | endApp aSuccess => cases aSuccess <;> rfl
  | _ => rfl

theorem continuationActions_queues_none (host : Host) (completion : Action → ErrorPtr × Str)
    (actions : List Action) : queued (continuationActions host completion actions) = [] := by
  induction actions with
  | nil => rfl
  | cons a rest ih =>
    unfold continuationActions
    rw [queued_append, ih]
    cases a.queues with
    | none => rfl
    | some cont =>
      dsimp only
      rw [runContinuation_queues_none]
      rfl

/-- C17: for every request and every way the queued invocations end, a run of
the daemon (`processJSON` and then the callback of each queued invocation, run
once; the callbacks queue no further invocation) emits at most one answer: the
answers of the run are those of `processJSON`, at most one, and those of the
callbacks it queued, and together they are at most one. -/
theorem at_most_one_answer (host : Host) (completion : Action → ErrorPtr × Str)
    (cmdObj : JsonObjectPtr) :
    answersIn (wholeRun host completion cmdObj) ≤ 1 ∧
    answersIn (processJSON host cmdObj).actions ≤ 1 ∧
    answersIn (wholeRun host completion cmdObj) =
      answersIn (processJSON host cmdObj).actions +
        ((queued (processJSON host cmdObj).actions).map Continuation.answers).sum ∧
    queued (continuationActions host completion (processJSON host cmdObj).actions) = [] := by
  have hwhole := wholeRun_answers host completion cmdObj
  have hle := processJSONCmd_answers host cmdObj
  have hsplit : answersIn (wholeRun host completion cmdObj) =
      answersIn (processJSON host cmdObj).actions +
        ((queued (processJSON host cmdObj).actions).map Continuation.answers).sum := by
    unfold wholeRun
    rw [answersIn_append, continuationActions_answers]
  exact ⟨by omega, by omega, hsplit, continuationActions_queues_none host completion _⟩

/-! ## The network query (C18) -/

/-- The handler of `ipconfig` for parameters without `dhcp`: it queues the
query and nothing else. -/
theorem ipconfig_query (host : Host) (aUriParams : Json)
    (h : aUriParams.get "dhcp".toList = none) :
    ipconfig host aUriParams =
      Handled.deferred [.fork_and_system (ipQueryCmd host.platform) .ipquery_done] := by
  unfold ipconfig
  rw [h]

theorem getIpVar_ne_nil (aStr aVarName : Str) : getIpVar aStr aVarName ≠ [] := by
  unfold getIpVar
  cases h : getVar aStr aVarName with
  | nil => simp
  | cons c rest => simp

/-- The five address fields of the answer of `ipquery_done`: each holds what
`getIpVar` delivers, which is never the empty string. -/
theorem ipqueryResult_fields (host : Host) (aAnswer : Str) :
    (ipqueryResult host aAnswer).get "ipaddr".toList
      = some (.str (getIpVar aAnswer "ipaddr".toList)) ∧
    (ipqueryResult host aAnswer).get "netmask".toList
      = some (.str (getIpVar aAnswer "netmask".toList)) ∧
    (ipqueryResult host aAnswer).get "gatewayip".toList
      = some (.str (getIpVar aAnswer "gatewayip".toList)) ∧
    (ipqueryResult host aAnswer).get "dnsip".toList
      = some (.str (getIpVar aAnswer "dnsip".toList)) ∧
    (ipqueryResult host aAnswer).get "dnsip2".toList
      = some (.str (getIpVar aAnswer "dnsip2".toList)) :=
  ⟨rfl, rfl, rfl, rfl, rfl⟩

/-- C18, at the failing input: the captured output gives the variable `ipaddr`
the value `1.2.3.4`, in its second line, and the answer of `ipquery_done` holds
`9.9.9.9` for `ipaddr`, the value of the line before, whose key ends in
`ipaddr`. -/
theorem ipquery_shadowed_variable :
    lineValue shadowedIpOutput "ipaddr".toList = some "1.2.3.4".toList ∧
    (ipqueryResult (exampleHost .openwrt) shadowedIpOutput).get "ipaddr".toList
      = some (.str "9.9.9.9".toList) ∧
    ipquery_done (exampleHost .openwrt) shadowedIpOutput =
      [.puts (makeAnswer (some (ipqueryResult (exampleHost .openwrt) shadowedIpOutput))),
        .terminateApp 0] :=
  ⟨by decide, rfl, rfl⟩

/-! ## Validation errors and property keys (C19, C20) -/

theorem andSetIpCmd_fst (host : Host) (aUriParams : Json) (st : Bool × Str) (name : Str) :
    (andSetIpCmd host aUriParams st name).1 = (st.1 && !invalidIpField host aUriParams name) := by
  unfold andSetIpCmd addSetIpCmd invalidIpField
  cases hst : st.1 <;> simp only [hst, if_true, if_false, Bool.false_eq_true]
  · rfl
  · cases aUriParams.get name with
    | none => rfl
    | some o =>
      dsimp only
      cases host.inet_pton (o.stringValue host.json_str)
      · rfl
      · cases host.platform <;> rfl

/-- The handler of `ipconfig` with a `dhcp` field and an invalid address in a
field it consults. -/
theorem ipconfig_invalid (host : Host) (aUriParams o : Json)
    (hdhcp : aUriParams.get "dhcp".toList = some o)
    (hbad : invalidIpField host aUriParams "dnsip".toList = true ∨
      invalidIpField host aUriParams "dnsip2".toList = true ∨
      (o.boolValue = false ∧
        (invalidIpField host aUriParams "ipaddr".toList = true ∨
         invalidIpField host aUriParams "netmask".toList = true ∨
         invalidIpField host aUriParams "gatewayip".toList = true))) :
    ipconfig host aUriParams =
      { actions := [],
        answer := some (errorAnswer 415 "Invalid IP address parameters".toList),
        err := Error.new 415 "Invalid IP address parameters".toList,
        ending := .returned } := by
  unfold ipconfig
  rw [hdhcp]
  dsimp only
  rw [if_neg]
  · rfl
  · rw [andSetIpCmd_fst, andSetIpCmd_fst]
    rcases hbad with h | h | ⟨hd, h | h | h⟩
    · rw [h, Bool.not_true, Bool.and_false, Bool.false_and]
      exact Bool.false_ne_true
    · rw [h, Bool.not_true, Bool.and_false]
      exact Bool.false_ne_true
    · rw [hd, if_pos (show (!false) = true from rfl), andSetIpCmd_fst, andSetIpCmd_fst, andSetIpCmd_fst, h]
      exact Bool.false_ne_true
    · rw [hd, if_pos (show (!false) = true from rfl), andSetIpCmd_fst, andSetIpCmd_fst, h, Bool.not_true, Bool.and_false]
      exact Bool.false_ne_true
    · rw [hd, if_pos (show (!false) = true from rfl), andSetIpCmd_fst, h, Bool.not_true, Bool.and_false]
      exact Bool.false_ne_true

/-- What `processJSON` does when the first part ends with an error, without
actions and with whatever answer: it emits the error answer and terminates. -/
theorem processJSON_of_error (host : Host) (cmdObj : JsonObjectPtr) (code : Int)
    (message : Str) (aAnswer : JsonObjectPtr) (hcode : code ≠ 0)
    (h : processJSONCmd host cmdObj =
      { actions := [], answer := aAnswer, err := Error.new code message, ending := .returned }) :
    processJSON host cmdObj =
      { actions := [.puts (errorAnswer code message), .terminateApp 0], ending := .returned } := by
  unfold processJSON
  rw [h]
  simp [Error.new, hcode, answerAndTerminate, answer, errorAnswer]

/-- The first part of `processJSON` for a request with parameters and a command
name: the dispatcher on that name. -/
theorem processJSONCmd_routed (host : Host) (cmdObj params c : Json)
    (hparams : requestParams cmdObj = some params)
    (hcmd : params.get "cmd".toList = some c) :
    processJSONCmd host (some cmdObj) =
      handleJSONCmd host (c.stringValue host.json_str) params cmdObj := by
  unfold processJSONCmd
  simp only [hparams, checkStringParam_value host.json_str params _ c hcmd]

theorem handleJSONCmd_configrestoreapply (host : Host) (aParams aCmdObj : Json) :
    handleJSONCmd host "configrestoreapply".toList aParams aCmdObj =
      config_restore_apply host aParams := by
  unfold handleJSONCmd
  rw [if_neg (by decide), if_neg (by decide), if_neg (by decide), if_neg (by decide),
    if_pos rfl]

theorem handleJSONCmd_tzconfig (host : Host) (aParams aCmdObj : Json)
    (h : host.platform ≠ .digiesp) :
    handleJSONCmd host "tzconfig".toList aParams aCmdObj = timezoneconfig host aParams := by
  unfold handleJSONCmd
  rw [if_neg (by decide), if_neg (by decide), if_neg (by decide), if_neg (by decide),
    if_neg (by decide), if_pos ⟨rfl, h⟩]

theorem handleJSONCmd_ipconfig (host : Host) (aParams aCmdObj : Json) :
    handleJSONCmd host "ipconfig".toList aParams aCmdObj = ipconfig host aParams := by
  unfold handleJSONCmd
  rw [if_neg (by decide), if_neg (by decide), if_neg (by decide), if_neg (by decide),
    if_neg (by decide), if_neg (fun h => absurd h.1 (by decide)),
    if_neg (fun h => absurd h.1 (by decide)), if_pos rfl]

theorem handleJSONCmd_setpassword (host : Host) (aParams aCmdObj : Json) :
    handleJSONCmd host "setpassword".toList aParams aCmdObj = setpassword host aParams := by
  unfold handleJSONCmd
  rw [if_neg (by decide), if_neg (by decide), if_neg (by decide), if_neg (by decide),
    if_neg (by decide), if_neg (fun h => absurd h.1 (by decide)),
    if_neg (fun h => absurd h.1 (by decide)), if_neg (by decide), if_pos rfl]

theorem handleJSONCmd_factoryreset (host : Host) (aParams aCmdObj : Json) :
    handleJSONCmd host "factoryreset".toList aParams aCmdObj =
      factory_reset_from_ui host aParams := by
  unfold handleJSONCmd
  rw [if_neg (by decide), if_neg (by decide), if_neg (by decide), if_neg (by decide),
    if_neg (by decide), if_neg (fun h => absurd h.1 (by decide)),
    if_neg (fun h => absurd h.1 (by decide)), if_neg (by decide), if_neg (by decide),
    if_pos rfl]

theorem handleJSONCmd_property (host : Host) (aParams aCmdObj : Json) :
    handleJSONCmd host "property".toList aParams aCmdObj = property host aParams := by
  unfold handleJSONCmd
  rw [if_neg (by decide), if_neg (by decide), if_neg (by decide), if_neg (by decide),
    if_neg (by decide), if_neg (fun h => absurd h.1 (by decide)),
    if_neg (fun h => absurd h.1 (by decide)), if_neg (by decide), if_neg (by decide),
    if_neg (by decide), if_neg (by decide), if_neg (by decide), if_pos rfl]

theorem factory_reset_from_ui_invalid (host : Host) (aUriParams : Json)
    (h : ∀ o, aUriParams.get "mode".toList = some o →
      ¬(1 ≤ o.int32Value host.parse_int64 ∧ o.int32Value host.parse_int64 ≤ 3)) :
    factory_reset_from_ui host aUriParams =
      Handled.failed (Error.new 1 "Invalid or missing 'mode'".toList) := by
  unfold factory_reset_from_ui
  cases hm : aUriParams.get "mode".toList with
  | none => rfl
  | some o =>
    dsimp only
    rw [if_neg]
    intro hr
    exact h o hm ⟨hr.1, hr.2⟩

theorem config_restore_apply_invalid (host : Host) (aUriParams : Json)
    (h : ∀ o, aUriParams.get "mode".toList = some o →
      ¬(0 ≤ o.int32Value host.parse_int64 ∧ o.int32Value host.parse_int64 ≤ 3)) :
    config_restore_apply host aUriParams =
      Handled.failed (Error.new 1 "missing or wrong 'mode'".toList) := by
  unfold config_restore_apply
  cases hm : aUriParams.get "mode".toList with
  | none => rfl
  | some o =>
    dsimp only
    rw [if_neg]
    intro hr
    exact h o hm ⟨hr.1, hr.2⟩

theorem timezoneconfig_unknown (host : Host) (aUriParams o : Json)
    (ho : aUriParams.get "timezonename".toList = some o)
    (h : host.timezones.lookup (o.stringValue host.json_str) = none) :
    timezoneconfig host aUriParams =
      Handled.failed (Error.new 1 "Unknown time zone name".toList) := by
  unfold timezoneconfig
  rw [ho]
  dsimp only
  rw [h]

theorem setpassword_missing (host : Host) (aUriParams : Json)
    (h : aUriParams.get "password".toList = none) :
    setpassword host aUriParams = Handled.failed (Error.new 1 "missing password".toList) := by
  unfold setpassword
  rw [h]

/-- C19, as stated, fails: a `factoryreset` request whose mode is the JSON
value `true`, which is no number from 1 to 3, is read as the mode 1 and queues
the factory reset command; a `configrestoreapply` request whose mode is an empty
array, which is no number from 0 to 3, is read as the mode 0 and puts the
restore script in place of the process. Neither yields an error. -/
theorem coerced_mode_is_carried_out :
    (requestParams coercedResetRequest).bind (fun params => params.field "mode".toList)
      = some (.bool true) ∧
    (processJSONCmd (exampleHost .openwrt) (some coercedResetRequest)).actions =
      [.redLED true, .greenLED true,
        .fork_and_system "p44factoryreset 1".toList (.endApp false)] ∧
    (processJSONCmd (exampleHost .openwrt) (some coercedResetRequest)).err = none ∧
    (requestParams coercedApplyRequest).bind (fun params => params.field "mode".toList)
      = some (.arr []) ∧
    (processJSON (exampleHost .openwrt) (some coercedApplyRequest)).actions =
      [.execve "/bin/sh".toList
        ["sh".toList, "-c".toList, "p44configrestore --apply 0".toList]] ∧
    (processJSON (exampleHost .openwrt) (some coercedApplyRequest)).ending = .replaced :=
  ⟨rfl, rfl, rfl, rfl, rfl, rfl⟩

/-- C19, amended: with the parameters read the way the handlers read them (a
field that holds JSON null counts as absent, `mode` is read by the integer
conversion of the JSON library and `dhcp` by its boolean conversion), a request
that fails the validation of its handler is answered with an error, and nothing
else is done: no invocation is queued and no file is accessed, `processJSON`
only emits the error answer and terminates. This holds for `ipconfig` with a
`dhcp` field and an invalid address in a field it consults (`dnsip`, `dnsip2`
and, with DHCP off, `ipaddr`, `netmask`, `gatewayip`), with code 415; for
`factoryreset` with `mode` missing or read as an integer outside 1..3; for
`configrestoreapply` with `mode` missing or read as an integer outside 0..3; for
`tzconfig` with a zone name that is not in the table, on the builds that route
it, and for every `tzconfig` request on the build that does not, where the
error is that of an unknown command; and for `setpassword` without
`password`. -/
theorem validation_errors (host : Host) (cmdObj params c : Json)
    (hparams : requestParams cmdObj = some params)
    (hcmd : params.get "cmd".toList = some c) :
    (c.stringValue host.json_str = "ipconfig".toList →
      ∀ o, params.get "dhcp".toList = some o →
      (invalidIpField host params "dnsip".toList = true ∨
        invalidIpField host params "dnsip2".toList = true ∨
        (o.boolValue = false ∧
          (invalidIpField host params "ipaddr".toList = true ∨
           invalidIpField host params "netmask".toList = true ∨
           invalidIpField host params "gatewayip".toList = true))) →
      (processJSONCmd host (some cmdObj)).actions = [] ∧
      processJSON host (some cmdObj) =
        { actions := [.puts (errorAnswer 415 "Invalid IP address parameters".toList),
            .terminateApp 0],
          ending := .returned }) ∧
    (c.stringValue host.json_str = "factoryreset".toList →
      (∀ o, params.get "mode".toList = some o →
        ¬(1 ≤ o.int32Value host.parse_int64 ∧ o.int32Value host.parse_int64 ≤ 3)) →
      (processJSONCmd host (some cmdObj)).actions = [] ∧
      processJSON host (some cmdObj) =
        { actions := [.puts (errorAnswer 1 "Invalid or missing 'mode'".toList),
            .terminateApp 0],
          ending := .returned }) ∧
    (c.stringValue host.json_str = "configrestoreapply".toList →
      (∀ o, params.get "mode".toList = some o →
        ¬(0 ≤ o.int32Value host.parse_int64 ∧ o.int32Value host.parse_int64 ≤ 3)) →
      (processJSONCmd host (some cmdObj)).actions = [] ∧
      processJSON host (some cmdObj) =
        { actions := [.puts (errorAnswer 1 "missing or wrong 'mode'".toList),
            .terminateApp 0],
          ending := .returned }) ∧
    (c.stringValue host.json_str = "tzconfig".toList → host.platform ≠ .digiesp →
      ∀ o, params.get "timezonename".toList = some o →
      host.timezones.lookup (o.stringValue host.json_str) = none →
      (processJSONCmd host (some cmdObj)).actions = [] ∧
      processJSON host (some cmdObj) =
        { actions := [.puts (errorAnswer 1 "Unknown time zone name".toList),
            .terminateApp 0],
          ending := .returned }) ∧
    (c.stringValue host.json_str = "tzconfig".toList → host.platform = .digiesp →
      (processJSONCmd host (some cmdObj)).actions = [] ∧
      processJSON host (some cmdObj) =
        { actions := [.puts (errorAnswer 1 "Unknown 'cmd'".toList), .terminateApp 0],
          ending := .returned }) ∧
    (c.stringValue host.json_str = "setpassword".toList →
      params.get "password".toList = none →
      (processJSONCmd host (some cmdObj)).actions = [] ∧
      processJSON host (some cmdObj) =
        { actions := [.puts (errorAnswer 1 "missing password".toList), .terminateApp 0],
          ending := .returned }) := by
  have hroute := processJSONCmd_routed host cmdObj params c hparams hcmd
  refine ⟨?_, ?_, ?_, ?_, ?_, ?_⟩
  · intro hc o hdhcp hbad
    have hres := ipconfig_invalid host params o hdhcp hbad
    rw [← handleJSONCmd_ipconfig host params cmdObj, ← hc, ← hroute] at hres
    exact ⟨by rw [hres], processJSON_of_error host _ 415 _ _ (by decide) hres⟩
  · intro hc hmode
    have hres := factory_reset_from_ui_invalid host params hmode
    rw [← handleJSONCmd_factoryreset host params cmdObj, ← hc, ← hroute] at hres
    exact ⟨by rw [hres]; rfl, processJSON_of_failed host _ 1 _ (by decide) hres⟩
  · intro hc hmode
    have hres := config_restore_apply_invalid host params hmode
    rw [← handleJSONCmd_configrestoreapply host params cmdObj, ← hc, ← hroute] at hres
    exact ⟨by rw [hres]; rfl, processJSON_of_failed host _ 1 _ (by decide) hres⟩
  · intro hc hplat o ho hzone
    have hres := timezoneconfig_unknown host params o ho hzone
    rw [← handleJSONCmd_tzconfig host params cmdObj hplat, ← hc, ← hroute] at hres
    exact ⟨by rw [hres]; rfl, processJSON_of_failed host _ 1 _ (by decide) hres⟩
  · intro hc hplat
    have hres := handleJSONCmd_unknown host "tzconfig".toList params cmdObj
      (by rw [hplat]; decide)
    rw [← hc, ← hroute] at hres
    exact ⟨by rw [hres]; rfl, processJSON_of_failed host _ 1 _ (by decide) hres⟩
  · intro hc hpw
    have hres := setpassword_missing host params hpw
    rw [← handleJSONCmd_setpassword host params cmdObj, ← hc, ← hroute] at hres
    exact ⟨by rw [hres]; rfl, processJSON_of_failed host _ 1 _ (by decide) hres⟩

theorem validation_errors_witness :
    (processJSONCmd (exampleHost .openwrt)
      (some (.obj [("data".toList, badIpParams)]))).actions = [] ∧
    processJSON (exampleHost .openwrt) (some (.obj [("data".toList, badIpParams)])) =
      { actions := [.puts (errorAnswer 415 "Invalid IP address parameters".toList),
          .terminateApp 0],
        ending := .returned } :=
  (validation_errors (exampleHost .openwrt) (.obj [("data".toList, badIpParams)]) badIpParams
    (.str "ipconfig".toList) rfl rfl).1 rfl (.bool false) rfl
    (Or.inr (Or.inr ⟨rfl, Or.inl rfl⟩))

/-- C20: for every `property` request whose key contains `/` or `.`, whether it
reads, writes or deletes, the handler accesses no file and runs no other
action, and its answer is the object with the single field `result` holding
JSON null, which `processJSON` emits before it terminates; the internal reader
`getProperty` of such a key accesses no file and returns no value. -/
theorem property_key_with_path (host : Host) (cmdObj params c k : Json)
    (hparams : requestParams cmdObj = some params)
    (hcmd : params.get "cmd".toList = some c)
    (hc : c.stringValue host.json_str = "property".toList)
    (hkey : params.get "key".toList = some k)
    (hbad : '/' ∈ k.stringValue host.json_str ∨ '.' ∈ k.stringValue host.json_str) :
    processJSONCmd host (some cmdObj) = Handled.answered (.obj [("result".toList, .null)]) ∧
    processJSON host (some cmdObj) =
      { actions := [.puts (.obj [("result".toList, .null)]), .terminateApp 0],
        ending := .returned } ∧
    getProperty host (k.stringValue host.json_str) = ([], none) := by
  have hslash : hasSlashOrDot (k.stringValue host.json_str) = true := by
    unfold hasSlashOrDot
    rw [List.any_eq_true]
    rcases hbad with h | h
    · exact ⟨'/', h, by decide⟩
    · exact ⟨'.', h, by decide⟩
  have hres : processJSONCmd host (some cmdObj) =
      Handled.answered (.obj [("result".toList, .null)]) := by
    rw [processJSONCmd_routed host cmdObj params c hparams hcmd, hc, handleJSONCmd_property]
    unfold property
    rw [hkey]
    dsimp only
    rw [if_pos hslash]
    rfl
  refine ⟨hres, ?_, ?_⟩
  · unfold processJSON
    rw [hres]
    rfl
  · unfold getProperty
    rw [if_pos hslash]

theorem property_key_with_path_witness :
    processJSON (exampleHost .openwrt) (some (.obj [("data".toList, badPropertyParams)])) =
      { actions := [.puts (.obj [("result".toList, .null)]), .terminateApp 0],
        ending := .returned } :=
  (property_key_with_path (exampleHost .openwrt) (.obj [("data".toList, badPropertyParams)])
    badPropertyParams (.str "property".toList) (.str "a/b".toList) rfl rfl rfl rfl
    (Or.inl (by decide))).2.1

/-! ## The property store (C21) -/

/-- The handler of `property` for a request that sets a value under an accepted
key: one write of the JSON text of the value and a newline to the file of the
key, and the empty answer. -/
theorem property_set (host : Host) (aUriParams k v : Json)
    (hkey : aUriParams.get "key".toList = some k)
    (hok : hasSlashOrDot (k.stringValue host.json_str) = false)
    (hval : aUriParams.get "value".toList = some v) :
    property host aUriParams =
      { actions := [.string_tofile (propertyFile (k.stringValue host.json_str))
          (host.json_str v ++ "\n".toList)],
        answer := some emptyAnswer, err := none, ending := .returned } := by
  unfold property
  rw [hkey]
  dsimp only
  rw [if_neg (by rw [hok]; exact Bool.false_ne_true),
    Json.getEx_of_get aUriParams _ false v hval]
  rfl

/-- Writing the same content to the same file a second time changes nothing. -/
theorem filesAfter_write_twice (host host2 : Host) (path content : Str) (files : FileStore)
    (hwrite : host2.string_tofile = host.string_tofile) :
    filesAfter host2 [.string_tofile path content]
        (filesAfter host [.string_tofile path content] files) =
      filesAfter host [.string_tofile path content] files := by
  unfold filesAfter
  simp only [List.foldl_cons, List.foldl_nil, Action.onFiles, hwrite]
  by_cases hw : Error.isOK (host.string_tofile path content) = true
  · simp only [hw, if_true]
    funext p
    by_cases hp : p = path
    · simp only [hp, if_true]
    · simp only [hp, if_false]
  · simp only [hw, Bool.false_eq_true, if_false]

/-- C21: handling the same `property` request that sets a value other than
JSON null under an accepted key (one without `/` and `.`) twice leaves the
files as handling it once does: the second handling, in whatever state the
first has left, does the same single write as the first, of the JSON text of
the value and a newline to `/flash/p44_property_` and the key in small letters;
after both the files are those after the first, every other file is as before
the first, and both handlings return the same answer, the empty one. -/
theorem property_set_idempotent (host host2 : Host) (aUriParams k v : Json)
    (files : FileStore)
    (hkey : aUriParams.get "key".toList = some k)
    (hok : hasSlashOrDot (k.stringValue host.json_str) = false)
    (hval : aUriParams.get "value".toList = some v)
    (hjson : host2.json_str = host.json_str)
    (hwrite : host2.string_tofile = host.string_tofile) :
    (property host aUriParams).actions =
      [.string_tofile
        ("/flash/p44_property_".toList ++ lowerCase (k.stringValue host.json_str))
        (host.json_str v ++ "\n".toList)] ∧
    (property host2 aUriParams).actions = (property host aUriParams).actions ∧
    (property host aUriParams).answer = some emptyAnswer ∧
    (property host2 aUriParams).answer = (property host aUriParams).answer ∧
    filesAfter host2 (property host2 aUriParams).actions
        (filesAfter host (property host aUriParams).actions files) =
      filesAfter host (property host aUriParams).actions files ∧
    (∀ p, p ≠ "/flash/p44_property_".toList ++ lowerCase (k.stringValue host.json_str) →
      filesAfter host (property host aUriParams).actions files p = files p) := by
  have h1 := property_set host aUriParams k v hkey hok hval
  have h2 := property_set host2 aUriParams k v hkey (by rw [hjson]; exact hok) hval
  rw [hjson] at h2
  have hfile : propertyFile (k.stringValue host.json_str) =
      "/flash/p44_property_".toList ++ lowerCase (k.stringValue host.json_str) := rfl
  rw [h1, h2]
  refine ⟨by rw [hfile], rfl, rfl, rfl, ?_, ?_⟩
  · exact filesAfter_write_twice host host2 _ _ files hwrite
  · intro p hp
    unfold filesAfter
    simp only [List.foldl_cons, List.foldl_nil, Action.onFiles]
    by_cases hw : Error.isOK (host.string_tofile
      (propertyFile (k.stringValue host.json_str)) (host.json_str v ++ "\n".toList)) = true
    · simp only [hw, if_true]
      exact if_neg (hfile ▸ hp)
    · simp only [hw, Bool.false_eq_true, if_false]

theorem property_set_idempotent_witness :
    filesAfter (exampleHost .openwrt) (property (exampleHost .openwrt) setPropertyParams).actions
        (filesAfter (exampleHost .openwrt)
          (property (exampleHost .openwrt) setPropertyParams).actions (fun _ => none)) =
      filesAfter (exampleHost .openwrt) (property (exampleHost .openwrt) setPropertyParams).actions
        (fun _ => none) ∧
    (property (exampleHost .openwrt) setPropertyParams).actions =
      [.string_tofile "/flash/p44_property_color".toList "5\n".toList] :=
  ⟨(property_set_idempotent (exampleHost .openwrt) (exampleHost .openwrt) setPropertyParams
      (.str "Color".toList) (.int 5) (fun _ => none) rfl rfl rfl rfl rfl).2.2.2.2.1,
   (property_set_idempotent (exampleHost .openwrt) (exampleHost .openwrt) setPropertyParams
      (.str "Color".toList) (.int 5) (fun _ => none) rfl rfl rfl rfl rfl).1⟩

/-! ## The custom overrides file (C22) -/

theorem identifyDynamically_rank (env : Env) : (identifyDynamically env).rank ≤ 4 := by
  unfold identifyDynamically
  dsimp only
  split_ifs
  · exact Nat.le_trans (processProductSpecifics_rank env _) (by decide)
  · cases getDef (readDefsFrom env.fs (env.defspath ++ "p44platform.defs".toList)
      (setDefDefaults env DefsMap.empty).2).2 "PLATFORM_IDENTIFIER_GETTER".toList with
    | none => exact Nat.le_succ_of_le (processPlatformSpecifics_rank env _)
    | some d => simp [Outcome.rank, Getter.rank]

/-- The variant stage gives a key that the custom overrides file defines, and
that is not one of the unit keys, the value of the last definition in that
file. -/
theorem variantDefs_custom (env : Env) (defs : DefsMap) (K : Str) (hK : K ∉ unitKeys)
    (hdef : fileDefinitionsOf env.fs customDefsFile K ≠ []) :
    variantDefs env defs K = (fileDefinitionsOf env.fs customDefsFile K).getLast? := by
  have h1 : K ≠ "UNIT_SERIALNO".toList := fun h => hK (h ▸ by decide)
  have h2 : K ≠ "UNIT_MAC_DECIMAL".toList := fun h => hK (h ▸ by decide)
  have h3 : K ≠ "UNIT_MACADDRESS".toList := fun h => hK (h ▸ by decide)
  have h4 : K ≠ "STATUS_IPV4".toList := fun h => hK (h ▸ by decide)
  have h5 : K ≠ "UNIT_HOSTNAME".toList := fun h => hK (h ▸ by decide)
  obtain ⟨value, hlast⟩ : ∃ value, (fileDefinitionsOf env.fs customDefsFile K).getLast?
      = some value := by
    cases hl : (fileDefinitionsOf env.fs customDefsFile K).getLast? with
    | none => exact absurd (List.getLast?_eq_none_iff.mp hl) hdef
    | some value => exact ⟨value, rfl⟩
  have hcustom : ∀ d : DefsMap,
      (readDefsFrom env.fs (FLASH_PATH ++ "/p44custom.defs".toList) d).2 K = some value := by
    intro d
    rw [readDefsFrom_apply]
    change ((fileDefinitionsOf env.fs customDefsFile K).getLast?).or (d K) = some value
    rw [hlast]
    rfl
  rw [hlast]
  unfold variantDefs setDerivedDefs
  simp only [setDefDefault_apply, assign_other _ _ _ _ h5,
    assign_other _ _ _ _ h4, assign_other _ _ _ _ h3, assign_other _ _ _ _ h2,
    assign_other _ _ _ _ h1, hcustom]
  split_ifs <;> rfl

/-- The unit keys that the variant stage computes from the hardware address. -/
theorem variantDefs_unit (env : Env) (defs : DefsMap) :
    variantDefs env defs "UNIT_SERIALNO".toList = some (fmt_lld (serial env.macAddress)) ∧
    variantDefs env defs "UNIT_MAC_DECIMAL".toList = some (fmt_lld (env.macAddress % 2 ^ 64)) ∧
    variantDefs env defs "UNIT_MACADDRESS".toList
      = some (macStrLoop (env.macAddress % 2 ^ 64) 0 6 []) ∧
    variantDefs env defs "STATUS_IPV4".toList
      = some (dottedDecimal (env.ipv4Address % 2 ^ 32)) ∧
    variantDefs env defs "UNIT_HOSTNAME".toList
      = some (((variantDefs env defs "PRODUCT_HOSTPREFIX".toList).getD "unknown".toList)
          ++ "_".toList ++ fmt_lld (serial env.macAddress)) := by
  unfold variantDefs setDerivedDefs
  simp only [setDefDefault_apply, getDef]
  refine ⟨?_, ?_, ?_, ?_, ?_⟩
  rotate_left 3
  · rw [if_neg (by decide), if_neg (by decide), assign_other _ _ _ _ (by decide), assign_same]
    rfl
  · rw [if_neg (by decide), if_neg (by decide), assign_same, if_neg (by decide),
      if_neg (by decide)]
    simp only [assign_other _ _ _ _
        (show "PRODUCT_HOSTPREFIX".toList ≠ "UNIT_HOSTNAME".toList from by decide),
      assign_other _ _ _ _
        (show "PRODUCT_HOSTPREFIX".toList ≠ "STATUS_IPV4".toList from by decide)]
  · rw [if_neg (by decide), if_neg (by decide), assign_other _ _ _ _ (by decide),
      assign_other _ _ _ _ (by decide), assign_other _ _ _ _ (by decide),
      assign_other _ _ _ _ (by decide), assign_same]
  · rw [if_neg (by decide), if_neg (by decide), assign_other _ _ _ _ (by decide),
      assign_other _ _ _ _ (by decide), assign_other _ _ _ _ (by decide), assign_same]
  · rw [if_neg (by decide), if_neg (by decide), assign_other _ _ _ _ (by decide),
      assign_other _ _ _ _ (by decide), assign_same]

theorem checkProducer_from_variant (env : Env) (defs d : DefsMap)
    (h : checkProducer env defs = .called d) : ∃ d0, d = variantDefs env d0 := by
  unfold checkProducer at h
  dsimp only at h
  cases hg : getDef (producerDefs env defs) "PLATFORM_VARIANT_GETTER".toList with
  | none =>
    rw [hg] at h
    exact ⟨_, (Outcome.called.inj h).symm⟩
  | some g =>
    rw [hg] at h
    cases h

theorem processProductSpecifics_from_variant (env : Env) (defs d : DefsMap)
    (h : processProductSpecifics env defs = .called d) : ∃ d0, d = variantDefs env d0 := by
  unfold processProductSpecifics at h
  dsimp only at h
  cases hg : getDef (productDefs env defs) "PRODUCER_GETTER".toList with
  | none =>
    rw [hg] at h
    exact checkProducer_from_variant env _ d h
  | some g =>
    rw [hg] at h
    cases h

theorem processPlatformSpecifics_from_variant (env : Env) (defs d : DefsMap)
    (h : processPlatformSpecifics env defs = .called d) : ∃ d0, d = variantDefs env d0 := by
  unfold processPlatformSpecifics at h
  dsimp only at h
  cases hg : getDef (platformDefs env defs) "PLATFORM_PRODUCT_IDENTIFIER_GETTER".toList with
  | none =>
    rw [hg] at h
    exact processProductSpecifics_from_variant env _ d h
  | some g =>
    rw [hg] at h
    cases h

theorem queryDone_from_variant (env : Env) (cont : Getter) (defs d : DefsMap) (aAnswer : Str)
    (h : queryDone env cont defs aAnswer = .called d) : ∃ d0, d = variantDefs env d0 := by
  cases cont with
  | platformid => exact processPlatformSpecifics_from_variant env _ d h
  | productid => exact processProductSpecifics_from_variant env _ d h
  | producer => exact checkProducer_from_variant env _ d h
  | variant => exact ⟨_, (Outcome.called.inj h).symm⟩

theorem identifyDynamically_from_variant (env : Env) (d : DefsMap)
    (h : identifyDynamically env = .called d) : ∃ d0, d = variantDefs env d0 := by
  unfold identifyDynamically at h
  dsimp only at h
  split_ifs at h
  · exact processProductSpecifics_from_variant env _ d h
  · cases hg : getDef (readDefsFrom env.fs (env.defspath ++ "p44platform.defs".toList)
      (setDefDefaults env DefsMap.empty).2).2 "PLATFORM_IDENTIFIER_GETTER".toList with
    | none =>
      rw [hg] at h
      exact processPlatformSpecifics_from_variant env _ d h
    | some g =>
      rw [hg] at h
      cases h

/-- The store with which the main loop reaches the completion callback is one
that the variant stage has left. -/
theorem mainLoop_from_variant (env : Env) (n : Nat) (o : Outcome)
    (ho : ∀ d, o = .called d → ∃ d0, d = variantDefs env d0) (d : DefsMap)
    (h : mainLoop env n o = .called d) : ∃ d0, d = variantDefs env d0 := by
  induction n generalizing o with
  | zero => exact ho d h
  | succ n ih =>
    cases o with
    | called d1 => exact ho d h
    | forked cmd cont d1 =>
      exact ih _ (fun d2 h2 => queryDone_from_variant env cont d1 d2 _ h2) h

/-- The whole identification ends with the completion callback, on a store that
the variant stage has left. -/
theorem identify_from_variant (env : Env) :
    ∃ d0, identify env = .called (variantDefs env d0) := by
  obtain ⟨d, hd⟩ := mainLoop_called env 4 (identifyDynamically env)
    (identifyDynamically_rank env)
  obtain ⟨d0, hd0⟩ := mainLoop_from_variant env 4 (identifyDynamically env)
    (identifyDynamically_from_variant env) d hd
  exact ⟨d0, by rw [← hd0]; exact hd⟩

/-- C22, as stated, fails: the custom overrides file gives `UNIT_SERIALNO` the
value `1`, and the store handed to the completion callback has for it the
serial number computed from the hardware address. -/
theorem custom_serial_overridden :
    fileDefinitionsOf unitEnv.fs customDefsFile "UNIT_SERIALNO".toList = ["1".toList] ∧
    (identify unitEnv).resultAt "UNIT_SERIALNO".toList = some "34747478".toList := by
  decide

/-- C22, amended: every key that the custom overrides file defines, other than
the unit keys `UNIT_SERIALNO`, `UNIT_MAC_DECIMAL`, `UNIT_MACADDRESS`,
`STATUS_IPV4` and `UNIT_HOSTNAME`, has in the store handed to the completion
callback the value of its last definition in that file, whatever the defaults,
the other defs files and the getters supply for it; the five unit keys are
assigned after the file is merged and always hold the computed values: the
serial number of the hardware address, the hardware address in decimal and in
colon separated form, the network address in dotted decimal form, and the host
prefix of the store (`unknown` without one), an underscore and the serial
number. -/
theorem custom_overrides_precedence (env : Env) (K : Str) (hK : K ∉ unitKeys)
    (hdef : fileDefinitionsOf env.fs customDefsFile K ≠ []) :
    (∃ defs, identify env = .called defs) ∧
    (identify env).resultAt K = (fileDefinitionsOf env.fs customDefsFile K).getLast? ∧
    (identify env).resultAt "UNIT_SERIALNO".toList
      = some (fmt_lld (serial env.macAddress)) ∧
    (identify env).resultAt "UNIT_MAC_DECIMAL".toList
      = some (fmt_lld (env.macAddress % 2 ^ 64)) ∧
    (identify env).resultAt "UNIT_MACADDRESS".toList
      = some (macStrLoop (env.macAddress % 2 ^ 64) 0 6 []) ∧
    (identify env).resultAt "STATUS_IPV4".toList
      = some (dottedDecimal (env.ipv4Address % 2 ^ 32)) ∧
    (identify env).resultAt "UNIT_HOSTNAME".toList
      = some ((((identify env).resultAt "PRODUCT_HOSTPREFIX".toList).getD "unknown".toList)
          ++ "_".toList ++ fmt_lld (serial env.macAddress)) := by
  obtain ⟨d0, hd0⟩ := identify_from_variant env
  obtain ⟨u1, u2, u3, u4, u5⟩ := variantDefs_unit env d0
  rw [hd0]
  exact ⟨⟨_, rfl⟩, variantDefs_custom env d0 K hK hdef, u1, u2, u3, u4, u5⟩

theorem custom_overrides_precedence_witness :
    (identify unitEnv).resultAt "PRODUCT_MODEL".toList = some "custom-model".toList ∧
    (identify unitEnv).resultAt "STATUS_IPV4".toList = some "192.168.0.1".toList ∧
    (identify unitEnv).resultAt "UNIT_HOSTNAME".toList = some "unknown_34747478".toList :=
  ⟨(custom_overrides_precedence unitEnv "PRODUCT_MODEL".toList (by decide) (by decide)).2.1,
   (custom_overrides_precedence unitEnv "PRODUCT_MODEL".toList
      (by decide) (by decide)).2.2.2.2.2.1.trans (by decide),
   (custom_overrides_precedence unitEnv "PRODUCT_MODEL".toList
      (by decide) (by decide)).2.2.2.2.2.2.trans (by decide)⟩

/-! ## The sequence of the pipeline (C23) -/

theorem stagesFrom_cons (cont : Getter) (r : Nat) (h : r + 1 ≤ cont.rank) :
    List.Sublist (cont :: stagesFrom r) (stagesFrom cont.rank) := by
  cases cont with
  | platformid =>
    have hr : r ≤ 3 := by simpa [Getter.rank] using h
    interval_cases r <;> decide
  | productid =>
    have hr : r ≤ 2 := by simpa [Getter.rank] using h
    interval_cases r <;> decide
  | producer =>
    have hr : r ≤ 1 := by simpa [Getter.rank] using h
    interval_cases r <;> decide
  | variant =>
    have hr : r ≤ 0 := by simpa [Getter.rank] using h
    interval_cases r
    decide

theorem stagesFrom_sublist (r : Nat) : List.Sublist (stagesFrom r) pipelineOrder := by
  rcases r with _ | _ | _ | _ | r
  · decide
  · decide
  · decide
  · decide
  · exact List.Sublist.refl _

/-- The continuations of the invocations of a run are among those of the
stages that can still follow, in their order. -/
theorem invocations_sublist (env : Env) (n : Nat) (o : Outcome) :
    List.Sublist ((invocations env n o).map Prod.snd) (stagesFrom o.rank) := by
  induction n generalizing o with
  | zero =>
    cases o with
    | called d => exact List.nil_sublist _
    | forked cmd cont d =>
      exact (List.Sublist.cons₂ cont (List.nil_sublist (stagesFrom 0))).trans
        (stagesFrom_cons cont 0 (by cases cont <;> decide))
  | succ n ih =>
    cases o with
    | called d => exact List.nil_sublist _
    | forked cmd cont d =>
      exact (List.Sublist.cons₂ cont (ih (queryDone env cont d (env.captured cmd)))).trans
        (stagesFrom_cons cont _ (queryDone_rank env cont d (env.captured cmd)))

/-- Fuel beyond the continuations still possible changes nothing. -/
theorem mainLoop_fuel (env : Env) (n m : Nat) (o : Outcome) (hn : o.rank ≤ n)
    (hm : o.rank ≤ m) : mainLoop env n o = mainLoop env m o := by
  induction n generalizing m o with
  | zero =>
    cases o with
    | called d => cases m <;> rfl
    | forked cmd cont d => cases cont <;> simp [Outcome.rank, Getter.rank] at hn
  | succ n ih =>
    cases o with
    | called d => cases m <;> rfl
    | forked cmd cont d =>
      have hr := queryDone_rank env cont d (env.captured cmd)
      simp only [Outcome.rank] at hn hm
      cases m with
      | zero => cases cont <;> simp [Getter.rank] at hm
      | succ m => exact ih m _ (by omega) (by omega)

theorem invocations_fuel (env : Env) (n m : Nat) (o : Outcome) (hn : o.rank ≤ n)
    (hm : o.rank ≤ m) : invocations env n o = invocations env m o := by
  induction n generalizing m o with
  | zero =>
    cases o with
    | called d => cases m <;> rfl
    | forked cmd cont d => cases cont <;> simp [Outcome.rank, Getter.rank] at hn
  | succ n ih =>
    cases o with
    | called d => cases m <;> rfl
    | forked cmd cont d =>
      have hr := queryDone_rank env cont d (env.captured cmd)
      simp only [Outcome.rank] at hn hm
      cases m with
      | zero => cases cont <;> simp [Getter.rank] at hm
      | succ m =>
        show (cmd, cont) :: invocations env n _ = (cmd, cont) :: invocations env m _
        rw [ih m _ (by omega) (by omega)]

/-! ## Flags in the store (C24) -/

theorem tolower_eq_t (c : Char) : tolower c = 't' ↔ c = 't' ∨ c = 'T' := by
  unfold tolower Char.toLower
  dsimp only
  constructor
  · intro h
    split_ifs at h with hc
    · right
      obtain ⟨h1, h2⟩ := hc
      have hn : c.toNat = 84 := by
        generalize c.toNat = k at h h1 h2
        interval_cases k <;> first | rfl | (exfalso; revert h; decide)
      rw [← Char.ofNat_toNat c, hn]
    · left
      exact h
  · rintro (rfl | rfl) <;> decide

theorem tolower_eq_y (c : Char) : tolower c = 'y' ↔ c = 'y' ∨ c = 'Y' := by
  unfold tolower Char.toLower
  dsimp only
  constructor
  · intro h
    split_ifs at h with hc
    · right
      obtain ⟨h1, h2⟩ := hc
      have hn : c.toNat = 89 := by
        generalize c.toNat = k at h h1 h2
        interval_cases k <;> first | rfl | (exfalso; revert h; decide)
      rw [← Char.ofNat_toNat c, hn]
    · left
      exact h
  · rintro (rfl | rfl) <;> decide

/-- C24, at the failing input: the flags are defined with the values `tbd` and
`yes`, which are none of `ok`, `T`, `t`, `Y`, `y` and `1`, and `isDefTrue`
returns true for both. -/
theorem isDefTrue_other_values :
    getDef flagDefs "DRAFT".toList = some "tbd".toList ∧
    "tbd".toList ∉ ["ok".toList, "T".toList, "t".toList, "Y".toList, "y".toList, "1".toList] ∧
    isDefTrue flagDefs "DRAFT".toList = true ∧
    getDef flagDefs "FLAG".toList = some "yes".toList ∧
    "yes".toList ∉ ["ok".toList, "T".toList, "t".toList, "Y".toList, "y".toList, "1".toList] ∧
    isDefTrue flagDefs "FLAG".toList = true := by
  refine ⟨rfl, by decide, rfl, rfl, by decide, rfl⟩

/-- What `isDefTrue(key)` computes: it returns true exactly when the key is
defined and its value is `1` or `ok` or starts with one of the letters `t`,
`T`, `y` and `Y`; it returns false for an undefined key, for the empty value
and for every other value. -/
theorem isDefTrue_iff (defs : DefsMap) (aKey : Str) :
    isDefTrue defs aKey = true ↔
      ∃ d, getDef defs aKey = some d ∧
        (d = "1".toList ∨ d = "ok".toList ∨
          ∃ c rest, d = c :: rest ∧ (c = 't' ∨ c = 'T' ∨ c = 'y' ∨ c = 'Y')) := by
  unfold isDefTrue
  cases hd : getDef defs aKey with
  | none =>
    constructor
    · intro h
      cases h
    · rintro ⟨d, h, _⟩
      cases h
  | some d =>
    cases d with
    | nil =>
      constructor
      · intro h
        cases h
      · rintro ⟨d, h, h1 | h1 | ⟨c, rest, h1, _⟩⟩
        · cases h
          cases h1
        · cases h
          cases h1
        · cases h
          cases h1
    | cons c rest =>
      dsimp only
      rw [Bool.or_eq_true, Bool.or_eq_true, Bool.or_eq_true, beq_iff_eq, beq_iff_eq,
        beq_iff_eq, beq_iff_eq, tolower_eq_t, tolower_eq_y]
      constructor
      · rintro (((h | h) | h) | h)
        · exact ⟨_, rfl, Or.inl h⟩
        · exact ⟨_, rfl, Or.inr (Or.inl h)⟩
        · exact ⟨_, rfl, Or.inr (Or.inr ⟨c, rest, rfl, by tauto⟩)⟩
        · exact ⟨_, rfl, Or.inr (Or.inr ⟨c, rest, rfl, by tauto⟩)⟩
      · rintro ⟨d, h, h1 | h1 | ⟨c1, rest1, h1, h2⟩⟩
        · cases h
          exact Or.inl (Or.inl (Or.inl h1))
        · cases h
          exact Or.inl (Or.inl (Or.inr h1))
        · cases h
          cases h1
          tauto

theorem isDefTrue_examples :
    isDefTrue flagDefs "OTHER".toList = true ∧ isDefTrue flagDefs "MISSING".toList = false :=
  ⟨(isDefTrue_iff flagDefs "OTHER".toList).2
      ⟨"T".toList, rfl, Or.inr (Or.inr ⟨'T', [], rfl, Or.inr (Or.inl rfl)⟩)⟩,
   Bool.eq_false_iff.mpr (fun h => by
      obtain ⟨d, hd, _⟩ := (isDefTrue_iff flagDefs "MISSING".toList).1 h
      cases hd)⟩

/-! ## The serial number and the hardware address (C25) -/

/-- With `unsigned long` 64 bits wide, `macFromSerial` of a serial number made of
a vendor code 1, 2 or 3 and 24 low bits is the vendor part of that code above
the low bits. -/
theorem macFromSerial_of_code (code low : Nat) (hlow : low < 2 ^ 24)
    (hcode : code = 1 ∨ code = 2 ∨ code = 3) :
    macFromSerial 64 (code * 2 ^ 24 + low) =
      (if code = 1 then 0x00409D else if code = 2 then 0xB827EB else 0x40A36B) * 2 ^ 24
        + low := by
  have e1 : (code * 2 ^ 24 + low) % 2 ^ 64 = code * 2 ^ 24 + low :=
    Nat.mod_eq_of_lt (by rcases hcode with h | h | h <;> subst h <;> omega)
  have e2 : (code * 2 ^ 24 + low) >>> 24 = code := by
    rw [Nat.shiftRight_eq_div_pow]
    omega
  have e3 : (code * 2 ^ 24 + low) % 2 ^ 24 = low := by omega
  unfold macFromSerial
  simp only [e1, e2]
  rcases hcode with h | h | h
  · subst h
    rw [if_pos rfl, if_pos rfl, show (0x00409D <<< 24) % 2 ^ 64 = 0x00409D <<< 24 from by decide,
      low_or_code, e3]
  · subst h
    rw [if_neg (by decide), if_pos rfl, if_neg (by decide), if_pos rfl,
      show (0xB827EB <<< 24) % 2 ^ 64 = 0xB827EB <<< 24 from by decide, low_or_code, e3]
  · subst h
    rw [if_neg (by decide), if_neg (by decide), if_pos rfl, if_neg (by decide),
      if_neg (by decide), show (0x40A36B <<< 24) % 2 ^ 64 = 0x40A36B <<< 24 from by decide,
      low_or_code, e3]

/-- With `unsigned long` 64 bits wide, `macFromSerial` gives back a 48 bit
hardware address with one of the three known vendor parts from its serial
number. -/
theorem macFromSerial_serial (mac : Nat) (h : mac < 2 ^ 48)
    (hp : mac / 2 ^ 24 = 0x00409D ∨ mac / 2 ^ 24 = 0xB827EB ∨ mac / 2 ^ 24 = 0x40A36B) :
    macFromSerial 64 (serial mac) = mac := by
  have hlow : mac % 2 ^ 24 < 2 ^ 24 := Nat.mod_lt _ (by norm_num)
  rw [serial_eq mac h]
  rcases hp with hp | hp | hp
  · rw [hp, show vendorCode 0x00409D = 1 from by decide,
      macFromSerial_of_code 1 _ hlow (Or.inl rfl), if_pos rfl]
    omega
  · rw [hp, show vendorCode 0xB827EB = 2 from by decide,
      macFromSerial_of_code 2 _ hlow (Or.inr (Or.inl rfl)), if_neg (by decide), if_pos rfl]
    omega
  · rw [hp, show vendorCode 0x40A36B = 3 from by decide,
      macFromSerial_of_code 3 _ hlow (Or.inr (Or.inr rfl)), if_neg (by decide),
      if_neg (by decide)]
    omega

/-- With `unsigned long` 32 bits wide the shifted vendor part loses its upper
bits, and the address of the example does not come back. -/
theorem macFromSerial_ul32 :
    macFromSerial 32 (serial 0xB827EB123456) = 0xEB123456 := by
  decide

/-- C25: with `unsigned long` 64 bits wide, for every 48 bit hardware address
whose vendor part is `00:40:9D`, `B8:27:EB` or `40:A3:6B`, `macFromSerial` of
the serial number that `serial()` computes for the address is the address
itself; hence two such addresses with the same serial number are the same. -/
theorem serial_round_trip (mac mac2 : Nat) (h : mac < 2 ^ 48)
    (hp : mac / 2 ^ 24 = 0x00409D ∨ mac / 2 ^ 24 = 0xB827EB ∨ mac / 2 ^ 24 = 0x40A36B) :
    macFromSerial 64 (serial mac) = mac ∧
    (mac2 < 2 ^ 48 →
      (mac2 / 2 ^ 24 = 0x00409D ∨ mac2 / 2 ^ 24 = 0xB827EB ∨ mac2 / 2 ^ 24 = 0x40A36B) →
      serial mac2 = serial mac → mac2 = mac) := by
  refine ⟨macFromSerial_serial mac h hp, fun h2 hp2 heq => ?_⟩
  rw [← macFromSerial_serial mac2 h2 hp2, heq, macFromSerial_serial mac h hp]

theorem serial_round_trip_witness :
    macFromSerial 64 (serial 0xB827EB123456) = 0xB827EB123456 :=
  (serial_round_trip 0xB827EB123456 0 (by norm_num) (Or.inr (Or.inl (by norm_num)))).1

/-! ## Variables in captured output (C26) -/

theorem not_mem_takeWhile_ne (c : Char) (l : Str) :
    c ∉ l.takeWhile (fun x => x != c) := by
  induction l with
  | nil => simp
  | cons a rest ih =>
    rw [List.takeWhile_cons]
    by_cases ha : a = c
    · subst ha
      simp
    · have hne : (a != c) = true := by simpa using ha
      rw [if_pos hne]
      intro hmem
      rcases List.mem_cons.mp hmem with h | h
      · exact ha h.symm
      · exact ih h

/-- The result of `getVar` never contains a newline. -/
theorem getVar_no_newline (aStr aVarName : Str) : '\n' ∉ getVar aStr aVarName := by
  unfold getVar
  dsimp only
  cases afterFirst (aVarName ++ "=".toList) aStr with
  | none => simp
  | some rest => exact not_mem_takeWhile_ne '\n' rest

/-- C26, at the failing input: in a text of two lines whose first key ends in
`ssid`, and in one whose first value contains `ssid=`, the first line with the
key `ssid` gives the value `home`, and `getVar` returns what follows the first
place where `ssid=` stands, `guest` and `x`. -/
theorem getVar_matches_inside_line :
    lineValue suffixKeyText "ssid".toList = some "home".toList ∧
    getVar suffixKeyText "ssid".toList = "guest".toList ∧
    lineValue nameInValueText "ssid".toList = some "home".toList ∧
    getVar nameInValueText "ssid".toList = "x".toList := by
  decide

/-! ## A command that is JSON null (C27) -/

/-- C27, at the failing input: for parameters whose field `cmd` holds JSON
null the lookup reports the parameter as found and delivers no object, and
`checkStringParam` dereferences it: `processJSON` ends there, without an
answer. -/
theorem null_cmd_dereferenced :
    checkParam (requestParams nullCmdRequest) "cmd".toList = (true, none) ∧
    checkStringParam (exampleHost .openwrt).json_str (requestParams nullCmdRequest)
      "cmd".toList = .nullDeref ∧
    (processJSON (exampleHost .openwrt) (some nullCmdRequest)).actions = [] ∧
    (processJSON (exampleHost .openwrt) (some nullCmdRequest)).ending = .nullDeref :=
  ⟨rfl, rfl, rfl, rfl⟩

/-! ## Alert files (C28) -/

/-- C28, at the failing input: `newAlert` takes the identifier `a.b` from the
alert, writes the file `alert_a.b` and returns `a.b`; `confirmAlert` of `a.b`
unlinks nothing, so the file stays. -/
theorem dotted_alert_stays :
    (alert_from_ui (exampleHost .openwrt) dottedAlertParams).actions =
      [.mkdir "/flash/p44alerts/".toList,
        .string_tofile "/flash/p44alerts/alert_a.b".toList
          ((exampleHost .openwrt).json_str dottedAlert)] ∧
    (alert_from_ui (exampleHost .openwrt) dottedAlertParams).answer =
      some (makeAnswer (some (.str "a.b".toList))) ∧
    hasSlashOrDot (newAlert (exampleHost .openwrt) dottedAlert).2 = true ∧
    confirmAlert (exampleHost .openwrt) "a.b".toList = ([], false) ∧
    (alert_from_ui (exampleHost .openwrt) dottedConfirmParams).actions = [] ∧
    (filesAfter (exampleHost .openwrt)
      ((alert_from_ui (exampleHost .openwrt) dottedAlertParams).actions ++
        (alert_from_ui (exampleHost .openwrt) dottedConfirmParams).actions)
      (fun _ => none) "/flash/p44alerts/alert_a.b".toList).isSome = true :=
  ⟨rfl, rfl, rfl, rfl, rfl, rfl⟩

/-! ## The command line of the wifi settings (C29) -/

/-- C29, at the failing input: a network name with single quotes ends the
quoted argument, and the command line that `wificonfig` hands to the shell on
the target build has a command of its own between the call that sets the name
and the commit. -/
theorem wificonfig_quote_ends_argument :
    (wificonfig (exampleHost .openwrt) quoteSsidParams).actions =
      [.fork_and_system
        " p44wificonf cli_ssid 'x'; reboot; ''; p44wificonf commit now".toList .cfgset_done] :=
  rfl

/-! ## Firmware versions (C30) -/

/-- C30, at the failing input: the product of the first part 215 and 10000000
does not fit an `int`; with the usual wrap the comparable version of
`215.0.0.0` is negative and below that of `214.0.0.0`, and `configPrepared`
reports `oldfirmware` false for a running version `214.0.0.0` and an archive of
version `215.0.0.0`. -/
theorem comparableVersion_wraps :
    comparableVersion "214.0.0.0".toList = 2140000000 ∧
    comparableVersion "215.0.0.0".toList = -2144967296 ∧
    ¬(comparableVersion "214.0.0.0".toList < comparableVersion "215.0.0.0".toList) ∧
    (configPreparedResult oldFirmwareHost "/tmp/prep\n".toList).get "oldfirmware".toList
      = some (.bool false) ∧
    (configPreparedResult oldFirmwareHost "/tmp/prep\n".toList).get "version".toList
      = some (.str "215.0.0.0".toList) := by
  refine ⟨by decide, by decide, by decide, rfl, rfl⟩

/-! ### Versions whose products fit an `int` -/

theorem isDigit_props (c : Char) (h : c.isDigit = true) :
    isspace c = false ∧ c ≠ '-' ∧ c ≠ '+' ∧ (c != '.') = true := by
  refine ⟨?_, ?_, ?_, ?_⟩
  · cases hs : isspace c with
    | false => rfl
    | true =>
      exfalso
      simp only [isspace, Bool.or_eq_true, decide_eq_true_eq] at hs
      rcases hs with ((((hs | hs) | hs) | hs) | hs) | hs <;> (subst hs; revert h; decide)
  · rintro rfl
    revert h
    decide
  · rintro rfl
    revert h
    decide
  · cases hd : (c != '.') with
    | true => rfl
    | false =>
      exfalso
      have hc : c = '.' := by simpa using hd
      subst hc
      revert h
      decide

theorem takeWhile_of_all (p : Char → Bool) (l : Str) (h : l.all p = true) :
    l.takeWhile p = l := by
  induction l with
  | nil => rfl
  | cons a rest ih =>
    simp only [List.all_cons, Bool.and_eq_true] at h
    rw [List.takeWhile_cons, if_pos h.1, ih h.2]

theorem dropWhile_of_all (p : Char → Bool) (l : Str) (h : l.all p = true) :
    l.dropWhile p = [] := by
  induction l with
  | nil => rfl
  | cons a rest ih =>
    simp only [List.all_cons, Bool.and_eq_true] at h
    rw [List.dropWhile_cons, if_pos h.1, ih h.2]

theorem all_ne_dot (l : Str) (h : l.all Char.isDigit = true) :
    l.all (fun c => c != '.') = true := by
  rw [List.all_eq_true] at h ⊢
  exact fun c hc => (isDigit_props c (h c hc)).2.2.2

theorem isNumber_iff (p : Str) :
    isNumber p = true ↔ p ≠ [] ∧ p.all Char.isDigit = true := by
  unfold isNumber
  cases p <;> simp

/-- The function `atoi` on a decimal number. -/
theorem atoi_number (p : Str) (h : isNumber p = true) :
    atoi p = wrapInt32 (clampInt64 (digitsValue p)) := by
  obtain ⟨hne, hall⟩ := (isNumber_iff p).1 h
  cases p with
  | nil => exact absurd rfl hne
  | cons c rest =>
    have hc : c.isDigit = true := by
      simp only [List.all_cons, Bool.and_eq_true] at hall
      exact hall.1
    obtain ⟨h1, h2, h3, _⟩ := isDigit_props c hc
    unfold atoi
    have hd : (c :: rest).dropWhile isspace = c :: rest := by
      rw [List.dropWhile_cons, if_neg (by rw [h1]; exact Bool.false_ne_true)]
    rw [hd]
    split
    · next r heq =>
      cases heq
      exact absurd rfl h2
    · next r heq =>
      cases heq
      exact absurd rfl h3
    · rw [takeWhile_of_all _ _ hall]

/-- The function `nextPart` on a number that a dot and more text follow. -/
theorem nextPart_number (p rest : Str) (h : isNumber p = true) :
    nextPart (p ++ '.' :: rest) '.' = some (p, rest) := by
  obtain ⟨hne, hall⟩ := (isNumber_iff p).1 h
  have hdot := all_ne_dot p hall
  have ht : (p ++ '.' :: rest).takeWhile (fun c => c != '.') = p := by
    clear hne hall h
    induction p with
    | nil => rfl
    | cons a q ih =>
      simp only [List.all_cons, Bool.and_eq_true] at hdot
      rw [List.cons_append, List.takeWhile_cons, if_pos hdot.1, ih hdot.2]
  have hd : (p ++ '.' :: rest).dropWhile (fun c => c != '.') = '.' :: rest := by
    clear hne hall h ht
    induction p with
    | nil => rfl
    | cons a q ih =>
      simp only [List.all_cons, Bool.and_eq_true] at hdot
      rw [List.cons_append, List.dropWhile_cons, if_pos hdot.1, ih hdot.2]
  cases p with
  | nil => exact absurd rfl hne
  | cons c q =>
    unfold nextPart
    rw [ht, hd]
    rfl

/-- The function `nextPart` on a number at the end of the text. -/
theorem nextPart_last_number (p : Str) (h : isNumber p = true) :
    nextPart p '.' = some (p, []) := by
  obtain ⟨hne, hall⟩ := (isNumber_iff p).1 h
  have hdot := all_ne_dot p hall
  cases p with
  | nil => exact absurd rfl hne
  | cons c q =>
    unfold nextPart
    rw [takeWhile_of_all _ _ hdot, dropWhile_of_all _ _ hdot]
    rfl

/-- The comparable version of a text of four numbers. -/
theorem comparableVersion_versionOf (pa pb pc pd : Str) (ha : isNumber pa = true)
    (hb : isNumber pb = true) (hc : isNumber pc = true) (hd : isNumber pd = true) :
    comparableVersion (versionOf pa pb pc pd) =
      wrapInt32 (wrapInt32 (clampInt64 (digitsValue pa)) * 10000000) +
        wrapInt32 (wrapInt32 (clampInt64 (digitsValue pb)) * 100000) +
        wrapInt32 (wrapInt32 (clampInt64 (digitsValue pc)) * 1000) +
        wrapInt32 (clampInt64 (digitsValue pd)) := by
  unfold comparableVersion versionOf
  unfold comparableVersionLoop
  rw [nextPart_number pa _ ha]
  dsimp only
  unfold comparableVersionLoop
  rw [nextPart_number pb _ hb]
  dsimp only
  unfold comparableVersionLoop
  rw [nextPart_number pc _ hc]
  dsimp only
  unfold comparableVersionLoop
  rw [nextPart_last_number pd hd]
  dsimp only
  unfold comparableVersionLoop
  rw [atoi_number pa ha, atoi_number pb hb, atoi_number pc hc, atoi_number pd hd, zero_add]

theorem clampInt64_of_int (n : Int) (h1 : -(2 ^ 63) ≤ n) (h2 : n < 2 ^ 63) :
    clampInt64 n = n := by
  unfold clampInt64
  rw [if_neg (by omega), if_neg (by omega)]

/-- While the first part is at most 214, and the others within their places,
the comparable version is the weighted sum of the parts (with `long` 64 bits
wide, so that the sum is not cut). -/
theorem comparableVersion_value (pa pb pc pd : Str) (ha : isNumber pa = true)
    (hb : isNumber pb = true) (hc : isNumber pc = true) (hd : isNumber pd = true)
    (hA : digitsValue pa ≤ 214) (hB : digitsValue pb ≤ 99) (hC : digitsValue pc ≤ 99)
    (hD : digitsValue pd ≤ 999) :
    comparableVersion (versionOf pa pb pc pd) =
      ((digitsValue pa * 10000000 + digitsValue pb * 100000 + digitsValue pc * 1000
        + digitsValue pd : Nat) : Int) := by
  rw [comparableVersion_versionOf pa pb pc pd ha hb hc hd,
    clampInt64_of_int (digitsValue pa) (by omega) (by omega),
    clampInt64_of_int (digitsValue pb) (by omega) (by omega),
    clampInt64_of_int (digitsValue pc) (by omega) (by omega),
    clampInt64_of_int (digitsValue pd) (by omega) (by omega),
    wrapInt32_of_int (digitsValue pa) (by omega) (by omega),
    wrapInt32_of_int (digitsValue pb) (by omega) (by omega),
    wrapInt32_of_int (digitsValue pc) (by omega) (by omega),
    wrapInt32_of_int (digitsValue pd) (by omega) (by omega),
    wrapInt32_of_int _ (by omega) (by omega), wrapInt32_of_int _ (by omega) (by omega),
    wrapInt32_of_int _ (by omega) (by omega)]
  push_cast
  ring

/-- While the first parts are at most 214, and with `long` 64 bits wide,
`comparableVersion` orders versions of four numbers, with the second and third
at most 99 and the fourth at most 999, as their parts order them, the first
part first. -/
theorem comparableVersion_orders (pa pb pc pd qa qb qc qd : Str)
    (ha : isNumber pa = true) (hb : isNumber pb = true) (hc : isNumber pc = true)
    (hd : isNumber pd = true) (ga : isNumber qa = true) (gb : isNumber qb = true)
    (gc : isNumber qc = true) (gd : isNumber qd = true)
    (hA : digitsValue pa ≤ 214) (hB : digitsValue pb ≤ 99) (hC : digitsValue pc ≤ 99)
    (hD : digitsValue pd ≤ 999) (gA : digitsValue qa ≤ 214) (gB : digitsValue qb ≤ 99)
    (gC : digitsValue qc ≤ 99) (gD : digitsValue qd ≤ 999) :
    comparableVersion (versionOf pa pb pc pd) < comparableVersion (versionOf qa qb qc qd) ↔
      (digitsValue pa < digitsValue qa ∨
        (digitsValue pa = digitsValue qa ∧
          (digitsValue pb < digitsValue qb ∨
            (digitsValue pb = digitsValue qb ∧
              (digitsValue pc < digitsValue qc ∨
                (digitsValue pc = digitsValue qc ∧ digitsValue pd < digitsValue qd)))))) := by
  rw [comparableVersion_value pa pb pc pd ha hb hc hd hA hB hC hD,
    comparableVersion_value qa qb qc qd ga gb gc gd gA gB gC gD]
  omega

/-! ### What holds of the null case and of the alerts -/

/-- For every parameter object whose field holds JSON null, `checkStringParam`
dereferences the absent object. -/
theorem checkStringParam_null (json_str : Json → Str) (params : Json) (aParamName : Str)
    (h : params.field aParamName = some .null) :
    checkStringParam json_str (some params) aParamName = .nullDeref := by
  unfold checkStringParam checkParam Json.getEx
  simp only [h]
  rfl

theorem digitChar_plain (d : Nat) (h : d < 10) :
    (Nat.digitChar d == '/' || Nat.digitChar d == '.') = false := by
  interval_cases d <;> decide

theorem toDigitsCore_plain (fuel n : Nat) (ds : Str) (h : hasSlashOrDot ds = false) :
    hasSlashOrDot (Nat.toDigitsCore 10 fuel n ds) = false := by
  induction fuel generalizing n ds with
  | zero => exact h
  | succ fuel ih =>
    have hcons : hasSlashOrDot (Nat.digitChar (n % 10) :: ds) = false := by
      unfold hasSlashOrDot at h ⊢
      rw [List.any_cons, digitChar_plain _ (Nat.mod_lt _ (by decide)), h]
      rfl
    unfold Nat.toDigitsCore
    dsimp only
    split_ifs
    · exact hcons
    · exact ih _ _ hcons

theorem hasSlashOrDot_append (a b : Str) :
    hasSlashOrDot (a ++ b) = (hasSlashOrDot a || hasSlashOrDot b) := by
  unfold hasSlashOrDot
  rw [List.any_append]

theorem fmt_int_plain (n : Int) : hasSlashOrDot (fmt_int n) = false := by
  unfold fmt_int Nat.toDigits
  split_ifs
  · unfold hasSlashOrDot
    rw [List.any_cons]
    exact toDigitsCore_plain _ _ [] rfl
  · exact toDigitsCore_plain _ _ [] rfl

/-- An alert without an identifier gets one of the time and a random number,
without `/` and `.`; `newAlert` writes the file of that identifier in the alert
directory, and `confirmAlert` of the identifier returned unlinks that file. -/
theorem newAlert_generated (host : Host) (aAlert : Json)
    (h : aAlert.get "id".toList = none) :
    hasSlashOrDot (newAlert host aAlert).2 = false ∧
    (∃ content, (newAlert host aAlert).1 =
      [.mkdir alertDirPath, .string_tofile (alertFile (newAlert host aAlert).2) content]) ∧
    (confirmAlert host (newAlert host aAlert).2).1 =
      [.unlink (alertFile (newAlert host aAlert).2)] := by
  have hid : (newAlert host aAlert).2 =
      fmt_int host.mainloop_now ++ "_".toList ++ fmt_int host.rand := by
    unfold newAlert
    rw [h]
  have hplain : hasSlashOrDot (newAlert host aAlert).2 = false := by
    rw [hid, hasSlashOrDot_append, hasSlashOrDot_append, fmt_int_plain, fmt_int_plain]
    rfl
  refine ⟨hplain, ⟨_, rfl⟩, ?_⟩
  unfold confirmAlert
  rw [if_neg (by rw [hplain]; exact Bool.false_ne_true)]

/-- Whatever the identifier, `confirmAlert` unlinks at most the file of an
identifier without `/` and `.` in the alert directory. -/
theorem confirmAlert_inside (host : Host) (aAlertId : Str) :
    (confirmAlert host aAlertId).1 = [] ∨
    (hasSlashOrDot aAlertId = false ∧
      (confirmAlert host aAlertId).1 =
        [.unlink ("/flash/p44alerts/alert_".toList ++ aAlertId)]) := by
  unfold confirmAlert
  cases h : hasSlashOrDot aAlertId with
  | true => exact Or.inl rfl
  | false => exact Or.inr ⟨rfl, rfl⟩

/-! ## Keys that the files merged in a run leave alone (C6) -/

theorem mergeStep_keeps (env : Env) (K : Str) (before : DefsMap) (file : Str)
    (r : List Str × DefsMap) (hr : KeepsKey env.fs K before r) :
    KeepsKey env.fs K before (mergeStep env file r) := by
  intro h
  unfold mergeStep at h ⊢
  dsimp only at h ⊢
  rw [readDefsFrom_of_undefined _ _ _ _ (h file (by simp))]
  exact hr (fun path hp => h path (by simp [hp]))

/-- The store of `productMerges` is that of `productDefs`. -/
theorem productMerges_snd (env : Env) (defs : DefsMap) :
    (productMerges env defs).2 = productDefs env defs := by
  unfold productMerges productDefs mergeStep
  dsimp only
  generalize (readDefsFrom env.fs (env.defspath ++ "p44product.defs".toList) defs).2 = d1
  by_cases c1 : (getDef d1 "PRODUCT_IDENTIFIER".toList).isNone = true
  · simp only [c1, if_true]
    cases m1 : getDef d1 "PLATFORM_IDENTIFIER".toList with
    | none =>
      dsimp only
      simp only [c1, if_true]
      cases getDef (readDefsFrom env.fs (env.defspath ++ "p44product-default.defs".toList)
        d1).2 "PRODUCT_IDENTIFIER".toList <;> rfl
    | some x =>
      dsimp only
      generalize (readDefsFrom env.fs
        (env.defspath ++ "p44product-default_".toList ++ x ++ ".defs".toList) d1).2 = d2
      by_cases c2 : (getDef d2 "PRODUCT_IDENTIFIER".toList).isNone = true
      · simp only [c2, if_true]
        cases getDef (readDefsFrom env.fs (env.defspath ++ "p44product-default.defs".toList)
          d2).2 "PRODUCT_IDENTIFIER".toList <;> rfl
      · simp only [c2, Bool.false_eq_true, if_false]
        cases getDef d2 "PRODUCT_IDENTIFIER".toList <;> rfl
  · simp only [c1, Bool.false_eq_true, if_false]
    cases getDef d1 "PRODUCT_IDENTIFIER".toList <;> rfl

theorem productMerges_keeps (env : Env) (K : Str) (defs : DefsMap) :
    KeepsKey env.fs K defs (productMerges env defs) := by
  unfold productMerges
  dsimp only
  have s1 : KeepsKey env.fs K defs
      (mergeStep env (env.defspath ++ "p44product.defs".toList) ([], defs)) :=
    mergeStep_keeps env K defs _ _ (fun _ => rfl)
  generalize mergeStep env (env.defspath ++ "p44product.defs".toList) ([], defs) = r1 at s1 ⊢
  have s2 : KeepsKey env.fs K defs
      (if (getDef r1.2 "PRODUCT_IDENTIFIER".toList).isNone then
        match getDef r1.2 "PLATFORM_IDENTIFIER".toList with
        | some d =>
          mergeStep env
            (env.defspath ++ "p44product-default_".toList ++ d ++ ".defs".toList) r1
        | none => r1
      else r1) := by
    split_ifs
    · cases getDef r1.2 "PLATFORM_IDENTIFIER".toList with
      | none => exact s1
      | some d => exact mergeStep_keeps env K defs _ _ s1
    · exact s1
  generalize (if (getDef r1.2 "PRODUCT_IDENTIFIER".toList).isNone then
      match getDef r1.2 "PLATFORM_IDENTIFIER".toList with
      | some d =>
        mergeStep env (env.defspath ++ "p44product-default_".toList ++ d ++ ".defs".toList) r1
      | none => r1
    else r1) = r2 at s2 ⊢
  have s3 : KeepsKey env.fs K defs
      (if (getDef r2.2 "PRODUCT_IDENTIFIER".toList).isNone then
        mergeStep env (env.defspath ++ "p44product-default.defs".toList) r2
      else r2) := by
    split_ifs
    · exact mergeStep_keeps env K defs _ _ s2
    · exact s2
  generalize (if (getDef r2.2 "PRODUCT_IDENTIFIER".toList).isNone then
      mergeStep env (env.defspath ++ "p44product-default.defs".toList) r2
    else r2) = r3 at s3 ⊢
  cases getDef r3.2 "PRODUCT_IDENTIFIER".toList with
  | none => exact s3
  | some d => exact mergeStep_keeps env K defs _ _ s3

theorem productDefs_keeps_of (env : Env) (defs : DefsMap) (K : Str)
    (h : ∀ path ∈ productDefsFiles env defs, fileDefinitionsOf env.fs path K = []) :
    productDefs env defs K = defs K := by
  rw [← productMerges_snd]
  exact productMerges_keeps env K defs h

theorem platformDefs_keeps_of (env : Env) (defs : DefsMap) (K : Str) (hK : K ∉ assignedKeys)
    (h : ∀ path ∈ platformDefsFiles env defs, fileDefinitionsOf env.fs path K = []) :
    platformDefs env defs K = defs K := by
  unfold platformDefsFiles at h
  unfold platformDefs
  rw [readDefFromFirstLine_other _ _ _ _ _ (ne_of_not_mem_assignedKeys hK (by decide))]
  cases hd : getDef defs "PLATFORM_IDENTIFIER".toList with
  | none => rfl
  | some d =>
    rw [hd] at h
    exact readDefsFrom_of_undefined _ _ _ _ (h _ (by simp))

theorem variantDefs_keeps_of (env : Env) (defs : DefsMap) (K : Str) (hK : K ∉ assignedKeys)
    (h : ∀ path ∈ variantDefsFiles env defs, fileDefinitionsOf env.fs path K = []) :
    variantDefs env defs K = defs K := by
  unfold variantDefsFiles at h
  refine variantDefs_other env defs K
    (ne_of_not_mem_assignedKeys hK (by decide)) (ne_of_not_mem_assignedKeys hK (by decide))
    (ne_of_not_mem_assignedKeys hK (by decide)) (ne_of_not_mem_assignedKeys hK (by decide))
    (ne_of_not_mem_assignedKeys hK (by decide)) (ne_of_not_mem_assignedKeys hK (by decide))
    (ne_of_not_mem_assignedKeys hK (by decide)) ?_ (h _ (by simp))
  intro d hd
  rw [hd] at h
  exact h _ (by simp)

theorem checkProducer_keeps_of (env : Env) (defs : DefsMap) (K : Str) (hK : K ∉ assignedKeys)
    (h : ∀ path ∈ checkProducerFiles env defs, fileDefinitionsOf env.fs path K = []) :
    (checkProducer env defs).defs K = defs K := by
  unfold checkProducerFiles at h
  unfold checkProducer
  dsimp only at h ⊢
  cases hg : getDef (producerDefs env defs) "PLATFORM_VARIANT_GETTER".toList with
  | none =>
    rw [hg] at h
    simp only [processVariantSpecifics, Outcome.defs]
    rw [variantDefs_keeps_of env _ K hK h, producerDefs_keeps env defs K hK]
  | some d =>
    simp only [Outcome.defs]
    exact producerDefs_keeps env defs K hK

theorem processProductSpecifics_keeps_of (env : Env) (defs : DefsMap) (K : Str)
    (hK : K ∉ assignedKeys)
    (h : ∀ path ∈ processProductSpecificsFiles env defs,
      fileDefinitionsOf env.fs path K = []) :
    (processProductSpecifics env defs).defs K = defs K := by
  unfold processProductSpecificsFiles at h
  unfold processProductSpecifics
  dsimp only at h ⊢
  have h1 : productDefs env defs K = defs K :=
    productDefs_keeps_of env defs K (fun path hp => h path (List.mem_append_left _ hp))
  cases hg : getDef (productDefs env defs) "PRODUCER_GETTER".toList with
  | none =>
    rw [hg] at h
    rw [checkProducer_keeps_of env _ K hK (fun path hp => h path (List.mem_append_right _ hp)),
      readDefFromFirstLine_other _ _ _ _ _ (ne_of_not_mem_assignedKeys hK (by decide)), h1]
  | some d =>
    simp only [Outcome.defs]
    exact h1

theorem processPlatformSpecifics_keeps_of (env : Env) (defs : DefsMap) (K : Str)
    (hK : K ∉ assignedKeys)
    (h : ∀ path ∈ processPlatformSpecificsFiles env defs,
      fileDefinitionsOf env.fs path K = []) :
    (processPlatformSpecifics env defs).defs K = defs K := by
  unfold processPlatformSpecificsFiles at h
  unfold processPlatformSpecifics
  dsimp only at h ⊢
  have h1 : platformDefs env defs K = defs K :=
    platformDefs_keeps_of env defs K hK (fun path hp => h path (List.mem_append_left _ hp))
  cases hg : getDef (platformDefs env defs) "PLATFORM_PRODUCT_IDENTIFIER_GETTER".toList with
  | none =>
    rw [hg] at h
    rw [processProductSpecifics_keeps_of env _ K hK
      (fun path hp => h path (List.mem_append_right _ hp)), h1]
  | some d =>
    simp only [Outcome.defs]
    exact h1

theorem queryDone_keeps_of (env : Env) (cont : Getter) (defs : DefsMap) (aAnswer K : Str)
    (hcont : cont ≠ .platformid) (hK : K ∉ assignedKeys)
    (h : ∀ path ∈ queryDoneFiles env cont defs aAnswer,
      fileDefinitionsOf env.fs path K = []) :
    (queryDone env cont defs aAnswer).defs K = defs K := by
  cases cont with
  | platformid => exact absurd rfl hcont
  | productid =>
    simp only [queryDone, productidQueryDone]
    rw [processProductSpecifics_keeps_of env _ K hK h]
    split_ifs
    · exact assign_other _ _ _ _ (ne_of_not_mem_assignedKeys hK (by decide))
    · rfl
  | producer =>
    simp only [queryDone, producerQueryDone]
    rw [checkProducer_keeps_of env _ K hK h]
    split_ifs
    · exact assign_other _ _ _ _ (ne_of_not_mem_assignedKeys hK (by decide))
    · rfl
  | variant =>
    simp only [queryDone, variantQueryDone, processVariantSpecifics, Outcome.defs]
    rw [variantDefs_keeps_of env _ K hK h]
    split_ifs <;> exact assign_other _ _ _ _ (ne_of_not_mem_assignedKeys hK (by decide))

/-- From an outcome past the platform identifier query, the main loop reaches
the completion callback with a store that still has the value of every key
which no later stage assigns and none of the files merged on the way defines. -/
theorem mainLoop_keeps_of (env : Env) (K : Str) (hK : K ∉ assignedKeys)
    (n : Nat) (o : Outcome) (h : o.rank ≤ n) (h3 : o.rank ≤ 3)
    (hfiles : ∀ path ∈ mainLoopFiles env n o, fileDefinitionsOf env.fs path K = []) :
    ∃ defs, mainLoop env n o = .called defs ∧ defs K = o.defs K := by
  induction n generalizing o with
  | zero =>
    cases o with
    | called d => exact ⟨d, rfl, rfl⟩
    | forked cmd cont d => cases cont <;> simp [Outcome.rank, Getter.rank] at h
  | succ n ih =>
    cases o with
    | called d => exact ⟨d, rfl, rfl⟩
    | forked cmd cont d =>
      have hr := queryDone_rank env cont d (env.captured cmd)
      simp only [Outcome.rank] at h h3
      have hcont : cont ≠ .platformid := by
        intro hc
        subst hc
        simp [Getter.rank] at h3
      have hsplit : mainLoopFiles env (n + 1) (.forked cmd cont d) =
          queryDoneFiles env cont d (env.captured cmd) ++
            mainLoopFiles env n (queryDone env cont d (env.captured cmd)) := rfl
      rw [hsplit] at hfiles
      obtain ⟨d', hd', hk'⟩ := ih (queryDone env cont d (env.captured cmd)) (by omega)
        (by omega) (fun path hp => hfiles path (List.mem_append_right _ hp))
      refine ⟨d', hd', ?_⟩
      rw [hk', queryDone_keeps_of env cont d _ K hcont hK
        (fun path hp => hfiles path (List.mem_append_left _ hp))]
      rfl

/-! ## The platform identifier from its getter (C6) -/

/-- C6, amended: on a target build whose store after reading `p44platform.defs`
names a platform identifier getter, `identifyDynamically` invokes that getter;
when the trimmed output `v` of the getter is not empty, the continuation enters
the platform specific stage with `PLATFORM_IDENTIFIER` set to exactly `v`,
whatever `p44platform.defs` had supplied for it; and the store handed to the
completion callback still maps `PLATFORM_IDENTIFIER` to `v` provided none of the
defs files merged afterwards (those that the run really merges after the
getter: the platform specific file, the product files, the variant file and the
custom overrides file) defines `PLATFORM_IDENTIFIER`. -/
theorem platform_identifier_from_getter (env : Env) (cmd : Str)
    (hbuild : env.build = .target)
    (hgetter : initialDefs env "PLATFORM_IDENTIFIER_GETTER".toList = some cmd)
    (hv : trimWhiteSpace (env.captured cmd) true true ≠ []) :
    identifyDynamically env = .forked cmd .platformid (initialDefs env) ∧
    platformidQueryDone env (initialDefs env) (env.captured cmd) =
      processPlatformSpecifics env
        ((initialDefs env).assign "PLATFORM_IDENTIFIER".toList
          (trimWhiteSpace (env.captured cmd) true true)) ∧
    mainLoopFiles env 4 (identifyDynamically env) =
      processPlatformSpecificsFiles env
          ((initialDefs env).assign "PLATFORM_IDENTIFIER".toList
            (trimWhiteSpace (env.captured cmd) true true)) ++
        mainLoopFiles env 3
          (processPlatformSpecifics env
            ((initialDefs env).assign "PLATFORM_IDENTIFIER".toList
              (trimWhiteSpace (env.captured cmd) true true))) ∧
    ((∀ path ∈ mainLoopFiles env 4 (identifyDynamically env),
        fileDefinitionsOf env.fs path "PLATFORM_IDENTIFIER".toList = []) →
      ∃ defs, identify env = .called defs ∧
        defs "PLATFORM_IDENTIFIER".toList = some (trimWhiteSpace (env.captured cmd) true true)) := by
  have hlen : (trimWhiteSpace (env.captured cmd) true true).length > 0 :=
    List.length_pos.mpr hv
  have hinit : initialDefs env =
      (readDefsFrom env.fs (env.defspath ++ "p44platform.defs".toList)
        (DefsMap.empty.assign "STATUS_TIME".toList env.now)).2 := by
    simp [initialDefs, setDefDefaults, hbuild]
  have hfork : identifyDynamically env = .forked cmd .platformid (initialDefs env) := by
    rw [hinit] at hgetter
    unfold identifyDynamically
    simp only [setDefDefaults, hbuild, Bool.not_true, Bool.false_eq_true, if_false, getDef,
      hgetter, hinit]
  have hdone : platformidQueryDone env (initialDefs env) (env.captured cmd) =
      processPlatformSpecifics env
        ((initialDefs env).assign "PLATFORM_IDENTIFIER".toList
          (trimWhiteSpace (env.captured cmd) true true)) := by
    unfold platformidQueryDone
    simp only [hlen, if_true]
  have hfilesEq : mainLoopFiles env 4 (identifyDynamically env) =
      processPlatformSpecificsFiles env
          ((initialDefs env).assign "PLATFORM_IDENTIFIER".toList
            (trimWhiteSpace (env.captured cmd) true true)) ++
        mainLoopFiles env 3
          (processPlatformSpecifics env
            ((initialDefs env).assign "PLATFORM_IDENTIFIER".toList
              (trimWhiteSpace (env.captured cmd) true true))) := by
    rw [hfork]
    show queryDoneFiles env .platformid (initialDefs env) (env.captured cmd) ++
      mainLoopFiles env 3 (platformidQueryDone env (initialDefs env) (env.captured cmd)) = _
    rw [hdone]
    unfold queryDoneFiles
    simp only [hlen, if_true]
  refine ⟨hfork, hdone, hfilesEq, ?_⟩
  intro hfiles
  rw [hfilesEq] at hfiles
  have hK : "PLATFORM_IDENTIFIER".toList ∉ assignedKeys := by decide
  obtain ⟨defs, hcalled, hval⟩ := mainLoop_keeps_of env "PLATFORM_IDENTIFIER".toList hK 3
    (platformidQueryDone env (initialDefs env) (env.captured cmd))
    (by rw [hdone]; exact processPlatformSpecifics_rank env _)
    (by rw [hdone]; exact processPlatformSpecifics_rank env _)
    (by rw [hdone]; exact fun path hp => hfiles path (List.mem_append_right _ hp))
  refine ⟨defs, ?_, ?_⟩
  · unfold identify
    rw [hfork]
    exact hcalled
  · rw [hval, hdone, processPlatformSpecifics_keeps_of env _ _ hK
      (fun path hp => hfiles path (List.mem_append_left _ hp))]
    exact assign_same _ _ _

theorem platform_identifier_from_getter_witness :
    identifyDynamically acmeEnv = .forked "getid".toList .platformid (initialDefs acmeEnv) ∧
    initialDefs acmeEnv "PLATFORM_IDENTIFIER".toList = some "old".toList ∧
    mainLoopFiles acmeEnv 4 (identifyDynamically acmeEnv) =
      ["/etc/p44platform-acme-box.defs".toList, "/etc/p44product.defs".toList,
        "/etc/p44product-default_acme-box.defs".toList, "/etc/p44product-default.defs".toList,
        "/flash//p44custom.defs".toList] ∧
    ∃ defs, identify acmeEnv = .called defs ∧
      defs "PLATFORM_IDENTIFIER".toList = some "acme-box".toList := by
  have h := platform_identifier_from_getter acmeEnv "getid".toList rfl (by decide) (by decide)
  exact ⟨h.1, by decide, by decide, h.2.2.2 (by decide)⟩

/-! ## The events of the identification (C23) -/

theorem issuedIn_mutations (pre : List PipelineEvent) (h : ∀ e ∈ pre, e.isMutation = true) :
    issuedIn pre = [] ∧ finishedIn pre = [] ∧ callbacksIn pre = 0 := by
  induction pre with
  | nil => exact ⟨rfl, rfl, rfl⟩
  | cons e rest ih =>
    obtain ⟨h1, h2, h3⟩ := ih (fun x hx => h x (List.mem_cons_of_mem _ hx))
    have he := h e (List.mem_cons_self _ _)
    cases e with
    | mutated d =>
      refine ⟨?_, ?_, ?_⟩
      · show issuedIn rest = []
        exact h1
      · show finishedIn rest = []
        exact h2
      · unfold callbacksIn at h3 ⊢
        rw [List.countP_cons_of_neg _ _ (by simp)]
        exact h3
    | issued c g => cases he
    | finished g => cases he
    | callback d => cases he

theorem issuedIn_append (a b : List PipelineEvent) :
    issuedIn (a ++ b) = issuedIn a ++ issuedIn b := by
  unfold issuedIn
  rw [List.filterMap_append]

theorem finishedIn_append (a b : List PipelineEvent) :
    finishedIn (a ++ b) = finishedIn a ++ finishedIn b := by
  unfold finishedIn
  rw [List.filterMap_append]

theorem callbacksIn_append (a b : List PipelineEvent) :
    callbacksIn (a ++ b) = callbacksIn a + callbacksIn b := by
  unfold callbacksIn
  rw [List.countP_append]

theorem oneAtATime_mutations (p : Nat) (pre l : List PipelineEvent)
    (h : ∀ e ∈ pre, e.isMutation = true) :
    oneAtATime p (pre ++ l) = oneAtATime p l := by
  induction pre with
  | nil => rfl
  | cons e rest ih =>
    have he := h e (List.mem_cons_self _ _)
    cases e with
    | mutated d =>
      show oneAtATime p (rest ++ l) = oneAtATime p l
      exact ih (fun x hx => h x (List.mem_cons_of_mem _ hx))
    | issued c g => cases he
    | finished g => cases he
    | callback d => cases he

theorem agrees_cons (e : PipelineEvent) (he : e.isMutation = true) (r : Traced) (o : Outcome)
    (h : r.agrees o) : Traced.agrees (e :: r.1, r.2) o := by
  obtain ⟨pre, hpre, hm⟩ := h
  refine ⟨e :: pre, ?_, ?_⟩
  · intro x hx
    rcases List.mem_cons.mp hx with rfl | hx
    · exact he
    · exact hpre x hx
  · cases o with
    | called d =>
      obtain ⟨h2, h1⟩ := hm
      exact ⟨h2, by rw [h1]; rfl⟩
    | forked c g d =>
      obtain ⟨h2, h1⟩ := hm
      exact ⟨h2, by rw [h1]; rfl⟩

theorem agrees_mutated (defs : DefsMap) (r : Traced) (o : Outcome) (h : r.agrees o) :
    Traced.agrees (.mutated defs :: r.1, r.2) o :=
  agrees_cons (.mutated defs) rfl r o h

theorem processVariantSpecificsT_agrees (env : Env) (defs : DefsMap) :
    (processVariantSpecificsT env defs).agrees (processVariantSpecifics env defs) :=
  ⟨[], fun _ h => absurd h (List.not_mem_nil _), rfl, rfl⟩

theorem variantQueryDoneT_agrees (env : Env) (defs : DefsMap) (aAnswer : Str) :
    (variantQueryDoneT env defs aAnswer).agrees (variantQueryDone env defs aAnswer) := by
  unfold variantQueryDoneT variantQueryDone
  exact agrees_mutated _ _ _ (processVariantSpecificsT_agrees env _)

theorem checkProducerT_agrees (env : Env) (defs : DefsMap) :
    (checkProducerT env defs).agrees (checkProducer env defs) := by
  unfold checkProducerT checkProducer
  dsimp only
  cases getDef (producerDefs env defs) "PLATFORM_VARIANT_GETTER".toList with
  | none => exact agrees_mutated _ _ _ (processVariantSpecificsT_agrees env _)
  | some d =>
    exact ⟨[.mutated (producerDefs env defs)],
      fun e he => by rw [List.mem_singleton.mp he]; rfl, rfl, rfl⟩

theorem producerQueryDoneT_agrees (env : Env) (defs : DefsMap) (aAnswer : Str) :
    (producerQueryDoneT env defs aAnswer).agrees (producerQueryDone env defs aAnswer) := by
  unfold producerQueryDoneT producerQueryDone
  dsimp only
  split_ifs
  · exact agrees_mutated _ _ _ (checkProducerT_agrees env _)
  · exact checkProducerT_agrees env _

theorem processProductSpecificsT_agrees (env : Env) (defs : DefsMap) :
    (processProductSpecificsT env defs).agrees (processProductSpecifics env defs) := by
  unfold processProductSpecificsT processProductSpecifics
  dsimp only
  cases getDef (productDefs env defs) "PRODUCER_GETTER".toList with
  | none =>
    exact agrees_mutated _ _ _ (agrees_mutated _ _ _ (checkProducerT_agrees env _))
  | some d =>
    exact ⟨[.mutated (productDefs env defs)],
      fun e he => by rw [List.mem_singleton.mp he]; rfl, rfl, rfl⟩

theorem productidQueryDoneT_agrees (env : Env) (defs : DefsMap) (aAnswer : Str) :
    (productidQueryDoneT env defs aAnswer).agrees (productidQueryDone env defs aAnswer) := by
  unfold productidQueryDoneT productidQueryDone
  dsimp only
  split_ifs
  · exact agrees_mutated _ _ _ (processProductSpecificsT_agrees env _)
  · exact processProductSpecificsT_agrees env _

theorem processPlatformSpecificsT_agrees (env : Env) (defs : DefsMap) :
    (processPlatformSpecificsT env defs).agrees (processPlatformSpecifics env defs) := by
  unfold processPlatformSpecificsT processPlatformSpecifics
  dsimp only
  cases getDef (platformDefs env defs) "PLATFORM_PRODUCT_IDENTIFIER_GETTER".toList with
  | none => exact agrees_mutated _ _ _ (processProductSpecificsT_agrees env _)
  | some d =>
    exact ⟨[.mutated (platformDefs env defs)],
      fun e he => by rw [List.mem_singleton.mp he]; rfl, rfl, rfl⟩

theorem platformidQueryDoneT_agrees (env : Env) (defs : DefsMap) (aAnswer : Str) :
    (platformidQueryDoneT env defs aAnswer).agrees (platformidQueryDone env defs aAnswer) := by
  unfold platformidQueryDoneT platformidQueryDone
  dsimp only
  split_ifs
  · exact agrees_mutated _ _ _ (processPlatformSpecificsT_agrees env _)
  · exact processPlatformSpecificsT_agrees env _

theorem queryDoneT_agrees (env : Env) (cont : Getter) (defs : DefsMap) (aAnswer : Str) :
    (queryDoneT env cont defs aAnswer).agrees (queryDone env cont defs aAnswer) := by
  cases cont with
  | platformid => exact platformidQueryDoneT_agrees env defs aAnswer
  | productid => exact productidQueryDoneT_agrees env defs aAnswer
  | producer => exact producerQueryDoneT_agrees env defs aAnswer
  | variant => exact variantQueryDoneT_agrees env defs aAnswer

theorem identifyDynamicallyT_agrees (env : Env) :
    (identifyDynamicallyT env).agrees (identifyDynamically env) := by
  unfold identifyDynamicallyT identifyDynamically
  dsimp only
  split_ifs
  · exact agrees_mutated _ _ _ (processProductSpecificsT_agrees env _)
  · cases getDef (readDefsFrom env.fs (env.defspath ++ "p44platform.defs".toList)
      (setDefDefaults env DefsMap.empty).2).2 "PLATFORM_IDENTIFIER_GETTER".toList with
    | none =>
      exact agrees_mutated _ _ _ (agrees_mutated _ _ _ (processPlatformSpecificsT_agrees env _))
    | some d =>
      refine ⟨[.mutated (setDefDefaults env DefsMap.empty).2,
        .mutated (readDefsFrom env.fs (env.defspath ++ "p44platform.defs".toList)
          (setDefDefaults env DefsMap.empty).2).2], ?_, rfl, rfl⟩
      intro e he
      rcases List.mem_cons.mp he with rfl | he
      · rfl
      · rw [List.mem_singleton.mp he]
        rfl

theorem mainLoopT_nil (env : Env) (n : Nat) (defs : DefsMap) : mainLoopT env n [] defs = [] := by
  cases n <;> rfl

theorem invocations_called (env : Env) (n : Nat) (defs : DefsMap) :
    invocations env n (.called defs) = [] := by
  cases n <;> rfl

theorem mainLoop_of_called (env : Env) (n : Nat) (defs : DefsMap) :
    mainLoop env n (.called defs) = .called defs := by
  cases n <;> rfl

/-- The events of a piece of the pipeline and of the main loop after it, when
the piece ends as an outcome does for which the fuel suffices: no invocation
is issued while another is pending, the callback is called once, as the last
event and right after the last store mutation, with the store of that mutation;
the invocations issued are those of the outcome, and the continuation of each
is run. -/
theorem run_events (env : Env) (n : Nat) (o : Outcome) (r : Traced) (h : r.agrees o)
    (hn : o.rank ≤ n) :
    oneAtATime 0 (r.1 ++ mainLoopT env n (issuedIn r.1) r.2) = true ∧
    callbacksIn (r.1 ++ mainLoopT env n (issuedIn r.1) r.2) = 1 ∧
    issuedIn (r.1 ++ mainLoopT env n (issuedIn r.1) r.2) = invocations env n o ∧
    finishedIn (r.1 ++ mainLoopT env n (issuedIn r.1) r.2) =
      (invocations env n o).map Prod.snd ∧
    ∃ pre defs, r.1 ++ mainLoopT env n (issuedIn r.1) r.2 =
        pre ++ [.mutated defs, .callback defs] ∧
      callbacksIn pre = 0 ∧ mainLoop env n o = .called defs := by
  induction n generalizing o r with
  | zero =>
    cases o with
    | forked cmd cont d => cases cont <;> simp [Outcome.rank, Getter.rank] at hn
    | called d =>
      obtain ⟨pre, hpre, hm⟩ := h
      obtain ⟨_, h1⟩ := hm
      obtain ⟨i1, f1, c1⟩ := issuedIn_mutations pre hpre
      have hT : r.1 ++ mainLoopT env 0 (issuedIn r.1) r.2 =
          pre ++ [.mutated d, .callback d] := by
        rw [h1]
        exact List.append_nil _
      rw [hT]
      refine ⟨?_, ?_, ?_, ?_, ⟨pre, d, rfl, c1, rfl⟩⟩
      · rw [oneAtATime_mutations _ _ _ hpre]
        rfl
      · rw [callbacksIn_append, c1]
        rfl
      · rw [issuedIn_append, i1]
        rfl
      · rw [finishedIn_append, f1]
        rfl
  | succ n ih =>
    cases o with
    | called d =>
      obtain ⟨pre, hpre, hm⟩ := h
      obtain ⟨_, h1⟩ := hm
      obtain ⟨i1, f1, c1⟩ := issuedIn_mutations pre hpre
      have hiss : issuedIn r.1 = [] := by
        rw [h1, issuedIn_append, i1]
        rfl
      have hT : r.1 ++ mainLoopT env (n + 1) (issuedIn r.1) r.2 =
          pre ++ [.mutated d, .callback d] := by
        rw [hiss, mainLoopT_nil, h1]
        exact List.append_nil _
      rw [hT]
      refine ⟨?_, ?_, ?_, ?_, ⟨pre, d, rfl, c1, rfl⟩⟩
      · rw [oneAtATime_mutations _ _ _ hpre]
        rfl
      · rw [callbacksIn_append, c1]
        rfl
      · rw [issuedIn_append, i1]
        rfl
      · rw [finishedIn_append, f1]
        rfl
    | forked cmd cont d =>
      obtain ⟨pre, hpre, hm⟩ := h
      obtain ⟨h2, h1⟩ := hm
      obtain ⟨i1, f1, c1⟩ := issuedIn_mutations pre hpre
      have hr := queryDone_rank env cont d (env.captured cmd)
      simp only [Outcome.rank] at hn
      obtain ⟨s1, s2, s3, s4, pre', d', s5, s6, s7⟩ :=
        ih (queryDone env cont d (env.captured cmd)) (queryDoneT env cont d (env.captured cmd))
          (queryDoneT_agrees env cont d (env.captured cmd)) (by omega)
      have hiss : issuedIn r.1 = [(cmd, cont)] := by
        rw [h1, issuedIn_append, i1]
        rfl
      have hT : r.1 ++ mainLoopT env (n + 1) (issuedIn r.1) r.2 =
          pre ++ (.issued cmd cont :: .finished cont ::
            ((queryDoneT env cont d (env.captured cmd)).1 ++
              mainLoopT env n (issuedIn (queryDoneT env cont d (env.captured cmd)).1)
                (queryDoneT env cont d (env.captured cmd)).2)) := by
        rw [hiss, h1, h2, List.append_assoc]
        rfl
      rw [hT]
      refine ⟨?_, ?_, ?_, ?_, ⟨pre ++ (.issued cmd cont :: .finished cont :: pre'), d', ?_, ?_, ?_⟩⟩
      · rw [oneAtATime_mutations _ _ _ hpre]
        show ((0 : Nat) == 0 && ((0 + 1 : Nat) != 0 && oneAtATime (0 + 1 - 1) _)) = true
        rw [s1]
        rfl
      · rw [callbacksIn_append, c1, Nat.zero_add]
        unfold callbacksIn at s2 ⊢
        rw [List.countP_cons_of_neg _ _ (by simp), List.countP_cons_of_neg _ _ (by simp)]
        exact s2
      · rw [issuedIn_append, i1, List.nil_append]
        exact congrArg (List.cons (cmd, cont)) s3
      · rw [finishedIn_append, f1, List.nil_append]
        exact congrArg (List.cons cont) s4
      · rw [s5, List.append_assoc]
        rfl
      · rw [callbacksIn_append, c1, Nat.zero_add]
        unfold callbacksIn at s6 ⊢
        rw [List.countP_cons_of_neg _ _ (by simp), List.countP_cons_of_neg _ _ (by simp)]
        exact s6
      · exact s7

theorem run_fuel (env : Env) (n m : Nat) (o : Outcome) (r : Traced) (h : r.agrees o)
    (hn : o.rank ≤ n) (hm : o.rank ≤ m) :
    mainLoopT env n (issuedIn r.1) r.2 = mainLoopT env m (issuedIn r.1) r.2 := by
  induction n generalizing m o r with
  | zero =>
    cases o with
    | forked cmd cont d => cases cont <;> simp [Outcome.rank, Getter.rank] at hn
    | called d =>
      obtain ⟨pre, hpre, hm'⟩ := h
      obtain ⟨_, h1⟩ := hm'
      have hiss : issuedIn r.1 = [] := by
        rw [h1, issuedIn_append, (issuedIn_mutations pre hpre).1]
        rfl
      rw [hiss, mainLoopT_nil, mainLoopT_nil]
  | succ n ih =>
    cases o with
    | called d =>
      obtain ⟨pre, hpre, hm'⟩ := h
      obtain ⟨_, h1⟩ := hm'
      have hiss : issuedIn r.1 = [] := by
        rw [h1, issuedIn_append, (issuedIn_mutations pre hpre).1]
        rfl
      rw [hiss, mainLoopT_nil, mainLoopT_nil]
    | forked cmd cont d =>
      obtain ⟨pre, hpre, hm'⟩ := h
      obtain ⟨h2, h1⟩ := hm'
      have hr := queryDone_rank env cont d (env.captured cmd)
      simp only [Outcome.rank] at hn hm
      have hiss : issuedIn r.1 = [(cmd, cont)] := by
        rw [h1, issuedIn_append, (issuedIn_mutations pre hpre).1]
        rfl
      cases m with
      | zero => cases cont <;> simp [Getter.rank] at hm
      | succ m =>
        rw [hiss, h2]
        show PipelineEvent.finished cont :: (queryDoneT env cont d (env.captured cmd)).1 ++
            mainLoopT env n ([] ++ issuedIn (queryDoneT env cont d (env.captured cmd)).1)
              (queryDoneT env cont d (env.captured cmd)).2 =
          PipelineEvent.finished cont :: (queryDoneT env cont d (env.captured cmd)).1 ++
            mainLoopT env m ([] ++ issuedIn (queryDoneT env cont d (env.captured cmd)).1)
              (queryDoneT env cont d (env.captured cmd)).2
        rw [List.nil_append,
          ih m (queryDone env cont d (env.captured cmd))
            (queryDoneT env cont d (env.captured cmd))
            (queryDoneT_agrees env cont d (env.captured cmd)) (by omega) (by omega)]

/-- C23: for every file system content and every getter output, a run of
`identifyDynamically` with the main loop issues at most four invocations, whose
continuations are among platform identifier, product identifier, producer and
variant getter in this order, each at most once. In the sequence of the events
of the run (store mutations, invocations issued, continuations run, callback)
every invocation is issued while no other is pending, so that every invocation
but the first is issued by the continuation of the one before, after that one
has finished, and the continuation of every invocation is run; the completion
callback is called exactly once, as the last event and right after the last
store mutation, with the store of that mutation; and nothing is issued or
changed afterwards, however long the main loop goes on. -/
theorem pipeline_sequencing (env : Env) (n : Nat) (h : 4 ≤ n) :
    List.Sublist ((invocations env n (identifyDynamically env)).map Prod.snd) pipelineOrder ∧
    (invocations env n (identifyDynamically env)).length ≤ 4 ∧
    (∃ defs, mainLoop env n (identifyDynamically env) = .called defs) ∧
    invocations env n (identifyDynamically env) = invocations env 4 (identifyDynamically env) ∧
    mainLoop env n (identifyDynamically env) = identify env ∧
    (∀ cmd cont defs, identifyDynamically env = .forked cmd cont defs →
      invocations env n (identifyDynamically env) =
        (cmd, cont) :: invocations env (n - 1) (queryDone env cont defs (env.captured cmd))) ∧
    issuedIn (identifyT env n) = invocations env n (identifyDynamically env) ∧
    oneAtATime 0 (identifyT env n) = true ∧
    finishedIn (identifyT env n) = (issuedIn (identifyT env n)).map Prod.snd ∧
    callbacksIn (identifyT env n) = 1 ∧
    (∃ pre defs, identifyT env n = pre ++ [.mutated defs, .callback defs] ∧
      callbacksIn pre = 0 ∧ identify env = .called defs) ∧
    identifyT env n = identifyT env 4 := by
  have hrank := identifyDynamically_rank env
  have hsub : List.Sublist
      ((invocations env n (identifyDynamically env)).map Prod.snd) pipelineOrder :=
    (invocations_sublist env n _).trans (stagesFrom_sublist _)
  have hloop : mainLoop env n (identifyDynamically env) = identify env :=
    mainLoop_fuel env n 4 _ (by omega) hrank
  obtain ⟨e1, e2, e3, e4, pre, defs, e5, e6, e7⟩ :=
    run_events env n (identifyDynamically env) (identifyDynamicallyT env)
      (identifyDynamicallyT_agrees env) (by omega)
  refine ⟨hsub, ?_, mainLoop_called env n _ (by omega), ?_, hloop, ?_, e3, e1, ?_, e2,
    ⟨pre, defs, e5, e6, by rw [← hloop]; exact e7⟩, ?_⟩
  · have hlen := hsub.length_le
    simpa [pipelineOrder] using hlen
  · exact invocations_fuel env n 4 _ (by omega) hrank
  · intro cmd cont defs hid
    rw [hid]
    obtain ⟨k, rfl⟩ : ∃ k, n = k + 1 := ⟨n - 1, by omega⟩
    rfl
  · show finishedIn (identifyT env n) = (issuedIn (identifyT env n)).map Prod.snd
    rw [show issuedIn (identifyT env n) = invocations env n (identifyDynamically env) from e3]
    exact e4
  · unfold identifyT
    rw [run_fuel env n 4 (identifyDynamically env) (identifyDynamicallyT env)
      (identifyDynamicallyT_agrees env) (by omega) hrank]

theorem pipeline_sequencing_witness :
    List.Sublist ((invocations overrideEnv 4 (identifyDynamically overrideEnv)).map Prod.snd)
      pipelineOrder ∧
    invocations overrideEnv 4 (identifyDynamically overrideEnv) =
      [("getid".toList, .platformid), ("getvariant".toList, .variant)] ∧
    oneAtATime 0 (identifyT overrideEnv 4) = true ∧
    callbacksIn (identifyT overrideEnv 4) = 1 ∧
    finishedIn (identifyT overrideEnv 4) = [.platformid, .variant] :=
  ⟨(pipeline_sequencing overrideEnv 4 (by decide)).1, by decide,
   (pipeline_sequencing overrideEnv 4 (by decide)).2.2.2.2.2.2.2.1,
   (pipeline_sequencing overrideEnv 4 (by decide)).2.2.2.2.2.2.2.2.2.1, by decide⟩

end P44maintd
